import Mathlib

/-!
The tac08 rendering core `pico_core.cpp`: shallow embedding and verified properties.

The rendering core keeps all of its state in file-level statics.  The embedding
threads that state explicitly through a `Console` record:

* `backbuffer_store` is the single `128 * 256` colour array that holds the first
  guard region, the framebuffer and the second guard region.  It is modelled as a
  function from a cell index (counted from the start of the array) to the colour
  stored there; the pointer `backbuffer` is the index `128 * 64`.  An index
  outside `[0, 128 * 256)` lies outside the allocation.
* C `int` values are modelled as mathematical integers.  Signed overflow is
  undefined in the source, so every statement is about overflow-free runs.
* `colour_t` and `uint8_t` values are naturals; the places that produce such a
  value from a wider one truncate explicitly.
* `for` loops become structural recursion on the number of remaining iterations.
-/

namespace Tac08

/-! ## Memory -/

/-- A store of colour cells addressed by a cell index. -/
abbrev Mem := Int → Nat

/-- Store `v` in cell `a` (the C assignment `p[a] = v`). -/
def Mem.write (m : Mem) (a : Int) (v : Nat) : Mem :=
  fun b => if b = a then v else m b

/-- Size of a `size_t` (64-bit target). -/
def SIZE_T : Int := 2 ^ 64

/-- The libc call `memset(p, v, n)`: `n` is converted to `size_t`, so a negative `int`
length wraps to a huge unsigned one.  `v` is a `colour_t`, already a byte. -/
def memset (m : Mem) (p : Int) (v : Nat) (n : Int) : Mem :=
  fun b => if p ≤ b ∧ b < p + n % SIZE_T then v else m b

/-- Index of `backbuffer_guard1` in `backbuffer_store`. -/
def backbuffer_guard1 : Int := 0

/-- Index of `backbuffer` (the framebuffer) in `backbuffer_store`. -/
def backbuffer : Int := 128 * 64

/-- Index of `backbuffer_guard2` in `backbuffer_store`. -/
def backbuffer_guard2 : Int := 128 * 192

/-! ## Input state -/

/-- The struct `InputState`; all three fields are `uint8_t`. -/
structure InputState where
  old : Nat := 0
  current : Nat := 0
  repcnt : Nat := 0
  deriving DecidableEq, Repr

namespace InputState

/-- The overload `uint8_t justPressed()`: `~old & current`, as a byte. -/
def justPressed_mask (s : InputState) : Nat :=
  (s.old ^^^ 0xff) &&& s.current

/-- The member `void set(int state)`. -/
def set (s : InputState) (state : Int) : InputState :=
  let s1 : InputState := { old := s.current, current := (state % 256).toNat, repcnt := s.repcnt }
  let r1 := if s1.justPressed_mask ≠ 0 then 16 else s1.repcnt
  let r2 := (r1 + 255) % 256
  let r3 := if r2 = 0 then 4 else r2
  { old := s1.old, current := s1.current, repcnt := r3 }

/-- The overload `bool isPressed(uint8_t key)`. -/
def isPressed (s : InputState) (key : Nat) : Bool :=
  (s.current >>> key) &&& 1 == 1

/-- The overload `bool justPressed(uint8_t key)`. -/
def justPressed (s : InputState) (key : Nat) : Bool :=
  (s.justPressed_mask >>> key) &&& 1 != 0

/-- The member `bool justPressedRpt(uint8_t key)`. -/
def justPressedRpt (s : InputState) (key : Nat) : Bool :=
  s.justPressed key || (s.isPressed key && s.repcnt == 1)

/-- The overload `uint8_t justReleased()`. -/
def justReleased_mask (s : InputState) : Nat :=
  s.old &&& (s.current ^^^ 0xff)

/-- The overload `bool justReleased(uint8_t key)`. -/
def justReleased (s : InputState) (key : Nat) : Bool :=
  (s.justReleased_mask >>> key) &&& 1 != 0

/-- Feed a sequence of samples to one player slot, oldest first
(repeated `pico_control::set_input_state`). -/
def feed (s : InputState) (samples : List Int) : InputState :=
  samples.foldl set s

end InputState

/-- The call `pico_api::btnp(n, player)` on the slot of that player. -/
def btnp (slot : InputState) (n : Nat) : Bool :=
  slot.justPressedRpt n

/-! ## Graphics state -/

/-- The struct `GraphicsState`, with its default member initialisers.  The two arrays
have static storage, so they start zeroed. -/
structure GraphicsState where
  fg : Nat := 7
  bg : Nat := 0
  pattern : Nat := 0
  text_x : Int := 0
  text_y : Int := 0
  clip_x1 : Int := 0
  clip_y1 : Int := 0
  clip_x2 : Int := 128
  clip_y2 : Int := 128
  camera_x : Int := 0
  camera_y : Int := 0
  palette_map : Nat → Nat := fun _ => 0
  transparent : Nat → Bool := fun _ => false

/-- The statics the drawing code works on. -/
structure Console where
  backbuffer_store : Mem := fun _ => 0
  buffer_size_x : Int := 128
  buffer_size_y : Int := 128
  graphicsState : GraphicsState := {}
  sprite_data : Mem := fun _ => 0

/-- Assign one cell of `backbuffer_store`. -/
def Console.poke (c : Console) (a : Int) (v : Nat) : Console :=
  { c with backbuffer_store := c.backbuffer_store.write a v }

/-! ## `namespace pico_private` -/

namespace pico_private

/-- One iteration of the loop of `init_guards`: both guards get `i`, truncated to a
byte by the assignment to a `colour_t`. -/
def init_guards_step (m : Mem) (i : Nat) : Mem :=
  (m.write (backbuffer_guard1 + i) (i % 256)).write (backbuffer_guard2 + i) (i % 256)

/-- The loop of `init_guards`, `n` iterations left, starting at index `i`. -/
def init_guards_loop (m : Mem) : Nat → Nat → Mem
  | 0, _ => m
  | n + 1, i => init_guards_loop (init_guards_step m i) n (i + 1)

/-- The function `init_guards`. -/
def init_guards (c : Console) : Console :=
  { c with backbuffer_store := init_guards_loop c.backbuffer_store (128 * 64) 0 }

/-- The two assertions of one iteration of `check_guards`. -/
def check_guards_step (m : Mem) (i : Nat) : Bool :=
  m (backbuffer_guard1 + i) == i &&& 0xff && m (backbuffer_guard2 + i) == i &&& 0xff

/-- The loop of `check_guards`: `true` when every assertion of the remaining `n`
iterations holds, `false` as soon as one fails. -/
def check_guards_loop (m : Mem) : Nat → Nat → Bool
  | 0, _ => true
  | n + 1, i => if check_guards_step m i then check_guards_loop m n (i + 1) else false

/-- The function `check_guards`: `true` when no assertion fails. -/
def check_guards (c : Console) : Bool :=
  check_guards_loop c.backbuffer_store (128 * 64) 0

/-- One assignment of the loop of `restore_palette`. -/
def restore_palette_loop (pm : Nat → Nat) : Nat → Nat → Nat → Nat
  | 0, _ => pm
  | k + 1, n => restore_palette_loop (fun i => if i = n then n else pm i) k (n + 1)

/-- The function `restore_palette`. -/
def restore_palette (g : GraphicsState) : GraphicsState :=
  { g with palette_map := restore_palette_loop g.palette_map 16 0 }

/-- The loop of `restore_transparency`. -/
def restore_transparency_loop (t : Nat → Bool) : Nat → Nat → Nat → Bool
  | 0, _ => t
  | k + 1, n => restore_transparency_loop (fun i => if i = n then false else t i) k (n + 1)

/-- The function `restore_transparency`. -/
def restore_transparency (g : GraphicsState) : GraphicsState :=
  let t := restore_transparency_loop g.transparent 16 0
  { g with transparent := fun i => if i = 0 then true else t i }

/-- Result of `clip_axis`, which updates three of its arguments in place. -/
structure AxisClip where
  dest_pos : Int
  src_pos : Int
  len : Int
  deriving DecidableEq, Repr

/-- The function `clip_axis`. -/
def clip_axis (dest_pos src_pos len min max : Int) : AxisClip :=
  let a : AxisClip :=
    if dest_pos < min then
      { dest_pos := min, src_pos := src_pos + (min - dest_pos), len := len - (min - dest_pos) }
    else { dest_pos := dest_pos, src_pos := src_pos, len := len }
  let len1 := if a.dest_pos + a.len ≥ max then a.len - (a.dest_pos + a.len - max) else a.len
  let len2 := if len1 < 0 then 0 else len1
  { dest_pos := a.dest_pos, src_pos := a.src_pos, len := len2 }

/-- The function `is_visible`. -/
def is_visible (g : GraphicsState) (x y w h : Int) : Bool :=
  if x ≥ g.clip_x2 then false
  else if y ≥ g.clip_y2 then false
  else if x + w ≤ g.clip_x1 then false
  else if y + h ≤ g.clip_y1 then false
  else true

/-- Body of the two inner loops of `blitter` at column `x`: the source colour is
`spr[x]`, or `spr[h - x - 1]` in the `flip_x` branch. -/
def blitter_pixel (c : Console) (sprites : Mem) (spr pix : Int) (flip_x : Bool) (h x : Int) :
    Console :=
  let col := if flip_x then sprites (spr + (h - x - 1)) else sprites (spr + x)
  if c.graphicsState.transparent col then c
  else c.poke (pix + x) (c.graphicsState.palette_map col)

/-- Inner loop of `blitter`: `n` columns left, the next one is `x`. -/
def blitter_row (sprites : Mem) (spr pix : Int) (flip_x : Bool) (h : Int) :
    Nat → Int → Console → Console
  | 0, _, c => c
  | n + 1, x, c => blitter_row sprites spr pix flip_x h n (x + 1)
      (blitter_pixel c sprites spr pix flip_x h x)

/-- Outer loop of `blitter`: `n` rows left; `pix` and `spr` are the two running pointers. -/
def blitter_rows (sprites : Mem) (flip_x : Bool) (w h spr_dy : Int) :
    Nat → Int → Int → Console → Console
  | 0, _, _, c => c
  | n + 1, pix, spr, c =>
      blitter_rows sprites flip_x w h spr_dy n (pix + c.buffer_size_x) (spr + spr_dy)
        (blitter_row sprites spr pix flip_x h w.toNat 0 c)

/-- The function `blitter`.  `sprites` is the `sprite_data` array of the sheet passed in;
pointers into it are cell indices. -/
def blitter (c : Console) (sprites : Mem) (scr_x scr_y spr_x spr_y w h : Int)
    (flip_x flip_y : Bool) : Console :=
  if !is_visible c.graphicsState scr_x scr_y w h then c
  else
    let ax := clip_axis scr_x spr_x w c.graphicsState.clip_x1 c.graphicsState.clip_x2
    let ay := clip_axis scr_y spr_y h c.graphicsState.clip_y1 c.graphicsState.clip_y2
    let spr : Int :=
      if !flip_y then ay.src_pos * 128 + ax.src_pos
      else (ay.src_pos + ay.len - 1) * 128 + ax.src_pos
    let spr_dy : Int := if !flip_y then 128 else -128
    let pix := backbuffer + ay.dest_pos * c.buffer_size_x + ax.dest_pos
    blitter_rows sprites flip_x ax.len ay.len spr_dy ay.len.toNat pix spr c

/-- Inner loop of `stretch_blitter`: `n` columns left, the next one is `x`; `spr` is the
row pointer into the sheet and `spr_x` the fixed-point source column. -/
def stretch_row (sprites : Mem) (spr pix spr_x dx : Int) : Nat → Int → Console → Console
  | 0, _, c => c
  | n + 1, x, c =>
      let col := sprites (spr + ((spr_x + x * dx) >>> (16 : Nat)))
      stretch_row sprites spr pix spr_x dx n (x + 1)
        (if c.graphicsState.transparent col then c
         else c.poke (pix + x) (c.graphicsState.palette_map col))

/-- Outer loop of `stretch_blitter`: `n` rows left, the next one is `y`. -/
def stretch_rows (sprites : Mem) (spr_x spr_y dx dy scr_w : Int) :
    Nat → Int → Int → Console → Console
  | 0, _, _, c => c
  | n + 1, y, pix, c =>
      let spr : Int := ((spr_y + y * dy) >>> (16 : Nat)) * 128
      stretch_rows sprites spr_x spr_y dx dy scr_w n (y + 1) (pix + c.buffer_size_x)
        (stretch_row sprites spr pix spr_x dx scr_w.toNat 0 c)

/-- The function `stretch_blitter`.  `<< 16` is multiplication by `65536`, `/` is the
truncating C division and `>> 16` the arithmetic shift.  The result is `none` when the call
executes an integer division by zero, which is undefined behaviour in the source.  The two
flip parameters are accepted and never read, as in the source. -/
def stretch_blitter (c : Console) (sprites : Mem)
    (spr_x spr_y spr_w spr_h scr_x scr_y scr_w scr_h : Int) (_flip_x _flip_y : Bool) :
    Option Console :=
  let g := c.graphicsState
  if !is_visible g scr_x scr_y scr_w scr_h then some c
  else if scr_w = 0 then none
  else if scr_h = 0 then none
  else
    let dx : Int := Int.tdiv (spr_w * 65536) scr_w
    let dy : Int := Int.tdiv (spr_h * 65536) scr_h
    let spr_x0 := spr_x * 65536
    let spr_y0 := spr_y * 65536
    -- left clip
    let nl := g.clip_x1 - scr_x
    let scr_x1 := if scr_x < g.clip_x1 then g.clip_x1 else scr_x
    let scr_w1 := if scr_x < g.clip_x1 then scr_w - nl else scr_w
    let spr_x1 := if scr_x < g.clip_x1 then spr_x0 + nl * dx else spr_x0
    -- right clip
    let scr_w2 :=
      if scr_x1 + scr_w1 > g.clip_x2 then scr_w1 - ((scr_x1 + scr_w1) - g.clip_x2) else scr_w1
    -- top clip
    let nt := g.clip_y1 - scr_y
    let scr_y1 := if scr_y < g.clip_y1 then g.clip_y1 else scr_y
    let scr_h1 := if scr_y < g.clip_y1 then scr_h - nt else scr_h
    let spr_y1 := if scr_y < g.clip_y1 then spr_y0 + nt * dy else spr_y0
    -- bottom clip
    let scr_h2 :=
      if scr_y1 + scr_h1 > g.clip_y2 then scr_h1 - ((scr_y1 + scr_h1) - g.clip_y2) else scr_h1
    let pix := backbuffer + scr_y1 * c.buffer_size_x + scr_x1
    some (stretch_rows sprites spr_x1 spr_y1 dx dy scr_w2 scr_h2.toNat 0 pix c)

/-- The four in-place updates of `clip_rect` (its return value is always `0`). -/
structure Rect where
  x0 : Int
  y0 : Int
  x1 : Int
  y1 : Int
  deriving DecidableEq, Repr

/-- The function `clip_rect`. -/
def clip_rect (g : GraphicsState) (x0 y0 x1 y1 : Int) : Rect :=
  { x0 := if x0 < g.clip_x1 then g.clip_x1 else x0,
    y0 := if y0 < g.clip_y1 then g.clip_y1 else y0,
    x1 := if x1 ≥ g.clip_x2 then g.clip_x2 - 1 else x1,
    y1 := if y1 ≥ g.clip_y2 then g.clip_y2 - 1 else y1 }

/-- The template `limit`, at `int`. -/
def limit (n min max : Int) : Int :=
  if n < min then min else if n > max then max else n

/-- The function `normalise_coords`: the pair after the conditional swap. -/
def normalise_coords (c0 c1 : Int) : Int × Int :=
  if c0 > c1 then (c1, c0) else (c0, c1)

/-- The C expression `v & 0x3` on a 32-bit two's complement `int`. -/
def and3 (v : Int) : Nat :=
  (v % 2 ^ 32).toNat &&& 0x3

/-- The dither test `(pat >> ((3 - (x & 0x3)) + (3 - (y & 0x3)) * 4)) & 1`. -/
def dither (pat : Nat) (x y : Int) : Bool :=
  (pat >>> ((3 - and3 x) + (3 - and3 y) * 4)) &&& 1 != 0

/-- The per-pixel loop of `hline`: `n` columns left, the next one is `x`. -/
def hline_loop (pix : Int) (pat fg bg : Nat) (y : Int) : Nat → Int → Console → Console
  | 0, _, c => c
  | n + 1, x, c =>
      hline_loop pix pat fg bg y n (x + 1) (c.poke (pix + x) (if dither pat x y then bg else fg))

/-- The function `hline`. -/
def hline (c : Console) (x0 x1 y : Int) : Console :=
  let g := c.graphicsState
  let p := normalise_coords x0 x1
  let x0 := p.1
  let x1 := p.2 + 1
  if y < g.clip_y1 ∨ y ≥ g.clip_y2 then c
  else
    let x0 := limit x0 g.clip_x1 g.clip_x2
    let x1 := limit x1 g.clip_x1 g.clip_x2
    let fg := g.palette_map g.fg
    let bg := g.palette_map g.bg
    let pix := backbuffer + y * c.buffer_size_x
    let pat := g.pattern
    if pat = 0 then { c with backbuffer_store := memset c.backbuffer_store (pix + x0) fg (x1 - x0) }
    else if pat = 0xffff then
      { c with backbuffer_store := memset c.backbuffer_store (pix + x0) bg (x1 - x0) }
    else hline_loop pix pat fg bg y (x1 - x0).toNat x0 c

/-- The loop of `vline`: `n` rows left, the next one is `y`; `pix` is the running pointer. -/
def vline_loop (pat fg bg : Nat) (x : Int) : Nat → Int → Int → Console → Console
  | 0, _, _, c => c
  | n + 1, y, pix, c =>
      vline_loop pat fg bg x n (y + 1) (pix + c.buffer_size_x)
        (c.poke (pix + x) (if dither pat x y then bg else fg))

/-- The function `vline`. -/
def vline (c : Console) (y0 y1 x : Int) : Console :=
  let g := c.graphicsState
  if x < g.clip_x1 ∨ x ≥ g.clip_x2 then c
  else
    let y0 := limit y0 g.clip_y1 g.clip_y2
    let y1 := limit y1 g.clip_y1 g.clip_y2
    let pix := backbuffer + y0 * c.buffer_size_x
    let fg := g.palette_map g.fg
    let bg := g.palette_map g.bg
    let pat := g.pattern
    vline_loop pat fg bg x (y1 - y0).toNat y0 pix c

/-- The function `pico_private::pset`. -/
def pset (c : Console) (x y : Int) : Console :=
  let g := c.graphicsState
  if x < g.clip_x1 ∨ x ≥ g.clip_x2 ∨ y < g.clip_y1 ∨ y ≥ g.clip_y2 then c
  else
    let pix := backbuffer + y * c.buffer_size_x + x
    let pat := g.pattern
    let fg := g.palette_map g.fg
    let bg := g.palette_map g.bg
    if pat = 0 then c.poke pix fg
    else if pat = 0xffff then c.poke pix bg
    else c.poke pix (if dither pat x y then bg else fg)

/-- The function `apply_camera`: the translated point. -/
def apply_camera (g : GraphicsState) (x y : Int) : Int × Int :=
  (x - g.camera_x, y - g.camera_y)

end pico_private

/-! ## `namespace pico_control` -/

namespace pico_control

/-- The function `init(x, y)`, without the registration of the RAM areas, which touches
none of the modelled statics. -/
def init (c : Console) (x y : Int) : Console :=
  let c1 : Console := { c with buffer_size_x := x, buffer_size_y := y }
  let g := pico_private.restore_transparency (pico_private.restore_palette c1.graphicsState)
  pico_private.init_guards { c1 with graphicsState := g }

/-- The function `test_integrity`: `true` when `check_guards` raises no assertion. -/
def test_integrity (c : Console) : Bool :=
  pico_private.check_guards c

/-- Value of a character as a base-16 digit, for the libc function `strtol`. -/
def hex_digit (ch : Int) : Option Int :=
  if 48 ≤ ch ∧ ch ≤ 57 then some (ch - 48)
  else if 97 ≤ ch ∧ ch ≤ 102 then some (ch - 97 + 10)
  else if 65 ≤ ch ∧ ch ≤ 70 then some (ch - 65 + 10)
  else none

/-- The libc predicate `isspace` in the "C" locale. -/
def isspace (ch : Int) : Bool :=
  ch = 32 || (9 ≤ ch && ch ≤ 13)

/-- The digit loop of `strtol` in base 16: stops at the first character that is no digit. -/
def strtol_digits : List Int → Int → Int
  | [], acc => acc
  | ch :: rest, acc =>
      match hex_digit ch with
      | some d => strtol_digits rest (acc * 16 + d)
      | none => acc

/-- The libc call `strtol(buf, nullptr, 16)` on the three-byte buffer of `copy_data_to_ram`,
given as its first two bytes (the third is always `0`): the C string ends at the first
`0`, leading white space is skipped, then an optional sign, then the digits.  The optional
prefix `0x` needs a digit after it to count, which a two-character string cannot hold. -/
def strtol16 (buf : List Int) : Int :=
  match (buf.takeWhile (fun ch => ch != 0)).dropWhile isspace with
  | [] => 0
  | ch :: rest =>
      if ch = 45 then -strtol_digits rest 0
      else if ch = 43 then strtol_digits rest 0
      else strtol_digits (ch :: rest) 0

/-- The `for` loop of `copy_data_to_ram`, for any action `poke` in place of
`pico_api::poke`.  `data` holds the `char` values of the string (signed), `data[n]` at
`n == length` is the terminating `0`; `addr` is a `uint16_t`.  Every pass advances `n`, so
`data.length` passes of fuel cover the whole loop. -/
def copy_data_to_ram_loop {σ : Type} (poke : σ → Nat → Nat → σ) (data : List Int) (gfx : Bool) :
    Nat → Nat → Nat → σ → σ
  | 0, _, _, s => s
  | fuel + 1, n, addr, s =>
      if n < data.length then
        if data.getD n 0 > 32 then
          let d1 := data.getD n 0
          let d2 := data.getD (n + 1) 0
          let buf := if gfx then [d2, d1] else [d1, d2]
          let v := ((strtol16 buf) % 256).toNat
          copy_data_to_ram_loop poke data gfx fuel (n + 1 + 1) ((addr + 1) % 65536)
            (poke s addr v)
        else copy_data_to_ram_loop poke data gfx fuel (n + 1) addr s
      else s

/-- The function `copy_data_to_ram(addr, data, gfx)` for any poke action. -/
def copy_data_to_ram_with {σ : Type} (poke : σ → Nat → Nat → σ) (addr : Nat) (data : List Int)
    (gfx : Bool) (s : σ) : σ :=
  copy_data_to_ram_loop poke data gfx data.length 0 (addr % 65536) s

/-- The pokes `copy_data_to_ram` issues, in call order, as pairs of address and byte: the
same loop with an action that records its arguments. -/
def copy_data_pokes (addr : Nat) (data : List Int) (gfx : Bool) : List (Nat × Nat) :=
  copy_data_to_ram_with (fun (l : List (Nat × Nat)) a v => l ++ [(a, v)]) addr data gfx []

end pico_control

/-- The statics at program start, before `init`. -/
def Console.start : Console := {}

/-- The state right after `pico_control::init(128, 128)`. -/
def Console.initial : Console := pico_control.init Console.start 128 128

/-! ## The address space -/

/-- Modelled from the spec: the class `pico_ram::RAM` is declared in `pico_memory.h`, which
is not part of the sources at hand.  The store is an ideal byte store over the 16-bit
address space in which a read returns the last value written to the address. -/
abbrev RAM := Nat → Nat

/-- Modelled from the spec: `RAM::poke(uint16_t addr, uint8_t val)`; both arguments are
converted to the parameter types by the call. -/
def RAM.poke (r : RAM) (addr val : Nat) : RAM :=
  fun a => if a = addr % 65536 then val % 256 else r a

/-- Modelled from the spec: `RAM::peek(uint16_t addr)`. -/
def RAM.peek (r : RAM) (addr : Nat) : Nat :=
  r (addr % 65536)

/-! ## `namespace pico_api` -/

namespace pico_api

/-- The function `color(uint8_t c)`; the argument is converted to a byte by the call. -/
def color (c : Console) (col : Nat) : Console :=
  let b := col % 256
  { c with graphicsState := { c.graphicsState with fg := b &&& 0xf, bg := b >>> 4 } }

/-- The overload `cls(colour_t c)`. -/
def cls (c : Console) (col : Nat) : Console :=
  let p := c.graphicsState.palette_map col
  { c with
    backbuffer_store := memset c.backbuffer_store backbuffer p (c.buffer_size_x * c.buffer_size_y),
    graphicsState := { c.graphicsState with text_x := 0, text_y := 0 } }

/-- The seven-argument overload of `spr`. -/
def spr (c : Console) (n x y w h : Int) (flip_x flip_y : Bool) : Console :=
  let p := pico_private.apply_camera c.graphicsState x y
  let spr_x := Int.tmod n 16 * 8
  let spr_y := Int.tdiv n 16 * 8
  pico_private.blitter c c.sprite_data p.1 p.2 spr_x spr_y (w * 8) (h * 8) flip_x flip_y

/-- The six-argument overload of `sspr` (fixed blit). -/
def sspr (c : Console) (sx sy sw sh dx dy : Int) : Console :=
  let p := pico_private.apply_camera c.graphicsState dx dy
  pico_private.blitter c c.sprite_data p.1 p.2 sx sy sw sh false false

/-- The eight-argument overload of `sspr` (scaled blit). -/
def sspr_scaled (c : Console) (sx sy sw sh dx dy dw dh : Int) : Option Console :=
  let p := pico_private.apply_camera c.graphicsState dx dy
  pico_private.stretch_blitter c c.sprite_data sx sy sw sh p.1 p.2 dw dh false false

/-- The ten-argument overload of `sspr` (scaled blit with flip flags). -/
def sspr_scaled_flip (c : Console) (sx sy sw sh dx dy dw dh : Int) (flip_x flip_y : Bool) :
    Option Console :=
  let p := pico_private.apply_camera c.graphicsState dx dy
  pico_private.stretch_blitter c c.sprite_data sx sy sw sh p.1 p.2 dw dh flip_x flip_y

/-- The overload `pset(x, y, c)`. -/
def pset (c : Console) (x y : Int) (col : Nat) : Console :=
  let c1 := color c col
  let p := pico_private.apply_camera c1.graphicsState x y
  pico_private.pset c1 p.1 p.2

/-- Inner loop of `rectfill`: `n` columns left, the next one is `x`. -/
def rectfill_row (pix : Int) (pat p1 p2 : Nat) (y : Int) : Nat → Int → Console → Console
  | 0, _, c => c
  | n + 1, x, c =>
      rectfill_row pix pat p1 p2 y n (x + 1)
        (c.poke (pix + x) (if pico_private.dither pat x y then p2 else p1))

/-- Outer loop of `rectfill`: `n` rows left, the next one is `y`. -/
def rectfill_rows (pat p1 p2 : Nat) (x0 x1 : Int) : Nat → Int → Int → Console → Console
  | 0, _, _, c => c
  | n + 1, y, pix, c =>
      rectfill_rows pat p1 p2 x0 x1 n (y + 1) (pix + c.buffer_size_x)
        (rectfill_row pix pat p1 p2 y (x1 - x0 + 1).toNat x0 c)

/-- The overload `rectfill(x0, y0, x1, y1, c)`. -/
def rectfill (c : Console) (x0 y0 x1 y1 : Int) (col : Nat) : Console :=
  let a := pico_private.apply_camera c.graphicsState x0 y0
  let b := pico_private.apply_camera c.graphicsState x1 y1
  let c1 := color c col
  let px := pico_private.normalise_coords a.1 b.1
  let py := pico_private.normalise_coords a.2 b.2
  let r := pico_private.clip_rect c1.graphicsState px.1 py.1 px.2 py.2
  let pix := backbuffer + r.y0 * c1.buffer_size_x
  let cb := col % 256
  let p1 := c1.graphicsState.palette_map (cb &&& 0x0f)
  let p2 := c1.graphicsState.palette_map ((cb >>> 4) &&& 0x0f)
  let pat := c1.graphicsState.pattern
  rectfill_rows pat p1 p2 r.x0 r.x1 (r.y1 - r.y0 + 1).toNat r.y0 pix c1

/-- One pass through the body of the `do … while (x < 0)` loop of `circfill`, repeated
while the condition holds; `none` when the fuel runs out first. -/
def circfill_loop (xm ym : Int) : Nat → Int → Int → Int → Console → Option Console
  | 0, _, _, _, _ => none
  | fuel + 1, x, y, err, c =>
      let c1 := pico_private.hline c (xm - x) (xm + x) (ym + y)
      let c2 := pico_private.hline c1 (xm - x) (xm + x) (ym - y)
      let r := err
      let x1 := if r > x then x + 1 else x
      let err1 := if r > x then err + (x1 * 2 + 1) else err
      let y1 := if r ≤ y then y + 1 else y
      let err2 := if r ≤ y then err1 + (y1 * 2 + 1) else err1
      if x1 < 0 then circfill_loop xm ym fuel x1 y1 err2 c2 else some c2

/-- The overload `circfill(xm, ym, r, c)`; `fuel` bounds the passes of the general loop. -/
def circfill (fuel : Nat) (c : Console) (xm ym r : Int) (col : Nat) : Option Console :=
  let p := pico_private.apply_camera c.graphicsState xm ym
  let xm := p.1
  let ym := p.2
  let c1 := color c col
  if r = 0 then some (pico_private.pset c1 xm ym)
  else if r = 1 then
    some (pico_private.pset
      (pico_private.hline (pico_private.pset c1 xm (ym - 1)) (xm - 1) (xm + 1) ym) xm (ym + 1))
  else if r > 0 then circfill_loop xm ym fuel (-r) 0 (2 - 2 * r) c1
  else some c1

/-- The `do … while (x < 0)` loop of `circ`, for any plotting action `plot` in place of
`pico_private::pset`; `none` when the fuel runs out before the loop condition fails. -/
def circ_loop {σ : Type} (plot : σ → Int → Int → σ) (xm ym : Int) :
    Nat → Int → Int → Int → σ → Option σ
  | 0, _, _, _, _ => none
  | fuel + 1, x, y, err, s =>
      let s1 := plot s (xm - x) (ym + y)
      let s2 := plot s1 (xm - y) (ym - x)
      let s3 := plot s2 (xm + x) (ym - y)
      let s4 := plot s3 (xm + y) (ym + x)
      let r := err
      let x1 := if r > x then x + 1 else x
      let err1 := if r > x then err + (x1 * 2 + 1) else err
      let y1 := if r ≤ y then y + 1 else y
      let err2 := if r ≤ y then err1 + (y1 * 2 + 1) else err1
      if x1 < 0 then circ_loop plot xm ym fuel x1 y1 err2 s4 else some s4

/-- The body of `circ` after `apply_camera` and `color`, for any plotting action. -/
def circ_from {σ : Type} (plot : σ → Int → Int → σ) (fuel : Nat) (xm ym r : Int) (s : σ) :
    Option σ :=
  if r ≥ 0 then circ_loop plot xm ym fuel (-r) 0 (2 - 2 * r) s
  else some s

/-- The overload `circ(xm, ym, r, c)`; `fuel` bounds the passes of the loop. -/
def circ (fuel : Nat) (c : Console) (xm ym r : Int) (col : Nat) : Option Console :=
  let p := pico_private.apply_camera c.graphicsState xm ym
  circ_from pico_private.pset fuel p.1 p.2 r (color c col)

/-- The points `circ` passes to `pico_private::pset`, in call order: the same loop with a
plotting action that records its arguments. -/
def circ_points (fuel : Nat) (xm ym r : Int) : Option (List (Int × Int)) :=
  circ_from (fun (l : List (Int × Int)) x y => l ++ [(x, y)]) fuel xm ym r []

/-- The overload `pal(c0, c1)`. -/
def pal (c : Console) (c0 c1 : Nat) : Console :=
  let g := c.graphicsState
  { c with graphicsState :=
      { g with palette_map := fun i => if i = c0 &&& 0xf then c1 &&& 0xf else g.palette_map i } }

/-- The overload `pal()`. -/
def pal_reset (c : Console) : Console :=
  { c with graphicsState :=
      pico_private.restore_transparency (pico_private.restore_palette c.graphicsState) }

/-- The overload `palt(col, t)`. -/
def palt (c : Console) (col : Nat) (t : Bool) : Console :=
  let g := c.graphicsState
  { c with graphicsState :=
      { g with transparent := fun i => if i = col then t else g.transparent i } }

/-- The overload `palt()`. -/
def palt_reset (c : Console) : Console :=
  { c with graphicsState := pico_private.restore_transparency c.graphicsState }

/-- The overload `clip(x, y, w, h)`. -/
def clip (c : Console) (x y w h : Int) : Console :=
  { c with graphicsState :=
      { c.graphicsState with clip_x1 := x, clip_y1 := y, clip_x2 := x + w, clip_y2 := y + h } }

/-- The overload `camera(x, y)`. -/
def camera (c : Console) (x y : Int) : Console :=
  { c with graphicsState := { c.graphicsState with camera_x := x, camera_y := y } }

/-- The overload `fillp(pattern)`; the field is a `uint16_t`. -/
def fillp (c : Console) (pattern : Int) : Console :=
  { c with graphicsState := { c.graphicsState with pattern := (pattern % 65536).toNat } }

/-- The libc function `abs` on `int`. -/
def int_abs (v : Int) : Int :=
  if v < 0 then -v else v

/-- The `for (;;)` loop of `line`, for any plotting action `plot` in place of
`pico_private::pset`; `none` when the fuel runs out before the `break`. -/
def line_loop {σ : Type} (plot : σ → Int → Int → σ) (x1 y1 dx dy sx sy : Int) :
    Nat → Int → Int → Int → σ → Option σ
  | 0, _, _, _, _ => none
  | fuel + 1, x0, y0, err, s =>
      let s1 := plot s x0 y0
      if x0 = x1 ∧ y0 = y1 then some s1
      else
        let e2 := 2 * err
        let err1 := if e2 ≥ dy then err + dy else err
        let x0a := if e2 ≥ dy then x0 + sx else x0
        let err2 := if e2 ≤ dx then err1 + dx else err1
        let y0a := if e2 ≤ dx then y0 + sy else y0
        line_loop plot x1 y1 dx dy sx sy fuel x0a y0a err2 s1

/-- The body of `line` after `apply_camera` and `color`, for any plotting action. -/
def line_from {σ : Type} (plot : σ → Int → Int → σ) (fuel : Nat) (x0 y0 x1 y1 : Int) (s : σ) :
    Option σ :=
  let dx := int_abs (x1 - x0)
  let sx : Int := if x0 < x1 then 1 else -1
  let dy := -int_abs (y1 - y0)
  let sy : Int := if y0 < y1 then 1 else -1
  let err := dx + dy
  line_loop plot x1 y1 dx dy sx sy fuel x0 y0 err s

/-- The overload `line(x0, y0, x1, y1, c)`; `fuel` bounds the passes of the loop. -/
def line (fuel : Nat) (c : Console) (x0 y0 x1 y1 : Int) (col : Nat) : Option Console :=
  let a := pico_private.apply_camera c.graphicsState x0 y0
  let b := pico_private.apply_camera c.graphicsState x1 y1
  line_from pico_private.pset fuel a.1 a.2 b.1 b.2 (color c col)

/-- The points `line` passes to `pico_private::pset`, in call order: the same loop with a
plotting action that records its arguments. -/
def line_points (fuel : Nat) (x0 y0 x1 y1 : Int) : Option (List (Int × Int)) :=
  line_from (fun (l : List (Int × Int)) x y => l ++ [(x, y)]) fuel x0 y0 x1 y1 []

/-- Two points that differ by at most one in each coordinate. -/
def unit_step (p q : Int × Int) : Prop :=
  int_abs (q.1 - p.1) ≤ 1 ∧ int_abs (q.2 - p.2) ≤ 1

/-- The function `peek(uint16_t a)`. -/
def peek (r : RAM) (a : Nat) : Nat :=
  r.peek (a % 65536)

/-- The function `peek4(uint16_t a)`; the accumulator is a `uint32_t`. -/
def peek4 (r : RAM) (a : Nat) : Nat :=
  let a := a % 65536
  let v := peek r a
  let v := (v ||| (peek r (a + 1) <<< 8) % 2 ^ 32)
  let v := (v ||| (peek r (a + 2) <<< 16) % 2 ^ 32)
  let v := (v ||| (peek r (a + 3) <<< 24) % 2 ^ 32)
  v

/-- The function `poke(uint16_t a, uint8_t v)`. -/
def poke (r : RAM) (a v : Nat) : RAM :=
  r.poke (a % 65536) (v % 256)

/-- The function `poke4(uint16_t a, uint32_t v)`. -/
def poke4 (r : RAM) (a v : Nat) : RAM :=
  let a := a % 65536
  let v := v % 2 ^ 32
  (((r.poke a v).poke (a + 1) (v >>> 8)).poke (a + 2) (v >>> 16)).poke (a + 3) (v >>> 24)

end pico_api

/-- The function `pico_control::copy_data_to_ram(addr, data, gfx)` on the address space. -/
def pico_control.copy_data_to_ram (r : RAM) (addr : Nat) (data : List Int) (gfx : Bool) : RAM :=
  pico_control.copy_data_to_ram_with pico_api.poke addr data gfx r

/-! ## Payloads of hexadecimal pairs -/

/-- A piece of a payload: one character to skip, or two adjacent characters that encode a
byte. -/
inductive PayloadItem where
  | skip (ch : Int)
  | pair (d1 d2 : Int)
  deriving DecidableEq, Repr

/-- The characters of a piece. -/
def PayloadItem.chars : PayloadItem → List Int
  | .skip ch => [ch]
  | .pair d1 d2 => [d1, d2]

/-- A skipped character has a code of at most that of the space; the two characters of a
pair are hexadecimal digits. -/
def PayloadItem.wf : PayloadItem → Prop
  | .skip ch => ch ≤ 32
  | .pair d1 d2 => (pico_control.hex_digit d1).isSome ∧ (pico_control.hex_digit d2).isSome

/-- The payload string spelled by a list of pieces. -/
def payload : List PayloadItem → List Int
  | [] => []
  | it :: rest => it.chars ++ payload rest

/-- Value of a hexadecimal digit character (`0` for any other character). -/
def hex (ch : Int) : Nat :=
  ((pico_control.hex_digit ch).getD 0).toNat

/-- The pokes the pieces of a payload stand for: one per pair, at consecutive 16-bit
addresses from `addr` on; the byte is `16 * hex d1 + hex d2` for a plain target and
`16 * hex d2 + hex d1` for a nibble-packed one. -/
def expected_pokes (gfx : Bool) : List PayloadItem → Nat → List (Nat × Nat)
  | [], _ => []
  | .skip _ :: rest, addr => expected_pokes gfx rest addr
  | .pair d1 d2 :: rest, addr =>
      (addr, if gfx then 16 * hex d2 + hex d1 else 16 * hex d1 + hex d2)
        :: expected_pokes gfx rest ((addr + 1) % 65536)

/-! ## Call sequences -/

/-- A state-changing call of the drawing API that draws nothing. -/
inductive StateCall where
  | clip (x y w h : Int)
  | camera (x y : Int)
  | fillp (p : Int)
  | pal (c0 c1 : Nat)
  | color (col : Nat)

/-- Run one state-changing call. -/
def StateCall.run (c : Console) : StateCall → Console
  | .clip x y w h => pico_api.clip c x y w h
  | .camera x y => pico_api.camera c x y
  | .fillp p => pico_api.fillp c p
  | .pal c0 c1 => pico_api.pal c c0 c1
  | .color col => pico_api.color c col

/-- A palette call with arguments. -/
inductive PalCall where
  | pal (c0 c1 : Nat)
  | palt (col : Nat) (t : Bool)

/-- Run one palette call. -/
def PalCall.run (c : Console) : PalCall → Console
  | .pal c0 c1 => pico_api.pal c c0 c1
  | .palt col t => pico_api.palt c col t

/-! ## Spans drawn pixel by pixel -/

/-- Calls of `pico_private::pset(x, y)` for `n` successive columns, the first one `x`. -/
def pset_run (y : Int) : Nat → Int → Console → Console
  | 0, _, c => c
  | n + 1, x, c => pset_run y n (x + 1) (pico_private.pset c x y)

/-- The span as the specification words it, to be compared with `pico_private.hline`:
`pico_private::pset(x, y)` for every `x` from `min(x0, x1)` to `max(x0, x1)` inclusive. -/
def hline_by_pset (c : Console) (x0 x1 y : Int) : Console :=
  pset_run y (max x0 x1 - min x0 x1 + 1).toNat (min x0 x1) c

/-! ## Concrete inputs -/

/-- A console in the initial state whose sprite sheet holds colour `1` everywhere
(as after `sset` on every cell). -/
def Console.painted : Console :=
  { Console.initial with sprite_data := fun _ => 1 }

/-- A console in the initial state whose sprite sheet holds colour `1` at `(15, 0)`,
colour `2` at `(7, 0)` and colour `0` elsewhere (as after `sset(15, 0, 1); sset(7, 0, 2)`). -/
def Console.marked : Console :=
  { Console.initial with sprite_data := fun a => if a = 15 then 1 else if a = 7 then 2 else 0 }

/-- A console in the initial state whose sprite sheet holds colour `1` at `(0, 3)`,
colour `2` at `(0, 7)` and colour `0` elsewhere (as after `sset(0, 3, 1); sset(0, 7, 2)`). -/
def Console.striped : Console :=
  { Console.initial with
    sprite_data := fun a => if a = 3 * 128 then 1 else if a = 7 * 128 then 2 else 0 }

/-! ## Input state machine -/

/-- One more held sample: the effect of `set 1` on a slot whose current mask is `1`. -/
theorem InputState.set_held (o r : Nat) :
    InputState.set { old := o, current := 1, repcnt := r } 1 =
      { old := 1, current := 1,
        repcnt := if (r + 255) % 256 = 0 then 4 else (r + 255) % 256 } := by
  have h1 : ((1 : Int) % 256).toNat = 1 := by decide
  have h2 : ((1 : Nat) ^^^ 0xff) &&& 1 = 0 := by decide
  simp only [InputState.set, InputState.justPressed_mask, h1, h2, ne_eq, not_true_eq_false,
    if_false]

/-- State of a slot after the sample `0` followed by `k + 1` samples `1`. -/
theorem InputState.feed_held (k : Nat) :
    InputState.feed {} (0 :: List.replicate (k + 1) 1) =
      { old := if k = 0 then 0 else 1, current := 1,
        repcnt := if k ≤ 14 then 15 - k else 4 - (k - 15) % 4 } := by
  induction k with
  | zero => decide
  | succ n ih =>
    have hsplit : (0 : Int) :: List.replicate (n + 1 + 1) 1
        = (0 :: List.replicate (n + 1) 1) ++ [1] := by
      rw [List.replicate_succ' (n + 1)]; rfl
    rw [InputState.feed] at ih
    rw [hsplit, InputState.feed, List.foldl_append, ih]
    simp only [List.foldl_cons, List.foldl_nil, InputState.set_held]
    have e : (if n + 1 = 0 then 0 else 1) = 1 := by simp
    rw [e]
    congr 1
    split_ifs <;> omega

/-- C3 (amended): from a fresh slot fed `0, 1, 1, 1, …`, after the first `1` and `k` further
samples: `justPressed(0)` holds exactly for `k = 0`, `isPressed(0)` always holds, and
`btnp` (`justPressedRpt(0)`) holds exactly for `k = 0`, `k = 14`, and every fourth sample
after that. -/
theorem C3_repeat_schedule (k : Nat) :
    (InputState.feed {} (0 :: List.replicate (k + 1) 1)).justPressed 0 = decide (k = 0) ∧
    (InputState.feed {} (0 :: List.replicate (k + 1) 1)).isPressed 0 = true ∧
    btnp (InputState.feed {} (0 :: List.replicate (k + 1) 1)) 0
      = decide (k = 0 ∨ (14 ≤ k ∧ (k - 14) % 4 = 0)) := by
  rw [InputState.feed_held]
  have h2 : ((1 : Nat) ^^^ 0xff) &&& 1 = 0 := by decide
  have h3 : ((0 : Nat) ^^^ 0xff) &&& 1 = 1 := by decide
  refine ⟨?_, by simp [InputState.isPressed], ?_⟩
  · by_cases hk : k = 0
    · subst hk; decide
    · simp [InputState.justPressed, InputState.justPressed_mask, hk]
  · by_cases hk : k = 0
    · subst hk; decide
    · simp only [btnp, InputState.justPressedRpt, InputState.justPressed,
        InputState.justPressed_mask, InputState.isPressed, hk, if_false, false_or, h2]
      have h4 : ((0 : Nat) >>> 0 &&& 1 != 0) = false := by decide
      have h5 : ((1 : Nat) >>> 0 &&& 1 == 1) = true := by decide
      simp only [h4, h5, Bool.false_or, Bool.true_and]
      rw [Bool.eq_iff_iff]
      simp only [beq_iff_eq, decide_eq_true_eq]
      split_ifs <;> omega

/-- C3 (as stated) fails: `btnp` is already true 14 samples after the first `1`, and it is
false 16 samples after it. -/
theorem C3_not_sixteen :
    btnp (InputState.feed {} (0 :: List.replicate (14 + 1) 1)) 0 = true ∧
    btnp (InputState.feed {} (0 :: List.replicate (16 + 1) 1)) 0 = false := by
  decide

/-! ## Memory and frame lemmas -/

@[simp] theorem Mem.write_same (m : Mem) (a : Int) (v : Nat) : m.write a v a = v := by
  simp [Mem.write]

theorem Mem.write_other (m : Mem) (a b : Int) (v : Nat) (h : b ≠ a) : m.write a v b = m b := by
  simp [Mem.write, h]

@[simp] theorem Console.poke_store (c : Console) (a : Int) (v : Nat) :
    (c.poke a v).backbuffer_store = c.backbuffer_store.write a v := rfl

@[simp] theorem Console.poke_graphicsState (c : Console) (a : Int) (v : Nat) :
    (c.poke a v).graphicsState = c.graphicsState := rfl

@[simp] theorem Console.poke_buffer_size_x (c : Console) (a : Int) (v : Nat) :
    (c.poke a v).buffer_size_x = c.buffer_size_x := rfl

@[simp] theorem Console.poke_sprite_data (c : Console) (a : Int) (v : Nat) :
    (c.poke a v).sprite_data = c.sprite_data := rfl

/-! ## Guard regions -/

namespace pico_private

/-- Cells outside the two index ranges of the loop keep their value. -/
theorem init_guards_loop_other (n : Nat) : ∀ (m : Mem) (i : Nat) (a : Int),
    (∀ j : Nat, i ≤ j → j < i + n → a ≠ backbuffer_guard1 + j ∧ a ≠ backbuffer_guard2 + j) →
    init_guards_loop m n i a = m a := by
  induction n with
  | zero => intro m i a _; rfl
  | succ n ih =>
    intro m i a h
    rw [init_guards_loop, ih _ _ _ (fun j h1 h2 => h j (by omega) (by omega))]
    have := h i (le_refl _) (by omega)
    simp [init_guards_step, Mem.write, this.1, this.2]

/-- Every guard cell the loop visits ends up holding its index as a byte. -/
theorem init_guards_loop_guard (n : Nat) : ∀ (m : Mem) (i j : Nat),
    i ≤ j → j < i + n → i + n ≤ 128 * 64 →
    init_guards_loop m n i (backbuffer_guard1 + j) = j % 256 ∧
    init_guards_loop m n i (backbuffer_guard2 + j) = j % 256 := by
  induction n with
  | zero => intro m i j h1 h2; omega
  | succ n ih =>
    intro m i j h1 h2 h3
    rw [init_guards_loop]
    by_cases hj : j = i
    · subst hj
      rw [init_guards_loop_other, init_guards_loop_other]
      · simp [init_guards_step, Mem.write, backbuffer_guard1, backbuffer_guard2]
      · intro k hk1 hk2
        simp only [backbuffer_guard1, backbuffer_guard2]
        omega
      · intro k hk1 hk2
        simp only [backbuffer_guard1, backbuffer_guard2]
        omega
    · exact ih _ _ _ (by omega) (by omega) (by omega)

/-- The loop of `check_guards` succeeds exactly when every visited index passes. -/
theorem check_guards_loop_eq_true (m : Mem) (n : Nat) : ∀ i : Nat,
    check_guards_loop m n i = true ↔ ∀ j : Nat, i ≤ j → j < i + n → check_guards_step m j = true := by
  induction n with
  | zero =>
    intro i
    simp only [check_guards_loop, true_iff]
    intro j h1 h2
    omega
  | succ n ih =>
    intro i
    rw [check_guards_loop]
    constructor
    · intro h j h1 h2
      by_cases hs : check_guards_step m i = true
      · rw [if_pos hs] at h
        by_cases hj : j = i
        · rw [hj]; exact hs
        · exact (ih (i + 1)).1 h j (by omega) (by omega)
      · rw [if_neg hs] at h; exact absurd h (by simp)
    · intro h
      rw [if_pos (h i (le_refl _) (by omega))]
      exact (ih (i + 1)).2 (fun j h1 h2 => h j (by omega) (by omega))

/-- No false positive: the check passes on what `init_guards` wrote. -/
theorem check_guards_init_guards (c : Console) : check_guards (init_guards c) = true := by
  have hand : ∀ j : Nat, j &&& 0xff = j % 256 := fun j =>
    Nat.and_pow_two_sub_one_eq_mod j 8
  rw [check_guards, check_guards_loop_eq_true]
  intro j h1 h2
  have h := init_guards_loop_guard (128 * 64) c.backbuffer_store 0 j h1 h2 (by omega)
  simp only [check_guards_step, init_guards, hand, h.1, h.2, beq_self_eq_true, Bool.and_self]

/-- Detection: one guard byte that differs from the low byte of its index fails the check. -/
theorem check_guards_detects (c : Console) (i : Nat) (hi : i < 128 * 64)
    (hbad : c.backbuffer_store (backbuffer_guard1 + i) ≠ i &&& 0xff ∨
      c.backbuffer_store (backbuffer_guard2 + i) ≠ i &&& 0xff) :
    check_guards c = false := by
  rw [← Bool.not_eq_true, check_guards, check_guards_loop_eq_true]
  intro hall
  have h := hall i (Nat.zero_le _) (by omega)
  simp only [check_guards_step, Bool.and_eq_true, beq_iff_eq] at h
  rcases hbad with hb | hb
  · exact hb h.1
  · exact hb h.2

end pico_private

/-- C6: right after `init_guards` the integrity check passes, and in any state where some
byte of either guard array differs from the low byte of its index the check fails. -/
theorem C6_guard_check (c : Console) :
    pico_private.check_guards (pico_private.init_guards c) = true ∧
    ∀ i : Nat, i < 128 * 64 →
      (c.backbuffer_store (backbuffer_guard1 + i) ≠ i &&& 0xff ∨
       c.backbuffer_store (backbuffer_guard2 + i) ≠ i &&& 0xff) →
      pico_private.check_guards c = false :=
  ⟨pico_private.check_guards_init_guards c, pico_private.check_guards_detects c⟩

/-- C6 at a concrete input: one corrupted byte in the first guard after `init_guards`. -/
theorem C6_guard_check_witness :
    pico_private.check_guards
      ((pico_private.init_guards Console.start).poke (backbuffer_guard1 + (5 : Nat)) 99) = false :=
  (C6_guard_check ((pico_private.init_guards Console.start).poke
    (backbuffer_guard1 + (5 : Nat)) 99)).2 5 (by decide) (Or.inl (by decide))

/-! ## Palette and transparency -/

namespace pico_private

theorem restore_palette_loop_apply (k : Nat) : ∀ (pm : Nat → Nat) (n i : Nat),
    restore_palette_loop pm k n i = if n ≤ i ∧ i < n + k then i else pm i := by
  induction k with
  | zero =>
    intro pm n i
    have : ¬ (n ≤ i ∧ i < n + 0) := by omega
    simp only [restore_palette_loop, this, if_false]
  | succ k ih =>
    intro pm n i
    rw [restore_palette_loop, ih]
    by_cases h1 : n + 1 ≤ i ∧ i < n + 1 + k
    · rw [if_pos h1, if_pos (by omega)]
    · rw [if_neg h1]
      by_cases h2 : i = n
      · rw [if_pos h2, if_pos (by omega)]
        exact h2.symm
      · rw [if_neg h2, if_neg (by omega)]

theorem restore_transparency_loop_apply (k : Nat) : ∀ (t : Nat → Bool) (n i : Nat),
    restore_transparency_loop t k n i = if n ≤ i ∧ i < n + k then false else t i := by
  induction k with
  | zero =>
    intro t n i
    have : ¬ (n ≤ i ∧ i < n + 0) := by omega
    simp only [restore_transparency_loop, this, if_false]
  | succ k ih =>
    intro t n i
    rw [restore_transparency_loop, ih]
    by_cases h1 : n + 1 ≤ i ∧ i < n + 1 + k
    · rw [if_pos h1, if_pos (by omega)]
    · rw [if_neg h1]
      by_cases h2 : i = n
      · rw [if_pos h2, if_pos (by omega)]
      · rw [if_neg h2, if_neg (by omega)]

/-- After `restore_palette` the sixteen entries are the identity. -/
theorem restore_palette_map (g : GraphicsState) (n : Nat) (h : n < 16) :
    (restore_palette g).palette_map n = n := by
  simp only [restore_palette, restore_palette_loop_apply]
  rw [if_pos (by omega)]

/-- After `restore_transparency` only colour `0` of the sixteen is transparent. -/
theorem restore_transparency_map (g : GraphicsState) (n : Nat) (h : n < 16) :
    (restore_transparency g).transparent n = decide (n = 0) := by
  simp only [restore_transparency, restore_transparency_loop_apply]
  by_cases h0 : n = 0
  · simp [h0]
  · rw [if_neg h0, if_pos (by omega)]
    simp [h0]

@[simp] theorem restore_transparency_palette_map (g : GraphicsState) :
    (restore_transparency g).palette_map = g.palette_map := rfl

@[simp] theorem restore_palette_transparent (g : GraphicsState) :
    (restore_palette g).transparent = g.transparent := rfl

end pico_private

/-- C7: whatever `pal(c0, c1)` and `palt(c, t)` calls came before, from any state, the
no-argument `pal()` leaves `palette_map[n] == n` and `transparent[n] == (n == 0)` for
every `n` in `0..15`. -/
theorem C7_pal_reset (c : Console) (calls : List PalCall) (n : Nat) (hn : n < 16) :
    (pico_api.pal_reset (calls.foldl PalCall.run c)).graphicsState.palette_map n = n ∧
    (pico_api.pal_reset (calls.foldl PalCall.run c)).graphicsState.transparent n
      = decide (n = 0) := by
  constructor
  · simp only [pico_api.pal_reset, pico_private.restore_transparency_palette_map]
    exact pico_private.restore_palette_map _ n hn
  · simp only [pico_api.pal_reset]
    exact pico_private.restore_transparency_map _ n hn

/-- C7 at a concrete input: `pal(); pal(3, 9); palt(3, true); pal()` seen at colour `3`. -/
theorem C7_pal_reset_witness :
    (pico_api.pal_reset
        ([PalCall.pal 3 9, PalCall.palt 3 true].foldl PalCall.run
          (pico_api.pal_reset Console.start))).graphicsState.palette_map 3 = 3 ∧
    (pico_api.pal_reset
        ([PalCall.pal 3 9, PalCall.palt 3 true].foldl PalCall.run
          (pico_api.pal_reset Console.start))).graphicsState.transparent 3 = decide (3 = 0) :=
  C7_pal_reset (pico_api.pal_reset Console.start) [PalCall.pal 3 9, PalCall.palt 3 true] 3
    (by decide)

/-! ## Pixel writes -/

namespace pico_private

/-- The expression `v & 0x3` is the residue of `v` modulo 4, also for negative `v`. -/
theorem and3_eq (v : Int) : and3 v = (v % 4).toNat := by
  have h := Nat.and_pow_two_sub_one_eq_mod (v % 2 ^ 32).toNat 2
  have e : and3 v = (v % 2 ^ 32).toNat % 4 := h
  rw [e]
  omega

/-- The dither test reads bit `(3 - x mod 4) + (3 - y mod 4) * 4` of the pattern. -/
theorem dither_eq (pat : Nat) (x y : Int) :
    dither pat x y = pat.testBit ((3 - (x % 4).toNat) + (3 - (y % 4).toNat) * 4) := by
  simp only [dither, and3_eq, Nat.testBit, Nat.one_and_eq_mod_two, Nat.and_one_is_mod]

/-- The two fast paths of `pset` agree with the dither test. -/
theorem pset_eq_dither (c : Console) (x y : Int) :
    pset c x y =
      if x < c.graphicsState.clip_x1 ∨ x ≥ c.graphicsState.clip_x2 ∨
          y < c.graphicsState.clip_y1 ∨ y ≥ c.graphicsState.clip_y2 then c
      else c.poke (backbuffer + y * c.buffer_size_x + x)
        (if dither c.graphicsState.pattern x y
          then c.graphicsState.palette_map c.graphicsState.bg
          else c.graphicsState.palette_map c.graphicsState.fg) := by
  have hx : (x % 4).toNat ≤ 3 := by omega
  have hy : (y % 4).toNat ≤ 3 := by omega
  have hk : (3 - (x % 4).toNat) + (3 - (y % 4).toNat) * 4 < 16 := by omega
  unfold pset
  simp only []
  split_ifs with h1 h2 h3 h4 h5 h6
  · rfl
  · rw [dither_eq, h2] at h3; simp at h3
  · rfl
  · rfl
  · rw [dither_eq, h4] at h5
    rw [show (65535 : Nat) = 2 ^ 16 - 1 by norm_num, Nat.testBit_two_pow_sub_one] at h5
    simp [hk] at h5
  · rfl
  · rfl

end pico_private

/-- C9: `pico_private::pset` writes nothing when `(x, y)` is outside the clip rectangle;
inside it, it stores `palette_map[bg]` in the cell of `(x, y)` when bit
`(3 - x mod 4) + (3 - y mod 4) * 4` of the pattern is set and `palette_map[fg]` when it is
clear, for every pattern, `0` and `0xffff` included. -/
theorem C9_pset_pattern (c : Console) (x y : Int) :
    pico_private.pset c x y =
      if c.graphicsState.clip_x1 ≤ x ∧ x < c.graphicsState.clip_x2 ∧
          c.graphicsState.clip_y1 ≤ y ∧ y < c.graphicsState.clip_y2 then
        c.poke (backbuffer + y * c.buffer_size_x + x)
          (if c.graphicsState.pattern.testBit ((3 - (x % 4).toNat) + (3 - (y % 4).toNat) * 4)
            then c.graphicsState.palette_map c.graphicsState.bg
            else c.graphicsState.palette_map c.graphicsState.fg)
      else c := by
  rw [pico_private.pset_eq_dither, pico_private.dither_eq]
  by_cases h : c.graphicsState.clip_x1 ≤ x ∧ x < c.graphicsState.clip_x2 ∧
      c.graphicsState.clip_y1 ≤ y ∧ y < c.graphicsState.clip_y2
  · rw [if_pos h, if_neg (by omega)]
  · rw [if_neg h, if_pos (by omega)]

/-! ## The initial state -/

theorem Console.initial_store :
    Console.initial.backbuffer_store =
      pico_private.init_guards_loop (fun _ => 0) (128 * 64) 0 := by
  simp only [Console.initial, pico_control.init, pico_private.init_guards, Console.start]

theorem Console.initial_graphicsState :
    Console.initial.graphicsState =
      pico_private.restore_transparency (pico_private.restore_palette {}) := rfl

theorem Console.initial_buffer_size_x : Console.initial.buffer_size_x = 128 := rfl

theorem Console.initial_buffer_size_y : Console.initial.buffer_size_y = 128 := rfl

/-- In the initial state the sixteen palette entries are the identity. -/
theorem Console.initial_palette_map (n : Nat) (h : n < 16) :
    Console.initial.graphicsState.palette_map n = n := by
  rw [Console.initial_graphicsState, pico_private.restore_transparency_palette_map]
  exact pico_private.restore_palette_map _ n h

/-- In the initial state the framebuffer cells are the zeroes of static storage. -/
theorem Console.initial_store_framebuffer (a : Int) (h1 : backbuffer ≤ a)
    (h2 : a < backbuffer_guard2) : Console.initial.backbuffer_store a = 0 := by
  rw [Console.initial_store, pico_private.init_guards_loop_other]
  intro j _ hj
  simp only [backbuffer, backbuffer_guard1, backbuffer_guard2] at *
  omega

/-- In the initial state every guard cell holds the low byte of its index. -/
theorem Console.initial_store_guard (j : Nat) (h : j < 128 * 64) :
    Console.initial.backbuffer_store (backbuffer_guard1 + j) = j % 256 ∧
    Console.initial.backbuffer_store (backbuffer_guard2 + j) = j % 256 := by
  rw [Console.initial_store]
  exact pico_private.init_guards_loop_guard _ _ 0 j (Nat.zero_le _) (by omega) (by omega)

/-- The scalar fields of the initial graphics state. -/
theorem Console.initial_fields :
    Console.initial.graphicsState.pattern = 0 ∧
    Console.initial.graphicsState.camera_x = 0 ∧ Console.initial.graphicsState.camera_y = 0 ∧
    Console.initial.graphicsState.clip_x1 = 0 ∧ Console.initial.graphicsState.clip_y1 = 0 ∧
    Console.initial.graphicsState.clip_x2 = 128 ∧ Console.initial.graphicsState.clip_y2 = 128 := by
  rw [Console.initial_graphicsState]
  exact ⟨rfl, rfl, rfl, rfl, rfl, rfl, rfl⟩

/-- With no camera offset, no fill pattern and a 128-wide buffer, the calls
`clip(0, -1, 128, 128); pset(0, -1, 7)` store `palette_map[7]` in cell `8064` of
`backbuffer_store`. -/
theorem pset_above_screen (c : Console) (hpat : c.graphicsState.pattern = 0)
    (hcx : c.graphicsState.camera_x = 0) (hcy : c.graphicsState.camera_y = 0)
    (hb : c.buffer_size_x = 128) :
    (pico_api.pset ([StateCall.clip 0 (-1) 128 128].foldl StateCall.run c)
      0 (-1) 7).backbuffer_store = c.backbuffer_store.write 8064 (c.graphicsState.palette_map 7) := by
  simp only [List.foldl_cons, List.foldl_nil, StateCall.run, pico_api.pset, pico_api.color,
    pico_api.clip, pico_private.apply_camera, pico_private.pset, hpat, hcx, hcy, hb]
  have e7 : (7 % 256 &&& 0xf : Nat) = 7 := by decide
  rw [if_neg (by decide), if_pos trivial, e7]
  simp only [Console.poke_store]
  congr 1

/-- C1 at the failing input `clip(0, -1, 128, 128); pset(0, -1, 7)`: the pixel passes the
clip test and is stored at `backbuffer - 128`, which is cell `8064` of the first guard
array; the cell held `128` and now holds `7`, and the integrity check, which passed right
after `init`, fails. -/
theorem C1_pset_overwrites_guard :
    Console.initial.backbuffer_store (backbuffer_guard1 + (8064 : Nat)) = 128 ∧
    (pico_api.pset ([StateCall.clip 0 (-1) 128 128].foldl StateCall.run Console.initial)
      0 (-1) 7).backbuffer_store (backbuffer_guard1 + (8064 : Nat)) = 7 ∧
    pico_private.check_guards Console.initial = true ∧
    pico_private.check_guards
      (pico_api.pset ([StateCall.clip 0 (-1) 128 128].foldl StateCall.run Console.initial)
        0 (-1) 7) = false := by
  obtain ⟨hpat, hcx, hcy, -⟩ := Console.initial_fields
  have hstore :
      (pico_api.pset ([StateCall.clip 0 (-1) 128 128].foldl StateCall.run Console.initial)
        0 (-1) 7).backbuffer_store (backbuffer_guard1 + (8064 : Nat)) = 7 := by
    rw [pset_above_screen _ hpat hcx hcy Console.initial_buffer_size_x,
      Console.initial_palette_map 7 (by decide)]
    exact Mem.write_same _ _ _
  refine ⟨?_, hstore, ?_, ?_⟩
  · exact (Console.initial_store_guard 8064 (by decide)).1
  · exact pico_private.check_guards_init_guards _
  · refine pico_private.check_guards_detects _ 8064 (by decide) (Or.inl ?_)
    rw [hstore]
    decide

/-! ## The fixed blitter: which cells it can change -/

namespace pico_private

theorem blitter_pixel_graphicsState (c : Console) (sprites : Mem) (spr pix : Int) (f : Bool)
    (h x : Int) : (blitter_pixel c sprites spr pix f h x).graphicsState = c.graphicsState := by
  unfold blitter_pixel
  simp only []
  split_ifs <;> rfl

theorem blitter_pixel_buffer_size_x (c : Console) (sprites : Mem) (spr pix : Int) (f : Bool)
    (h x : Int) : (blitter_pixel c sprites spr pix f h x).buffer_size_x = c.buffer_size_x := by
  unfold blitter_pixel
  simp only []
  split_ifs <;> rfl

theorem blitter_pixel_store_other (c : Console) (sprites : Mem) (spr pix : Int) (f : Bool)
    (h x a : Int) (ha : a ≠ pix + x) :
    (blitter_pixel c sprites spr pix f h x).backbuffer_store a = c.backbuffer_store a := by
  unfold blitter_pixel
  simp only []
  split_ifs <;> first | rfl | exact Mem.write_other _ _ _ _ ha

theorem blitter_row_graphicsState (sprites : Mem) (spr pix : Int) (f : Bool) (h : Int)
    (n : Nat) : ∀ (x : Int) (c : Console),
    (blitter_row sprites spr pix f h n x c).graphicsState = c.graphicsState := by
  induction n with
  | zero => intro x c; rfl
  | succ n ih => intro x c; rw [blitter_row, ih, blitter_pixel_graphicsState]

theorem blitter_row_buffer_size_x (sprites : Mem) (spr pix : Int) (f : Bool) (h : Int)
    (n : Nat) : ∀ (x : Int) (c : Console),
    (blitter_row sprites spr pix f h n x c).buffer_size_x = c.buffer_size_x := by
  induction n with
  | zero => intro x c; rfl
  | succ n ih => intro x c; rw [blitter_row, ih, blitter_pixel_buffer_size_x]

/-- One row of the blitter changes no cell outside `pix + [x, x + n)`. -/
theorem blitter_row_store_other (sprites : Mem) (spr pix : Int) (f : Bool) (h : Int)
    (n : Nat) : ∀ (x : Int) (c : Console) (a : Int),
    (a < pix + x ∨ pix + x + n ≤ a) →
    (blitter_row sprites spr pix f h n x c).backbuffer_store a = c.backbuffer_store a := by
  induction n with
  | zero => intro x c a _; rfl
  | succ n ih =>
    intro x c a ha
    rw [blitter_row, ih _ _ _ (by push_cast at ha; omega),
      blitter_pixel_store_other _ _ _ _ _ _ _ _ (by push_cast at ha; omega)]

theorem blitter_rows_graphicsState (sprites : Mem) (f : Bool) (w h d : Int) (n : Nat) :
    ∀ (pix spr : Int) (c : Console),
    (blitter_rows sprites f w h d n pix spr c).graphicsState = c.graphicsState := by
  induction n with
  | zero => intro pix spr c; rfl
  | succ n ih => intro pix spr c; rw [blitter_rows, ih, blitter_row_graphicsState]

theorem blitter_rows_buffer_size_x (sprites : Mem) (f : Bool) (w h d : Int) (n : Nat) :
    ∀ (pix spr : Int) (c : Console),
    (blitter_rows sprites f w h d n pix spr c).buffer_size_x = c.buffer_size_x := by
  induction n with
  | zero => intro pix spr c; rfl
  | succ n ih => intro pix spr c; rw [blitter_rows, ih, blitter_row_buffer_size_x]

/-- The rows of the blitter change no cell outside the `n` runs
`pix + k * buffer_size_x + [0, w)`, `0 ≤ k < n`. -/
theorem blitter_rows_store_other (sprites : Mem) (f : Bool) (w h d : Int) (n : Nat) :
    ∀ (pix spr : Int) (c : Console) (a : Int),
    (∀ k : Nat, k < n →
      a < pix + k * c.buffer_size_x ∨ pix + k * c.buffer_size_x + w.toNat ≤ a) →
    (blitter_rows sprites f w h d n pix spr c).backbuffer_store a = c.backbuffer_store a := by
  induction n with
  | zero => intro pix spr c a _; rfl
  | succ n ih =>
    intro pix spr c a ha
    rw [blitter_rows, ih]
    · apply blitter_row_store_other
      have := ha 0 (by omega)
      simp only [Nat.cast_zero, zero_mul, add_zero] at this
      omega
    · intro k hk
      rw [blitter_row_buffer_size_x]
      have := ha (k + 1) (by omega)
      push_cast at this
      rw [add_mul, one_mul] at this
      omega

/-- After `clip_axis` the run `[dest_pos, dest_pos + len)` lies inside `[min, max)`. -/
theorem clip_axis_bounds (d s l mn mx : Int) :
    0 ≤ (clip_axis d s l mn mx).len ∧ mn ≤ (clip_axis d s l mn mx).dest_pos ∧
    (0 < (clip_axis d s l mn mx).len →
      (clip_axis d s l mn mx).dest_pos + (clip_axis d s l mn mx).len ≤ mx) := by
  by_cases h1 : d < mn
  · simp only [clip_axis, h1, if_true]
    split_ifs <;> omega
  · simp only [clip_axis, h1, if_false]
    split_ifs <;> omega

/-- Every cell the fixed blitter changes is the cell of a point of the clip rectangle. -/
theorem blitter_changes_inside (c : Console) (sprites : Mem)
    (scr_x scr_y spr_x spr_y w h : Int) (flip_x flip_y : Bool) (a : Int)
    (hchg : (blitter c sprites scr_x scr_y spr_x spr_y w h flip_x flip_y).backbuffer_store a
      ≠ c.backbuffer_store a) :
    ∃ px py : Int, a = backbuffer + py * c.buffer_size_x + px ∧
      c.graphicsState.clip_x1 ≤ px ∧ px < c.graphicsState.clip_x2 ∧
      c.graphicsState.clip_y1 ≤ py ∧ py < c.graphicsState.clip_y2 := by
  by_cases hv : is_visible c.graphicsState scr_x scr_y w h = true
  swap
  · simp only [blitter, hv, Bool.not_false, if_true] at hchg
    exact absurd rfl hchg
  · simp only [blitter, hv, Bool.not_true, Bool.false_eq_true, if_false] at hchg
    by_contra hno
    apply hchg
    apply blitter_rows_store_other
    intro k hk
    have bx := clip_axis_bounds scr_x spr_x w c.graphicsState.clip_x1 c.graphicsState.clip_x2
    have by1 := clip_axis_bounds scr_y spr_y h c.graphicsState.clip_y1 c.graphicsState.clip_y2
    generalize clip_axis scr_x spr_x w c.graphicsState.clip_x1 c.graphicsState.clip_x2 = ax at *
    generalize clip_axis scr_y spr_y h c.graphicsState.clip_y1 c.graphicsState.clip_y2 = ay at *
    by_contra hin
    apply hno
    refine ⟨a - (backbuffer + (ay.dest_pos + k) * c.buffer_size_x), ay.dest_pos + k, ?_, ?_⟩
    · ring
    · have hk2 : (k : Int) < ay.len := by omega
      rw [add_mul] at *
      refine ⟨?_, ?_, ?_, ?_⟩ <;> omega

end pico_private

namespace pico_private

/-- Blitting a single source cell to a point of the clip rectangle stores its remapped
colour in the cell of that point, unless the colour is transparent. -/
theorem blitter_one_cell (c : Console) (sprites : Mem) (x y sx sy : Int)
    (hx1 : c.graphicsState.clip_x1 ≤ x) (hx2 : x < c.graphicsState.clip_x2)
    (hy1 : c.graphicsState.clip_y1 ≤ y) (hy2 : y < c.graphicsState.clip_y2)
    (ht : c.graphicsState.transparent (sprites (sy * 128 + sx)) = false) :
    (blitter c sprites x y sx sy 1 1 false false).backbuffer_store =
      c.backbuffer_store.write (backbuffer + y * c.buffer_size_x + x)
        (c.graphicsState.palette_map (sprites (sy * 128 + sx))) := by
  have hv : is_visible c.graphicsState x y 1 1 = true := by
    unfold is_visible
    rw [if_neg (by omega), if_neg (by omega), if_neg (by omega), if_neg (by omega)]
  have hax : clip_axis x sx 1 c.graphicsState.clip_x1 c.graphicsState.clip_x2
      = { dest_pos := x, src_pos := sx, len := 1 } := by
    simp only [clip_axis, if_neg (not_lt.mpr hx1)]
    split_ifs <;> first | rfl | (congr 1; omega)
  have hay : clip_axis y sy 1 c.graphicsState.clip_y1 c.graphicsState.clip_y2
      = { dest_pos := y, src_pos := sy, len := 1 } := by
    simp only [clip_axis, if_neg (not_lt.mpr hy1)]
    split_ifs <;> first | rfl | (congr 1; omega)
  simp only [blitter, hv, Bool.not_true, Bool.false_eq_true, if_false, hax, hay, Bool.not_false,
    if_true]
  have e1 : (1 : Int).toNat = 1 := rfl
  simp only [e1, blitter_rows, blitter_row, blitter_pixel, Bool.false_eq_true, if_false,
    add_zero, ht, Console.poke_store]

end pico_private

/-- With a 128-wide buffer and a clip rectangle whose columns lie inside it
(`0 ≤ clip_x1`, `clip_x2 ≤ 128`), every cell `backbuffer + py * 128 + px` with
`0 ≤ px < 128` whose value the fixed blitter changes has `(px, py)` in
`[clip_x1, clip_x2) × [clip_y1, clip_y2)`, for every destination, size, source origin and
flip combination.  The rows are not constrained: a clip rectangle that leaves the buffer's
rows lets such a cell lie in a guard array. -/
theorem blitter_changes_within_clip (c : Console) (sprites : Mem)
    (scr_x scr_y spr_x spr_y w h : Int) (flip_x flip_y : Bool) (px py : Int)
    (hb : c.buffer_size_x = 128)
    (hx1 : 0 ≤ c.graphicsState.clip_x1) (hx2 : c.graphicsState.clip_x2 ≤ 128)
    (hpx : 0 ≤ px ∧ px < 128)
    (hchg : (pico_private.blitter c sprites scr_x scr_y spr_x spr_y w h flip_x
        flip_y).backbuffer_store (backbuffer + py * 128 + px)
      ≠ c.backbuffer_store (backbuffer + py * 128 + px)) :
    c.graphicsState.clip_x1 ≤ px ∧ px < c.graphicsState.clip_x2 ∧
    c.graphicsState.clip_y1 ≤ py ∧ py < c.graphicsState.clip_y2 := by
  obtain ⟨qx, qy, he, h1, h2, h3, h4⟩ :=
    pico_private.blitter_changes_inside c sprites scr_x scr_y spr_x spr_y w h flip_x flip_y _ hchg
  rw [hb] at he
  have hq : qx = px ∧ qy = py := by omega
  rw [← hq.1, ← hq.2]
  exact ⟨h1, h2, h3, h4⟩

theorem Console.painted_store :
    Console.painted.backbuffer_store = Console.initial.backbuffer_store := by
  simp only [Console.painted]

theorem Console.painted_graphicsState :
    Console.painted.graphicsState = Console.initial.graphicsState := by
  simp only [Console.painted]

theorem Console.painted_buffer_size_x : Console.painted.buffer_size_x = 128 := by
  simp only [Console.painted, Console.initial_buffer_size_x]

theorem Console.painted_sprite_data (a : Int) : Console.painted.sprite_data a = 1 := by
  simp only [Console.painted]

/-- What `clip(x, y, w, h)` stores, and what it leaves alone. -/
theorem pico_api.clip_fields (c : Console) (x y w h : Int) :
    (pico_api.clip c x y w h).graphicsState.clip_x1 = x ∧
    (pico_api.clip c x y w h).graphicsState.clip_y1 = y ∧
    (pico_api.clip c x y w h).graphicsState.clip_x2 = x + w ∧
    (pico_api.clip c x y w h).graphicsState.clip_y2 = y + h ∧
    (pico_api.clip c x y w h).graphicsState.palette_map = c.graphicsState.palette_map ∧
    (pico_api.clip c x y w h).graphicsState.transparent = c.graphicsState.transparent ∧
    (pico_api.clip c x y w h).backbuffer_store = c.backbuffer_store ∧
    (pico_api.clip c x y w h).buffer_size_x = c.buffer_size_x :=
  ⟨rfl, rfl, rfl, rfl, rfl, rfl, rfl, rfl⟩

/-! ## The fixed blitter: what it stores -/

namespace pico_private

/-- Source colour the inner loops of `blitter` read for column `x` of a row. -/
theorem blitter_pixel_store_same (c : Console) (sprites : Mem) (spr pix : Int) (f : Bool)
    (h x : Int) :
    (blitter_pixel c sprites spr pix f h x).backbuffer_store (pix + x) =
      if c.graphicsState.transparent (sprites (spr + (if f then h - x - 1 else x)))
      then c.backbuffer_store (pix + x)
      else c.graphicsState.palette_map (sprites (spr + (if f then h - x - 1 else x))) := by
  unfold blitter_pixel
  cases f <;> simp only [Bool.false_eq_true, if_false, if_true] <;> split_ifs <;>
    first | rfl | exact Mem.write_same _ _ _

/-- Value of a cell of the run after one row of the blitter. -/
theorem blitter_row_store_at (sprites : Mem) (spr pix : Int) (f : Bool) (h : Int) (n : Nat) :
    ∀ (x : Int) (c : Console) (i : Int), x ≤ i → i < x + n →
    (blitter_row sprites spr pix f h n x c).backbuffer_store (pix + i) =
      if c.graphicsState.transparent (sprites (spr + (if f then h - i - 1 else i)))
      then c.backbuffer_store (pix + i)
      else c.graphicsState.palette_map (sprites (spr + (if f then h - i - 1 else i))) := by
  induction n with
  | zero => intro x c i h1 h2; simp only [Nat.cast_zero, add_zero] at h2; omega
  | succ n ih =>
    intro x c i h1 h2
    rw [blitter_row]
    by_cases hi : i = x
    · subst hi
      rw [blitter_row_store_other _ _ _ _ _ _ _ _ _ (Or.inl (by omega)),
        blitter_pixel_store_same]
    · rw [ih _ _ _ (by omega) (by push_cast at h2; omega), blitter_pixel_graphicsState,
        blitter_pixel_store_other _ _ _ _ _ _ _ _ (by omega)]

/-- Value of a cell after the rows of the blitter, when the rows do not overlap
(`w ≤ buffer_size_x`): row `k`, column `i` holds the remapped colour of the cell the code
reads for it, or its old value when that colour is transparent. -/
theorem blitter_rows_store_at (sprites : Mem) (f : Bool) (w h d : Int) (n : Nat) :
    ∀ (pix spr : Int) (c : Console) (k : Nat) (i : Int),
    k < n → 0 ≤ i → i < w → w ≤ c.buffer_size_x →
    (blitter_rows sprites f w h d n pix spr c).backbuffer_store
        (pix + k * c.buffer_size_x + i) =
      if c.graphicsState.transparent (sprites (spr + k * d + (if f then h - i - 1 else i)))
      then c.backbuffer_store (pix + k * c.buffer_size_x + i)
      else c.graphicsState.palette_map (sprites (spr + k * d + (if f then h - i - 1 else i))) := by
  induction n with
  | zero => intro pix spr c k i hk; omega
  | succ n ih =>
    intro pix spr c k i hk h0 hw hb
    rw [blitter_rows]
    cases k with
    | zero =>
      simp only [Nat.cast_zero, zero_mul, add_zero]
      rw [blitter_rows_store_other, blitter_row_store_at _ _ _ _ _ _ _ _ _ h0 (by omega)]
      intro j _
      rw [blitter_row_buffer_size_x]
      left
      have : (0 : Int) ≤ j * c.buffer_size_x :=
        mul_nonneg (Int.ofNat_nonneg j) (by omega)
      omega
    | succ k =>
      have e1 : pix + ((k + 1 : Nat) : Int) * c.buffer_size_x + i
          = pix + c.buffer_size_x + (k : Int) * c.buffer_size_x + i := by
        push_cast; ring
      have e2 : spr + ((k + 1 : Nat) : Int) * d = spr + d + (k : Int) * d := by
        push_cast; ring
      rw [e1, e2]
      have hbs := blitter_row_buffer_size_x sprites spr pix f h w.toNat 0 c
      have key := ih (pix + c.buffer_size_x) (spr + d)
        (blitter_row sprites spr pix f h w.toNat 0 c) k i (by omega) h0 hw (by rw [hbs]; exact hb)
      rw [hbs] at key
      rw [key, blitter_row_graphicsState, blitter_row_store_other]
      right
      have : (0 : Int) ≤ k * c.buffer_size_x :=
        mul_nonneg (Int.ofNat_nonneg k) (by omega)
      omega

end pico_private

set_option maxRecDepth 8000 in
/-- With the full-screen clip and no camera offset, `spr(0, 0, 0, 2, 1, true, false)`
fills the top-left cell from sheet cell `8 - 0 - 1 = 7` of row `0`. -/
theorem spr_flip_x_first_cell (c : Console)
    (hx1 : c.graphicsState.clip_x1 = 0) (hy1 : c.graphicsState.clip_y1 = 0)
    (hx2 : c.graphicsState.clip_x2 = 128) (hy2 : c.graphicsState.clip_y2 = 128)
    (hcx : c.graphicsState.camera_x = 0) (hcy : c.graphicsState.camera_y = 0)
    (hb : c.buffer_size_x = 128) :
    (pico_api.spr c 0 0 0 2 1 true false).backbuffer_store (backbuffer + 0 * 128 + 0) =
      if c.graphicsState.transparent (c.sprite_data 7) then c.backbuffer_store (backbuffer + 0 * 128 + 0)
      else c.graphicsState.palette_map (c.sprite_data 7) := by
  have hv : pico_private.is_visible c.graphicsState 0 0 16 8 = true := by
    simp only [pico_private.is_visible, hx1, hx2, hy1, hy2]
    decide
  have hax : pico_private.clip_axis 0 0 16 0 128 = { dest_pos := 0, src_pos := 0, len := 16 } := by
    decide
  have hay : pico_private.clip_axis 0 0 8 0 128 = { dest_pos := 0, src_pos := 0, len := 8 } := by
    decide
  have e0 : Int.tmod 0 16 * 8 = 0 := by decide
  have e1 : Int.tdiv 0 16 * 8 = 0 := by decide
  have e2 : (2 : Int) * 8 = 16 := by decide
  have e3 : (1 : Int) * 8 = 8 := by decide
  simp only [pico_api.spr, pico_private.apply_camera, hcx, hcy, sub_zero, e0, e1, e2, e3,
    pico_private.blitter, hv, Bool.not_true, Bool.false_eq_true, if_false, hx1, hx2, hy1, hy2,
    hax, hay, Bool.not_false, if_true, hb]
  have key := pico_private.blitter_rows_store_at c.sprite_data true 16 8 128 8
    (backbuffer + 0 * 128 + 0) (0 * 128 + 0) c 0 0 (by decide) (by decide) (by decide)
    (by rw [hb]; decide)
  simp only [hb, Nat.cast_zero, zero_mul, add_zero, if_true] at key
  simp only [zero_mul, add_zero]
  have e4 : (8 : Int) - 0 - 1 = 7 := by decide
  have e5 : (0 : Int) + 7 = 7 := by decide
  have e6 : (8 : Int).toNat = 8 := rfl
  rw [e4, e5] at key
  rw [e6]
  exact key

/-- C10 at the failing input `spr(0, 0, 0, 2, 1, true, false)` (a 16 by 8 blit): the sheet
holds colour `1` at `(15, 0)`, the cell a mirrored row would put at destination `(0, 0)`,
and colour `1` is opaque and mapped to itself; the destination cell receives colour `2`,
read from sheet cell `(7, 0)`, because the mirrored index is taken from the height. -/
theorem C10_flip_x_indexes_by_height :
    Console.marked.sprite_data (0 * 128 + (0 + 16 - 1 - 0)) = 1 ∧
    Console.marked.graphicsState.transparent 1 = false ∧
    Console.marked.graphicsState.palette_map 1 = 1 ∧
    (pico_api.spr Console.marked 0 0 0 2 1 true false).backbuffer_store
      (backbuffer + 0 * 128 + 0) = 2 := by
  have g : Console.marked.graphicsState = Console.initial.graphicsState := by
    simp only [Console.marked]
  have hb : Console.marked.buffer_size_x = 128 := by
    simp only [Console.marked, Console.initial_buffer_size_x]
  have hs7 : Console.marked.sprite_data 7 = 2 := by
    simp only [Console.marked]
    decide
  obtain ⟨-, hcx, hcy, h1, h2, h3, h4⟩ := Console.initial_fields
  refine ⟨?_, ?_, ?_, ?_⟩
  · simp only [Console.marked]
    decide
  · rw [g, Console.initial_graphicsState]
    exact pico_private.restore_transparency_map _ 1 (by decide)
  · rw [g]
    exact Console.initial_palette_map 1 (by decide)
  · rw [spr_flip_x_first_cell Console.marked (by rw [g, h1]) (by rw [g, h2]) (by rw [g, h3])
      (by rw [g, h4]) (by rw [g, hcx]) (by rw [g, hcy]) hb, hs7, g]
    have ht : Console.initial.graphicsState.transparent 2 = false := by
      rw [Console.initial_graphicsState]
      exact pico_private.restore_transparency_map _ 2 (by decide)
    rw [ht, Console.initial_palette_map 2 (by decide)]
    simp

/-! ## Scaled blit at scale one -/

namespace pico_private

/-- The 16.16 fixed-point value of an integer shifts back to that integer. -/
theorem fixed_shift (a b : Int) : (a * 65536 + b * 65536) >>> (16 : Nat) = a + b := by
  rw [Int.shiftRight_eq_div_pow]
  have e : a * 65536 + b * 65536 = (a + b) * 65536 := by ring
  rw [e]
  exact Int.mul_ediv_cancel _ (by decide)

/-- At step `65536` a row of the scaled blitter is a row of the fixed one. -/
theorem stretch_row_eq (sprites : Mem) (r pix sx h : Int) (n : Nat) :
    ∀ (x : Int) (c : Console),
    stretch_row sprites r pix (sx * 65536) 65536 n x c
      = blitter_row sprites (r + sx) pix false h n x c := by
  induction n with
  | zero => intro x c; rfl
  | succ n ih =>
    intro x c
    rw [stretch_row, blitter_row]
    simp only [fixed_shift, blitter_pixel, Bool.false_eq_true, if_false]
    rw [ih, add_assoc]

/-- At step `65536` the rows of the scaled blitter are the rows of the fixed one. -/
theorem stretch_rows_eq (sprites : Mem) (sx sy w w1 h : Int) (hw : w.toNat = w1.toNat)
    (n : Nat) : ∀ (y pix : Int) (c : Console),
    stretch_rows sprites (sx * 65536) (sy * 65536) 65536 65536 w n y pix c
      = blitter_rows sprites false w1 h 128 n pix ((sy + y) * 128 + sx) c := by
  induction n with
  | zero => intro y pix c; rfl
  | succ n ih =>
    intro y pix c
    rw [stretch_rows, blitter_rows]
    simp only [fixed_shift]
    rw [stretch_row_eq sprites _ pix sx h, hw, ih]
    have e : (sy + (y + 1)) * 128 + sx = (sy + y) * 128 + sx + 128 := by ring
    rw [e]

theorem clip_axis_dest_pos (d s l mn mx : Int) :
    (clip_axis d s l mn mx).dest_pos = if d < mn then mn else d := by
  unfold clip_axis
  split_ifs <;> rfl

theorem clip_axis_src_pos (d s l mn mx : Int) :
    (clip_axis d s l mn mx).src_pos = if d < mn then s + (mn - d) else s := by
  unfold clip_axis
  split_ifs <;> rfl

/-- The two clipping steps of `stretch_blitter` on one axis leave as many iterations as
`clip_axis` does. -/
theorem clip_axis_len_toNat (d s l mn mx : Int) :
    (clip_axis d s l mn mx).len.toNat =
      (if (if d < mn then mn else d) + (if d < mn then l - (mn - d) else l) > mx then
        (if d < mn then l - (mn - d) else l) -
          (((if d < mn then mn else d) + (if d < mn then l - (mn - d) else l)) - mx)
       else (if d < mn then l - (mn - d) else l)).toNat := by
  by_cases h1 : d < mn
  · simp only [clip_axis, h1, if_true]
    split_ifs <;> omega
  · simp only [clip_axis, h1, if_false]
    split_ifs <;> omega

/-- The scaled blitter called with equal source and destination sizes is the fixed blitter
without flip. -/
theorem stretch_blitter_same_size (c : Console) (sprites : Mem)
    (sx sy sw sh x y : Int) (fx fy : Bool) (hsw : 0 < sw) (hsh : 0 < sh) :
    stretch_blitter c sprites sx sy sw sh x y sw sh fx fy
      = some (blitter c sprites x y sx sy sw sh false false) := by
  have hw0 : sw ≠ 0 := by omega
  have hh0 : sh ≠ 0 := by omega
  unfold stretch_blitter blitter
  simp only []
  by_cases hv : is_visible c.graphicsState x y sw sh = true
  swap
  · simp only [hv, Bool.not_false, if_true]
  · simp only [hv, Bool.not_true, Bool.false_eq_true, if_false, Bool.not_false, if_true, hw0,
      hh0]
    have hdx : Int.tdiv (sw * 65536) sw = 65536 := Int.mul_tdiv_cancel_left _ (by omega)
    have hdy : Int.tdiv (sh * 65536) sh = 65536 := Int.mul_tdiv_cancel_left _ (by omega)
    rw [hdx, hdy]
    have ex : (if x < c.graphicsState.clip_x1 then
          sx * 65536 + (c.graphicsState.clip_x1 - x) * 65536 else sx * 65536)
        = (clip_axis x sx sw c.graphicsState.clip_x1 c.graphicsState.clip_x2).src_pos * 65536 := by
      rw [clip_axis_src_pos]; split_ifs <;> ring
    have ey : (if y < c.graphicsState.clip_y1 then
          sy * 65536 + (c.graphicsState.clip_y1 - y) * 65536 else sy * 65536)
        = (clip_axis y sy sh c.graphicsState.clip_y1 c.graphicsState.clip_y2).src_pos * 65536 := by
      rw [clip_axis_src_pos]; split_ifs <;> ring
    rw [ex, ey, ← clip_axis_len_toNat y sy sh,
      stretch_rows_eq sprites _ _ _
        (clip_axis x sx sw c.graphicsState.clip_x1 c.graphicsState.clip_x2).len
        (clip_axis y sy sh c.graphicsState.clip_y1 c.graphicsState.clip_y2).len
        (clip_axis_len_toNat x sx sw _ _).symm,
      clip_axis_dest_pos, clip_axis_dest_pos, add_zero]

end pico_private

/-- C4: for a source rectangle of positive width and height, any destination, clip
rectangle, camera, palette map and transparency table, the scaled `sspr` called with
`dw == sw` and `dh == sh` divides by no zero and leaves the console, framebuffer included,
in exactly the state the fixed `sspr` leaves it in. -/
theorem C4_scaled_blit_same_size (c : Console) (sx sy sw sh dx dy : Int)
    (hsw : 0 < sw) (hsh : 0 < sh) :
    pico_api.sspr_scaled c sx sy sw sh dx dy sw sh
      = some (pico_api.sspr c sx sy sw sh dx dy) := by
  unfold pico_api.sspr_scaled pico_api.sspr
  exact pico_private.stretch_blitter_same_size c c.sprite_data sx sy sw sh _ _ false false hsw hsh

/-- C4 at a concrete input: an 8 by 8 source blitted to `(10, 10)`. -/
theorem C4_scaled_blit_same_size_witness :
    pico_api.sspr_scaled Console.painted 0 0 8 8 10 10 8 8
      = some (pico_api.sspr Console.painted 0 0 8 8 10 10) :=
  C4_scaled_blit_same_size Console.painted 0 0 8 8 10 10 (by decide) (by decide)

/-! ## Filled rectangles -/

namespace pico_private

/-- With the pattern `0` the dither test never selects the second colour. -/
theorem dither_zero (x y : Int) : dither 0 x y = false := by
  simp [dither]

end pico_private

namespace pico_api

theorem rectfill_row_graphicsState (pix : Int) (pat p1 p2 : Nat) (y : Int) (n : Nat) :
    ∀ (x : Int) (c : Console),
    (rectfill_row pix pat p1 p2 y n x c).graphicsState = c.graphicsState := by
  induction n with
  | zero => intro x c; rfl
  | succ n ih => intro x c; rw [rectfill_row, ih, Console.poke_graphicsState]

theorem rectfill_row_buffer_size_x (pix : Int) (pat p1 p2 : Nat) (y : Int) (n : Nat) :
    ∀ (x : Int) (c : Console),
    (rectfill_row pix pat p1 p2 y n x c).buffer_size_x = c.buffer_size_x := by
  induction n with
  | zero => intro x c; rfl
  | succ n ih => intro x c; rw [rectfill_row, ih, Console.poke_buffer_size_x]

/-- One row of `rectfill`: the run `pix + [x, x + n)` is dithered, the rest is kept. -/
theorem rectfill_row_store (pix : Int) (pat p1 p2 : Nat) (y : Int) (n : Nat) :
    ∀ (x : Int) (c : Console) (a : Int),
    (rectfill_row pix pat p1 p2 y n x c).backbuffer_store a =
      if pix + x ≤ a ∧ a < pix + x + n then
        (if pico_private.dither pat (a - pix) y then p2 else p1)
      else c.backbuffer_store a := by
  induction n with
  | zero =>
    intro x c a
    have : ¬ (pix + x ≤ a ∧ a < pix + x + ((0 : Nat) : Int)) := by
      simp only [Nat.cast_zero, add_zero]; omega
    rw [rectfill_row, if_neg this]
  | succ n ih =>
    intro x c a
    rw [rectfill_row, ih, Console.poke_store]
    by_cases h1 : pix + (x + 1) ≤ a ∧ a < pix + (x + 1) + n
    · have h3 : pix + x ≤ a ∧ a < pix + x + ((n + 1 : Nat) : Int) := by push_cast; omega
      rw [if_pos h1, if_pos h3]
    · rw [if_neg h1]
      by_cases h2 : a = pix + x
      · have h3 : pix + x ≤ a ∧ a < pix + x + ((n + 1 : Nat) : Int) := by push_cast; omega
        have e : a - pix = x := by omega
        rw [if_pos h3, h2, Mem.write_same, ← h2, e]
      · have h3 : ¬ (pix + x ≤ a ∧ a < pix + x + ((n + 1 : Nat) : Int)) := by push_cast; omega
        rw [if_neg h3, Mem.write_other _ _ _ _ h2]

theorem rectfill_rows_graphicsState (pat p1 p2 : Nat) (x0 x1 : Int) (n : Nat) :
    ∀ (y pix : Int) (c : Console),
    (rectfill_rows pat p1 p2 x0 x1 n y pix c).graphicsState = c.graphicsState := by
  induction n with
  | zero => intro y pix c; rfl
  | succ n ih => intro y pix c; rw [rectfill_rows, ih, rectfill_row_graphicsState]

theorem rectfill_rows_buffer_size_x (pat p1 p2 : Nat) (x0 x1 : Int) (n : Nat) :
    ∀ (y pix : Int) (c : Console),
    (rectfill_rows pat p1 p2 x0 x1 n y pix c).buffer_size_x = c.buffer_size_x := by
  induction n with
  | zero => intro y pix c; rfl
  | succ n ih => intro y pix c; rw [rectfill_rows, ih, rectfill_row_buffer_size_x]

/-- The rows of `rectfill` keep every cell outside their runs. -/
theorem rectfill_rows_store_miss (pat p1 p2 : Nat) (x0 x1 : Int) (n : Nat) :
    ∀ (y pix : Int) (c : Console) (a : Int),
    (∀ k : Nat, k < n → ¬ (pix + k * c.buffer_size_x + x0 ≤ a ∧
      a < pix + k * c.buffer_size_x + x0 + (x1 - x0 + 1).toNat)) →
    (rectfill_rows pat p1 p2 x0 x1 n y pix c).backbuffer_store a = c.backbuffer_store a := by
  induction n with
  | zero => intro y pix c a _; rfl
  | succ n ih =>
    intro y pix c a h
    rw [rectfill_rows, ih, rectfill_row_store]
    · have h0 := h 0 (by omega)
      simp only [Nat.cast_zero, zero_mul, add_zero] at h0
      rw [if_neg h0]
    · intro k hk
      rw [rectfill_row_buffer_size_x]
      have h1 := h (k + 1) (by omega)
      push_cast at h1
      rw [add_mul, one_mul] at h1
      intro hc
      apply h1
      omega

/-- With the pattern `0`, every cell of a run of `rectfill` ends up holding the first
colour. -/
theorem rectfill_rows_store_hit (p1 p2 : Nat) (x0 x1 : Int) (n : Nat) :
    ∀ (y pix : Int) (c : Console) (a : Int) (k : Nat), k < n →
    pix + k * c.buffer_size_x + x0 ≤ a →
    a < pix + k * c.buffer_size_x + x0 + (x1 - x0 + 1).toNat →
    (rectfill_rows 0 p1 p2 x0 x1 n y pix c).backbuffer_store a = p1 := by
  induction n with
  | zero => intro y pix c a k hk; omega
  | succ n ih =>
    intro y pix c a k hk h1 h2
    rw [rectfill_rows]
    cases k with
    | zero =>
      simp only [Nat.cast_zero, zero_mul, add_zero] at h1 h2
      by_cases hlater : ∃ j : Nat, j < n ∧
          pix + c.buffer_size_x + j * c.buffer_size_x + x0 ≤ a ∧
          a < pix + c.buffer_size_x + j * c.buffer_size_x + x0 + (x1 - x0 + 1).toNat
      · obtain ⟨j, hj, hj1, hj2⟩ := hlater
        exact ih _ _ _ a j hj (by rw [rectfill_row_buffer_size_x]; exact hj1)
          (by rw [rectfill_row_buffer_size_x]; exact hj2)
      · rw [rectfill_rows_store_miss, rectfill_row_store, if_pos ⟨h1, h2⟩,
          pico_private.dither_zero]
        · simp
        · intro j hj hc
          rw [rectfill_row_buffer_size_x] at hc
          exact hlater ⟨j, hj, hc⟩
    | succ k =>
      push_cast at h1 h2
      rw [add_mul, one_mul] at h1 h2
      exact ih _ _ _ a k (by omega) (by rw [rectfill_row_buffer_size_x]; omega)
        (by rw [rectfill_row_buffer_size_x]; omega)

end pico_api

namespace pico_api

/-- With the full-screen clip, no camera offset and the pattern `0`, `rectfill` of a
rectangle lying in the 128 by 128 screen stores the remapped low nibble of the colour in
the cells of the rectangle and keeps every other cell of the framebuffer rows. -/
theorem rectfill_store_on_screen (c : Console) (x0 y0 x1 y1 : Int) (col : Nat)
    (hx1 : c.graphicsState.clip_x1 = 0) (hy1 : c.graphicsState.clip_y1 = 0)
    (hx2 : c.graphicsState.clip_x2 = 128) (hy2 : c.graphicsState.clip_y2 = 128)
    (hcx : c.graphicsState.camera_x = 0) (hcy : c.graphicsState.camera_y = 0)
    (hpat : c.graphicsState.pattern = 0) (hb : c.buffer_size_x = 128)
    (hx : 0 ≤ x0 ∧ x0 ≤ x1 ∧ x1 < 128) (hy : 0 ≤ y0 ∧ y0 ≤ y1 ∧ y1 < 128)
    (x y : Int) (hpx : 0 ≤ x ∧ x < 128) :
    (rectfill c x0 y0 x1 y1 col).backbuffer_store (backbuffer + y * 128 + x) =
      if x0 ≤ x ∧ x ≤ x1 ∧ y0 ≤ y ∧ y ≤ y1 then c.graphicsState.palette_map (col % 256 &&& 0x0f)
      else c.backbuffer_store (backbuffer + y * 128 + x) := by
  have n1 : pico_private.normalise_coords x0 x1 = (x0, x1) := by
    unfold pico_private.normalise_coords
    rw [if_neg (by omega)]
  have n2 : pico_private.normalise_coords y0 y1 = (y0, y1) := by
    unfold pico_private.normalise_coords
    rw [if_neg (by omega)]
  have hr : pico_private.clip_rect (color c col).graphicsState x0 y0 x1 y1
      = { x0 := x0, y0 := y0, x1 := x1, y1 := y1 } := by
    simp only [pico_private.clip_rect, color, hx1, hy1, hx2, hy2]
    rw [if_neg (by omega), if_neg (by omega), if_neg (by omega), if_neg (by omega)]
  simp only [rectfill, pico_private.apply_camera, hcx, hcy, sub_zero, n1, n2, hr]
  have hbc : (color c col).buffer_size_x = 128 := hb
  have hpc : (color c col).graphicsState.pattern = 0 := hpat
  have hmc : (color c col).graphicsState.palette_map = c.graphicsState.palette_map := rfl
  have hsc : (color c col).backbuffer_store = c.backbuffer_store := rfl
  rw [hbc, hpc, hmc]
  by_cases hin : x0 ≤ x ∧ x ≤ x1 ∧ y0 ≤ y ∧ y ≤ y1
  · rw [if_pos hin]
    apply rectfill_rows_store_hit _ _ _ _ _ _ _ _ _ (y - y0).toNat
    · omega
    · rw [hbc]; omega
    · rw [hbc]; omega
  · rw [if_neg hin, rectfill_rows_store_miss, hsc]
    intro k hk
    rw [hbc]
    omega

/-- The graphics state after `rectfill` is the one `color` leaves. -/
theorem rectfill_graphicsState (c : Console) (x0 y0 x1 y1 : Int) (col : Nat) :
    (rectfill c x0 y0 x1 y1 col).graphicsState = (color c col).graphicsState := by
  simp only [rectfill, rectfill_rows_graphicsState]

theorem rectfill_buffer_size_x (c : Console) (x0 y0 x1 y1 : Int) (col : Nat) :
    (rectfill c x0 y0 x1 y1 col).buffer_size_x = c.buffer_size_x := by
  simp only [rectfill, rectfill_rows_buffer_size_x, color]

/-- With no camera offset and the pattern `0`, `pset(x, y, col)` at a point of the clip
rectangle stores the remapped low nibble of the colour in the cell of the point. -/
theorem pset_store_inside (c : Console) (x y : Int) (col : Nat)
    (hcx : c.graphicsState.camera_x = 0) (hcy : c.graphicsState.camera_y = 0)
    (hpat : c.graphicsState.pattern = 0)
    (hx : c.graphicsState.clip_x1 ≤ x ∧ x < c.graphicsState.clip_x2)
    (hy : c.graphicsState.clip_y1 ≤ y ∧ y < c.graphicsState.clip_y2) :
    (pset c x y col).backbuffer_store =
      c.backbuffer_store.write (backbuffer + y * c.buffer_size_x + x)
        (c.graphicsState.palette_map (col % 256 &&& 0xf)) := by
  simp only [pset, color, pico_private.apply_camera, pico_private.pset, hcx, hcy, sub_zero,
    hpat, if_true]
  rw [if_neg (by omega)]
  rfl

end pico_api

/-- C5: from the initial graphics state (identity palette, pattern `0`, full-screen clip, no
camera offset) and a 128 by 128 buffer, after `cls(0); rectfill(10, 10, 20, 20, 1);
pset(15, 15, 2)` the framebuffer holds colour `2` at `(15, 15)`, colour `1` at every other
point of the rectangle and colour `0` at every pixel outside it. -/
theorem C5_cls_rectfill_pset (c : Console)
    (hg : c.graphicsState = Console.initial.graphicsState)
    (hbx : c.buffer_size_x = 128) (hby : c.buffer_size_y = 128)
    (x y : Int) (hx : 0 ≤ x ∧ x < 128) (hy : 0 ≤ y ∧ y < 128) :
    (pico_api.pset (pico_api.rectfill (pico_api.cls c 0) 10 10 20 20 1) 15 15
        2).backbuffer_store (backbuffer + y * 128 + x) =
      if x = 15 ∧ y = 15 then 2
      else if 10 ≤ x ∧ x ≤ 20 ∧ 10 ≤ y ∧ y ≤ 20 then 1 else 0 := by
  obtain ⟨hpat, hcx, hcy, h1, h2, h3, h4⟩ := Console.initial_fields
  rw [← hg] at hpat hcx hcy h1 h2 h3 h4
  have hpal : ∀ n : Nat, n < 16 → c.graphicsState.palette_map n = n := by
    intro n hn; rw [hg]; exact Console.initial_palette_map n hn
  -- the state after `cls(0)`
  have s1 : (pico_api.cls c 0).backbuffer_store (backbuffer + y * 128 + x) = 0 := by
    simp only [pico_api.cls, memset, hbx, hby, hpal 0 (by decide), SIZE_T, backbuffer]
    rw [if_pos (by omega)]
  have hb1 : (pico_api.cls c 0).buffer_size_x = 128 := hbx
  have hm1 : (pico_api.cls c 0).graphicsState.palette_map = c.graphicsState.palette_map := rfl
  -- the state after `rectfill(10, 10, 20, 20, 1)`
  have s2 := pico_api.rectfill_store_on_screen (pico_api.cls c 0) 10 10 20 20 1
    h1 h2 h3 h4 hcx hcy hpat hb1 (by decide) (by decide) x y hx
  have e1 : (1 % 256 &&& 0x0f : Nat) = 1 := by decide
  rw [e1, hm1, hpal 1 (by decide), s1] at s2
  have g2 := pico_api.rectfill_graphicsState (pico_api.cls c 0) 10 10 20 20 1
  have hb2 : (pico_api.rectfill (pico_api.cls c 0) 10 10 20 20 1).buffer_size_x = 128 := by
    rw [pico_api.rectfill_buffer_size_x]; exact hbx
  have hm2 : (pico_api.rectfill (pico_api.cls c 0) 10 10 20 20 1).graphicsState.palette_map
      = c.graphicsState.palette_map := by rw [g2]; rfl
  -- the state after `pset(15, 15, 2)`
  rw [pico_api.pset_store_inside _ 15 15 2 (by rw [g2]; exact hcx) (by rw [g2]; exact hcy)
    (by rw [g2]; exact hpat)
    (by rw [g2]; exact ⟨by rw [show (pico_api.color (pico_api.cls c 0) 1).graphicsState.clip_x1
          = c.graphicsState.clip_x1 from rfl, h1]; decide,
        by rw [show (pico_api.color (pico_api.cls c 0) 1).graphicsState.clip_x2
          = c.graphicsState.clip_x2 from rfl, h3]; decide⟩)
    (by rw [g2]; exact ⟨by rw [show (pico_api.color (pico_api.cls c 0) 1).graphicsState.clip_y1
          = c.graphicsState.clip_y1 from rfl, h2]; decide,
        by rw [show (pico_api.color (pico_api.cls c 0) 1).graphicsState.clip_y2
          = c.graphicsState.clip_y2 from rfl, h4]; decide⟩),
    hb2, hm2]
  have e2 : (2 % 256 &&& 0xf : Nat) = 2 := by decide
  rw [e2, hpal 2 (by decide)]
  by_cases hc : x = 15 ∧ y = 15
  · rw [if_pos hc, hc.1, hc.2, Mem.write_same]
  · rw [if_neg hc, Mem.write_other _ _ _ _ (by omega), s2]

/-- C5 at a concrete input: the initial console, read back at `(12, 13)`. -/
theorem C5_cls_rectfill_pset_witness :
    (pico_api.pset (pico_api.rectfill (pico_api.cls Console.initial 0) 10 10 20 20 1) 15 15
        2).backbuffer_store (backbuffer + 13 * 128 + 12) =
      if (12 : Int) = 15 ∧ (13 : Int) = 15 then 2
      else if (10 : Int) ≤ 12 ∧ (12 : Int) ≤ 20 ∧ (10 : Int) ≤ 13 ∧ (13 : Int) ≤ 20 then 1 else 0 :=
  C5_cls_rectfill_pset Console.initial rfl Console.initial_buffer_size_x
    Console.initial_buffer_size_y 12 13 (by decide) (by decide)

/-! ## Small filled circles -/

namespace pico_private

theorem pset_graphicsState (c : Console) (x y : Int) :
    (pset c x y).graphicsState = c.graphicsState := by
  unfold pset
  simp only []
  split_ifs <;> rfl

theorem pset_buffer_size_x (c : Console) (x y : Int) :
    (pset c x y).buffer_size_x = c.buffer_size_x := by
  unfold pset
  simp only []
  split_ifs <;> rfl

/-- With the pattern `0`, `pset` at a point of the clip rectangle stores the remapped
foreground colour. -/
theorem pset_store_plain (c : Console) (x y : Int) (hpat : c.graphicsState.pattern = 0)
    (hx : c.graphicsState.clip_x1 ≤ x ∧ x < c.graphicsState.clip_x2)
    (hy : c.graphicsState.clip_y1 ≤ y ∧ y < c.graphicsState.clip_y2) :
    (pset c x y).backbuffer_store =
      c.backbuffer_store.write (backbuffer + y * c.buffer_size_x + x)
        (c.graphicsState.palette_map c.graphicsState.fg) := by
  simp only [pset, hpat, if_true]
  rw [if_neg (by omega)]
  rfl

theorem hline_loop_graphicsState (pix : Int) (pat fg bg : Nat) (y : Int) (n : Nat) :
    ∀ (x : Int) (c : Console),
    (hline_loop pix pat fg bg y n x c).graphicsState = c.graphicsState := by
  induction n with
  | zero => intro x c; rfl
  | succ n ih => intro x c; rw [hline_loop, ih, Console.poke_graphicsState]

theorem hline_loop_buffer_size_x (pix : Int) (pat fg bg : Nat) (y : Int) (n : Nat) :
    ∀ (x : Int) (c : Console),
    (hline_loop pix pat fg bg y n x c).buffer_size_x = c.buffer_size_x := by
  induction n with
  | zero => intro x c; rfl
  | succ n ih => intro x c; rw [hline_loop, ih, Console.poke_buffer_size_x]

theorem hline_graphicsState (c : Console) (x0 x1 y : Int) :
    (hline c x0 x1 y).graphicsState = c.graphicsState := by
  unfold hline
  simp only []
  split_ifs <;> first | rfl | exact hline_loop_graphicsState _ _ _ _ _ _ _ _

theorem hline_buffer_size_x (c : Console) (x0 x1 y : Int) :
    (hline c x0 x1 y).buffer_size_x = c.buffer_size_x := by
  unfold hline
  simp only []
  split_ifs <;> first | rfl | exact hline_loop_buffer_size_x _ _ _ _ _ _ _ _

/-- With the pattern `0`, `hline` over a span lying in the clip rectangle is one `memset`
of the remapped foreground colour over the `x1 - x0 + 1` cells of the span. -/
theorem hline_store_plain (c : Console) (x0 x1 y : Int) (hpat : c.graphicsState.pattern = 0)
    (hx : c.graphicsState.clip_x1 ≤ x0 ∧ x0 ≤ x1 ∧ x1 < c.graphicsState.clip_x2)
    (hy : c.graphicsState.clip_y1 ≤ y ∧ y < c.graphicsState.clip_y2) :
    (hline c x0 x1 y).backbuffer_store =
      memset c.backbuffer_store (backbuffer + y * c.buffer_size_x + x0)
        (c.graphicsState.palette_map c.graphicsState.fg) (x1 + 1 - x0) := by
  have n1 : normalise_coords x0 x1 = (x0, x1) := by
    unfold normalise_coords
    rw [if_neg (by omega)]
  have l0 : limit x0 c.graphicsState.clip_x1 c.graphicsState.clip_x2 = x0 := by
    unfold limit
    rw [if_neg (by omega), if_neg (by omega)]
  have l1 : limit (x1 + 1) c.graphicsState.clip_x1 c.graphicsState.clip_x2 = x1 + 1 := by
    unfold limit
    rw [if_neg (by omega), if_neg (by omega)]
  simp only [hline, n1, l0, l1, hpat, if_true]
  rw [if_neg (by omega)]

end pico_private

/-- C8: with the default graphics state, a 128-wide buffer and a centre whose neighbours lie
inside the clip rectangle, `circfill(x, y, 0, col)` stores in the one cell of `(x, y)` and
`circfill(x, y, 1, col)` stores in exactly the five cells of `(x, y-1)`, `(x-1, y)`,
`(x, y)`, `(x+1, y)`, `(x, y+1)`; every other cell keeps its value and each written cell
holds the palette-mapped low nibble of `col`.  Neither call enters the general loop, so
the result does not depend on the fuel. -/
theorem C8_circfill_small (fuel : Nat) (c : Console) (x y : Int) (col : Nat)
    (hg : c.graphicsState = Console.initial.graphicsState) (hbx : c.buffer_size_x = 128)
    (hx : 1 ≤ x ∧ x ≤ 126) (hy : 1 ≤ y ∧ y ≤ 126) :
    (pico_api.circfill fuel c x y 0 col).map Console.backbuffer_store =
      some (c.backbuffer_store.write (backbuffer + y * 128 + x)
        (c.graphicsState.palette_map (col % 256 &&& 0xf))) ∧
    (pico_api.circfill fuel c x y 1 col).map Console.backbuffer_store =
      some (fun a =>
        if a = backbuffer + (y - 1) * 128 + x ∨ a = backbuffer + y * 128 + (x - 1) ∨
            a = backbuffer + y * 128 + x ∨ a = backbuffer + y * 128 + (x + 1) ∨
            a = backbuffer + (y + 1) * 128 + x
        then c.graphicsState.palette_map (col % 256 &&& 0xf)
        else c.backbuffer_store a) := by
  obtain ⟨hpat, hcx, hcy, h1, h2, h3, h4⟩ := Console.initial_fields
  rw [← hg] at hpat hcx hcy h1 h2 h3 h4
  -- the state `color` leaves
  have kpat : (pico_api.color c col).graphicsState.pattern = 0 := hpat
  have k1 : (pico_api.color c col).graphicsState.clip_x1 = 0 := h1
  have k2 : (pico_api.color c col).graphicsState.clip_y1 = 0 := h2
  have k3 : (pico_api.color c col).graphicsState.clip_x2 = 128 := h3
  have k4 : (pico_api.color c col).graphicsState.clip_y2 = 128 := h4
  have kb : (pico_api.color c col).buffer_size_x = 128 := hbx
  have kfg : (pico_api.color c col).graphicsState.palette_map
      (pico_api.color c col).graphicsState.fg
      = c.graphicsState.palette_map (col % 256 &&& 0xf) := rfl
  have ks : (pico_api.color c col).backbuffer_store = c.backbuffer_store := rfl
  constructor
  · simp only [pico_api.circfill, pico_private.apply_camera, hcx, hcy, sub_zero, if_true,
      Option.map_some']
    rw [pico_private.pset_store_plain _ _ _ kpat (by rw [k1, k3]; omega) (by rw [k2, k4]; omega),
      kb, kfg, ks]
  · have r1 : (1 : Int) ≠ 0 := by decide
    simp only [pico_api.circfill, pico_private.apply_camera, hcx, hcy, sub_zero, r1, if_false,
      if_true, Option.map_some']
    -- first `pset`
    have gA := pico_private.pset_graphicsState (pico_api.color c col) x (y - 1)
    have bA := pico_private.pset_buffer_size_x (pico_api.color c col) x (y - 1)
    have sA := pico_private.pset_store_plain (pico_api.color c col) x (y - 1) kpat
      (by rw [k1, k3]; omega) (by rw [k2, k4]; omega)
    -- the `hline`
    have gB := pico_private.hline_graphicsState
      (pico_private.pset (pico_api.color c col) x (y - 1)) (x - 1) (x + 1) y
    have bB := pico_private.hline_buffer_size_x
      (pico_private.pset (pico_api.color c col) x (y - 1)) (x - 1) (x + 1) y
    have sB := pico_private.hline_store_plain
      (pico_private.pset (pico_api.color c col) x (y - 1)) (x - 1) (x + 1) y
      (by rw [gA]; exact kpat) (by rw [gA, k1, k3]; omega) (by rw [gA, k2, k4]; omega)
    -- second `pset`
    have sC := pico_private.pset_store_plain
      (pico_private.hline (pico_private.pset (pico_api.color c col) x (y - 1)) (x - 1) (x + 1) y)
      x (y + 1) (by rw [gB, gA]; exact kpat) (by rw [gB, gA, k1, k3]; omega)
      (by rw [gB, gA, k2, k4]; omega)
    rw [sC, sB, sA, gB, gA, bB, bA, kb, kfg, ks]
    congr 1
    funext a
    simp only [Mem.write, memset, SIZE_T, backbuffer]
    have e3 : (x + 1 + 1 - (x - 1)) % (2 ^ 64 : Int) = 3 := by
      have : x + 1 + 1 - (x - 1) = 3 := by ring
      rw [this]; decide
    rw [e3]
    split_ifs <;> first | rfl | omega

/-- C8 at a concrete input: the initial console, centre `(64, 64)`, colour `9`. -/
theorem C8_circfill_small_witness :
    (pico_api.circfill 0 Console.initial 64 64 0 9).map Console.backbuffer_store =
      some (Console.initial.backbuffer_store.write (backbuffer + 64 * 128 + 64)
        (Console.initial.graphicsState.palette_map (9 % 256 &&& 0xf))) :=
  (C8_circfill_small 0 Console.initial 64 64 9 rfl Console.initial_buffer_size_x
    (by decide) (by decide)).1

/-! ## The fixed blitter under clipping -/

namespace pico_private

/-- The run `clip_axis` leaves is the requested run cut to `[min, max)`. -/
theorem clip_axis_range (d s l mn mx p : Int) :
    ((clip_axis d s l mn mx).dest_pos ≤ p ∧
      p < (clip_axis d s l mn mx).dest_pos + (clip_axis d s l mn mx).len) ↔
    (d ≤ p ∧ p < d + l ∧ mn ≤ p ∧ p < mx) := by
  by_cases h1 : d < mn
  · simp only [clip_axis, h1, if_true]
    split_ifs <;> omega
  · simp only [clip_axis, h1, if_false]
    split_ifs <;> omega

/-- The `clip_axis` step moves the source start as far as the destination start. -/
theorem clip_axis_src_offset (d s l mn mx : Int) :
    (clip_axis d s l mn mx).src_pos - (clip_axis d s l mn mx).dest_pos = s - d := by
  rw [clip_axis_src_pos, clip_axis_dest_pos]
  split_ifs <;> omega

/-- When `is_visible` rejects a rectangle, no point of it lies in the clip rectangle. -/
theorem not_visible_disjoint (g : GraphicsState) (x y w h px py : Int)
    (hv : is_visible g x y w h = false) :
    ¬ (x ≤ px ∧ px < x + w ∧ y ≤ py ∧ py < y + h ∧
      g.clip_x1 ≤ px ∧ px < g.clip_x2 ∧ g.clip_y1 ≤ py ∧ py < g.clip_y2) := by
  unfold is_visible at hv
  split_ifs at hv <;> omega

/-- Value of a framebuffer cell after the fixed blitter, in terms of the clipped runs: with
a 128-wide buffer and the clip columns inside it, cell `(px, py)` of the clipped
destination holds the remapped colour of the sheet cell the loops read for it, unless that
colour is transparent; every other cell keeps its value. -/
theorem blitter_store_clipped (c : Console) (sprites : Mem)
    (scr_x scr_y spr_x spr_y w h : Int) (flip_x flip_y : Bool) (px py : Int)
    (hv : is_visible c.graphicsState scr_x scr_y w h = true)
    (hb : c.buffer_size_x = 128)
    (hx1 : 0 ≤ c.graphicsState.clip_x1) (hx2 : c.graphicsState.clip_x2 ≤ 128)
    (hpx : 0 ≤ px ∧ px < 128) (ax ay : AxisClip)
    (hax : ax = clip_axis scr_x spr_x w c.graphicsState.clip_x1 c.graphicsState.clip_x2)
    (hay : ay = clip_axis scr_y spr_y h c.graphicsState.clip_y1 c.graphicsState.clip_y2)
    (src : Int)
    (hsrc : src = (if flip_y then ay.src_pos + ay.len - 1 - (py - ay.dest_pos)
        else ay.src_pos + (py - ay.dest_pos)) * 128 + ax.src_pos +
        (if flip_x then ay.len - (px - ax.dest_pos) - 1 else px - ax.dest_pos)) :
    (blitter c sprites scr_x scr_y spr_x spr_y w h flip_x flip_y).backbuffer_store
        (backbuffer + py * 128 + px) =
      if ax.dest_pos ≤ px ∧ px < ax.dest_pos + ax.len ∧
          ay.dest_pos ≤ py ∧ py < ay.dest_pos + ay.len ∧
          c.graphicsState.transparent (sprites src) = false
      then c.graphicsState.palette_map (sprites src)
      else c.backbuffer_store (backbuffer + py * 128 + px) := by
  have bx := clip_axis_bounds scr_x spr_x w c.graphicsState.clip_x1 c.graphicsState.clip_x2
  have by1 := clip_axis_bounds scr_y spr_y h c.graphicsState.clip_y1 c.graphicsState.clip_y2
  rw [← hax] at bx
  rw [← hay] at by1
  simp only [blitter, hv, Bool.not_true, Bool.false_eq_true, if_false, ← hax, ← hay, hb]
  by_cases hin : ax.dest_pos ≤ px ∧ px < ax.dest_pos + ax.len ∧
      ay.dest_pos ≤ py ∧ py < ay.dest_pos + ay.len
  · obtain ⟨h1, h2, h3, h4⟩ := hin
    have hk : ((py - ay.dest_pos).toNat : Int) = py - ay.dest_pos := by omega
    have ea : backbuffer + py * 128 + px
        = backbuffer + ay.dest_pos * 128 + ax.dest_pos
          + ((py - ay.dest_pos).toNat : Int) * c.buffer_size_x + (px - ax.dest_pos) := by
      rw [hk, hb]; ring
    have key := blitter_rows_store_at sprites flip_x ax.len ay.len
      (if (!flip_y) = true then 128 else -128) ay.len.toNat
      (backbuffer + ay.dest_pos * 128 + ax.dest_pos)
      (if (!flip_y) = true then ay.src_pos * 128 + ax.src_pos
        else (ay.src_pos + ay.len - 1) * 128 + ax.src_pos)
      c (py - ay.dest_pos).toNat (px - ax.dest_pos) (by omega) (by omega) (by omega)
      (by rw [hb]; omega)
    rw [← ea, hk] at key
    rw [key]
    have esrc : (if (!flip_y) = true then ay.src_pos * 128 + ax.src_pos
          else (ay.src_pos + ay.len - 1) * 128 + ax.src_pos)
        + (py - ay.dest_pos) * (if (!flip_y) = true then 128 else -128)
        + (if flip_x = true then ay.len - (px - ax.dest_pos) - 1 else px - ax.dest_pos) = src := by
      rw [hsrc]
      cases flip_y <;> simp only [Bool.not_false, Bool.not_true, if_true, if_false,
        Bool.false_eq_true] <;> ring
    rw [esrc]
    by_cases ht : c.graphicsState.transparent (sprites src) = true
    · have hcond : ¬ (ax.dest_pos ≤ px ∧ px < ax.dest_pos + ax.len ∧
          ay.dest_pos ≤ py ∧ py < ay.dest_pos + ay.len ∧
          c.graphicsState.transparent (sprites src) = false) := by
        intro hh
        rw [ht] at hh
        exact absurd hh.2.2.2.2 (by decide)
      rw [if_pos ht, if_neg hcond]
    · have hcond : ax.dest_pos ≤ px ∧ px < ax.dest_pos + ax.len ∧
          ay.dest_pos ≤ py ∧ py < ay.dest_pos + ay.len ∧
          c.graphicsState.transparent (sprites src) = false :=
        ⟨h1, h2, h3, h4, by simpa using ht⟩
      rw [if_neg ht, if_pos hcond]
  · have hcond : ¬ (ax.dest_pos ≤ px ∧ px < ax.dest_pos + ax.len ∧
        ay.dest_pos ≤ py ∧ py < ay.dest_pos + ay.len ∧
        c.graphicsState.transparent (sprites src) = false) :=
      fun hh => hin ⟨hh.1, hh.2.1, hh.2.2.1, hh.2.2.2.1⟩
    rw [if_neg hcond]
    apply blitter_rows_store_other
    intro k hk
    rw [hb]
    by_contra hcon
    apply hin
    have hk2 : (k : Int) < ay.len := by omega
    omega

end pico_private

/-- Value of every framebuffer cell after the fixed blitter without flip, for a 128-wide
buffer and clip columns inside it. -/
theorem blitter_no_flip_store (c : Console) (sprites : Mem)
    (scr_x scr_y spr_x spr_y w h : Int) (px py : Int)
    (hb : c.buffer_size_x = 128)
    (hx1 : 0 ≤ c.graphicsState.clip_x1) (hx2 : c.graphicsState.clip_x2 ≤ 128)
    (hpx : 0 ≤ px ∧ px < 128) :
    (pico_private.blitter c sprites scr_x scr_y spr_x spr_y w h false false).backbuffer_store
        (backbuffer + py * 128 + px) =
      if scr_x ≤ px ∧ px < scr_x + w ∧ scr_y ≤ py ∧ py < scr_y + h ∧
          c.graphicsState.clip_x1 ≤ px ∧ px < c.graphicsState.clip_x2 ∧
          c.graphicsState.clip_y1 ≤ py ∧ py < c.graphicsState.clip_y2 ∧
          c.graphicsState.transparent
            (sprites ((spr_y + (py - scr_y)) * 128 + (spr_x + (px - scr_x)))) = false
      then c.graphicsState.palette_map
        (sprites ((spr_y + (py - scr_y)) * 128 + (spr_x + (px - scr_x))))
      else c.backbuffer_store (backbuffer + py * 128 + px) := by
  by_cases hv : pico_private.is_visible c.graphicsState scr_x scr_y w h = true
  swap
  · have hv2 : pico_private.is_visible c.graphicsState scr_x scr_y w h = false := by
      simpa using hv
    have hd := pico_private.not_visible_disjoint c.graphicsState scr_x scr_y w h px py hv2
    have hcond : ¬ (scr_x ≤ px ∧ px < scr_x + w ∧ scr_y ≤ py ∧ py < scr_y + h ∧
        c.graphicsState.clip_x1 ≤ px ∧ px < c.graphicsState.clip_x2 ∧
        c.graphicsState.clip_y1 ≤ py ∧ py < c.graphicsState.clip_y2 ∧
        c.graphicsState.transparent
          (sprites ((spr_y + (py - scr_y)) * 128 + (spr_x + (px - scr_x)))) = false) :=
      fun hh => hd ⟨hh.1, hh.2.1, hh.2.2.1, hh.2.2.2.1, hh.2.2.2.2.1, hh.2.2.2.2.2.1,
        hh.2.2.2.2.2.2.1, hh.2.2.2.2.2.2.2.1⟩
    rw [if_neg hcond]
    simp only [pico_private.blitter, hv2, Bool.not_false, if_true]
  · have ox := pico_private.clip_axis_src_offset scr_x spr_x w c.graphicsState.clip_x1
      c.graphicsState.clip_x2
    have oy := pico_private.clip_axis_src_offset scr_y spr_y h c.graphicsState.clip_y1
      c.graphicsState.clip_y2
    have rx := pico_private.clip_axis_range scr_x spr_x w c.graphicsState.clip_x1
      c.graphicsState.clip_x2 px
    have ry := pico_private.clip_axis_range scr_y spr_y h c.graphicsState.clip_y1
      c.graphicsState.clip_y2 py
    have key := pico_private.blitter_store_clipped c sprites scr_x scr_y spr_x spr_y w h
      false false px py hv hb hx1 hx2 hpx _ _ rfl rfl
      ((spr_y + (py - scr_y)) * 128 + (spr_x + (px - scr_x)))
      (by simp only [Bool.false_eq_true, if_false]; linarith)
    rw [key]
    by_cases ht : c.graphicsState.transparent
        (sprites ((spr_y + (py - scr_y)) * 128 + (spr_x + (px - scr_x)))) = false
    · simp only [ht, and_true]
      by_cases hin : scr_x ≤ px ∧ px < scr_x + w ∧ scr_y ≤ py ∧ py < scr_y + h ∧
          c.graphicsState.clip_x1 ≤ px ∧ px < c.graphicsState.clip_x2 ∧
          c.graphicsState.clip_y1 ≤ py ∧ py < c.graphicsState.clip_y2
      · rw [if_pos hin, if_pos]
        exact ⟨(rx.2 ⟨hin.1, hin.2.1, hin.2.2.2.2.1, hin.2.2.2.2.2.1⟩).1,
          (rx.2 ⟨hin.1, hin.2.1, hin.2.2.2.2.1, hin.2.2.2.2.2.1⟩).2,
          (ry.2 ⟨hin.2.2.1, hin.2.2.2.1, hin.2.2.2.2.2.2.1, hin.2.2.2.2.2.2.2⟩).1,
          (ry.2 ⟨hin.2.2.1, hin.2.2.2.1, hin.2.2.2.2.2.2.1, hin.2.2.2.2.2.2.2⟩).2⟩
      · rw [if_neg hin, if_neg]
        intro hh
        apply hin
        have a1 := rx.1 ⟨hh.1, hh.2.1⟩
        have a2 := ry.1 ⟨hh.2.2.1, hh.2.2.2⟩
        exact ⟨a1.1, a1.2.1, a2.1, a2.2.1, a1.2.2.1, a1.2.2.2, a2.2.2.1, a2.2.2.2⟩
    · have ht2 : c.graphicsState.transparent
          (sprites ((spr_y + (py - scr_y)) * 128 + (spr_x + (px - scr_x)))) = true := by
        simpa using ht
      simp only [ht2, Bool.true_eq_false, and_false, if_false]

/-- C18: fixed blitter without flip, 128-wide buffer, clip columns inside the buffer.
For every destination, size and source origin, framebuffer pixel `(px, py)` becomes
`palette_map[col]`, where `col` is the sheet pixel `(spr_x + i, spr_y + j)` for
`i = px - scr_x`, `j = py - scr_y`, exactly when `0 ≤ i < w`, `0 ≤ j < h`, the pixel lies
in the clip rectangle and `transparent[col]` is false; every other pixel keeps its
value. -/
theorem C18_blitter_no_flip (c : Console) (sprites : Mem)
    (scr_x scr_y spr_x spr_y w h : Int) (px py : Int)
    (hb : c.buffer_size_x = 128)
    (hx1 : 0 ≤ c.graphicsState.clip_x1) (hx2 : c.graphicsState.clip_x2 ≤ 128)
    (hpx : 0 ≤ px ∧ px < 128) :
    (pico_private.blitter c sprites scr_x scr_y spr_x spr_y w h false false).backbuffer_store
        (backbuffer + py * 128 + px) =
      if scr_x ≤ px ∧ px < scr_x + w ∧ scr_y ≤ py ∧ py < scr_y + h ∧
          c.graphicsState.clip_x1 ≤ px ∧ px < c.graphicsState.clip_x2 ∧
          c.graphicsState.clip_y1 ≤ py ∧ py < c.graphicsState.clip_y2 ∧
          c.graphicsState.transparent
            (sprites ((spr_y + (py - scr_y)) * 128 + (spr_x + (px - scr_x)))) = false
      then c.graphicsState.palette_map
        (sprites ((spr_y + (py - scr_y)) * 128 + (spr_x + (px - scr_x))))
      else c.backbuffer_store (backbuffer + py * 128 + px) :=
  blitter_no_flip_store c sprites scr_x scr_y spr_x spr_y w h px py hb hx1 hx2 hpx

/-- C18 at a concrete input: an 8 by 8 blit to `(3, 4)` under the full-screen clip, read
back at `(5, 6)`. -/
theorem C18_blitter_no_flip_witness :
    (pico_private.blitter Console.painted Console.painted.sprite_data 3 4 0 0 8 8 false
        false).backbuffer_store (backbuffer + 6 * 128 + 5) =
      if (3 : Int) ≤ 5 ∧ (5 : Int) < 3 + 8 ∧ (4 : Int) ≤ 6 ∧ (6 : Int) < 4 + 8 ∧
          Console.painted.graphicsState.clip_x1 ≤ 5 ∧ 5 < Console.painted.graphicsState.clip_x2 ∧
          Console.painted.graphicsState.clip_y1 ≤ 6 ∧ 6 < Console.painted.graphicsState.clip_y2 ∧
          Console.painted.graphicsState.transparent
            (Console.painted.sprite_data ((0 + (6 - 4)) * 128 + (0 + (5 - 3)))) = false
      then Console.painted.graphicsState.palette_map
        (Console.painted.sprite_data ((0 + (6 - 4)) * 128 + (0 + (5 - 3))))
      else Console.painted.backbuffer_store (backbuffer + 6 * 128 + 5) := by
  obtain ⟨-, -, -, h1, -, h3, -⟩ := Console.initial_fields
  exact C18_blitter_no_flip Console.painted Console.painted.sprite_data 3 4 0 0 8 8 5 6
    Console.painted_buffer_size_x (by rw [Console.painted_graphicsState, h1])
    (by rw [Console.painted_graphicsState, h3]) (by decide)

/-! ## Consoles with the initial graphics state -/

/-- In the initial state only colour `0` of the sixteen is transparent. -/
theorem Console.initial_transparent (n : Nat) (h : n < 16) :
    Console.initial.graphicsState.transparent n = decide (n = 0) := by
  rw [Console.initial_graphicsState]
  exact pico_private.restore_transparency_map _ n h

/-- The fields of a graphics state equal to the initial one. -/
theorem Console.fields_of_initial (c : Console)
    (hg : c.graphicsState = Console.initial.graphicsState) :
    c.graphicsState.pattern = 0 ∧
    c.graphicsState.camera_x = 0 ∧ c.graphicsState.camera_y = 0 ∧
    c.graphicsState.clip_x1 = 0 ∧ c.graphicsState.clip_y1 = 0 ∧
    c.graphicsState.clip_x2 = 128 ∧ c.graphicsState.clip_y2 = 128 := by
  rw [hg]
  exact Console.initial_fields

theorem Console.marked_graphicsState :
    Console.marked.graphicsState = Console.initial.graphicsState := by
  simp only [Console.marked]

theorem Console.marked_buffer_size_x : Console.marked.buffer_size_x = 128 := by
  simp only [Console.marked, Console.initial_buffer_size_x]

theorem Console.marked_store :
    Console.marked.backbuffer_store = Console.initial.backbuffer_store := by
  simp only [Console.marked]

theorem Console.striped_graphicsState :
    Console.striped.graphicsState = Console.initial.graphicsState := by
  simp only [Console.striped]

theorem Console.striped_buffer_size_x : Console.striped.buffer_size_x = 128 := by
  simp only [Console.striped, Console.initial_buffer_size_x]

/-! ## Vertical flip under clipping -/

/-- With the initial graphics state, `spr(0, 0, -4, 1, 1, false, true)` fills the top-left
cell from sheet cell `(0, 7)`. -/
theorem spr_flip_y_top_clipped (c : Console)
    (hg : c.graphicsState = Console.initial.graphicsState) (hb : c.buffer_size_x = 128) :
    (pico_api.spr c 0 0 (-4) 1 1 false true).backbuffer_store (backbuffer + 0 * 128 + 0) =
      if c.graphicsState.transparent (c.sprite_data (7 * 128)) = false
      then c.graphicsState.palette_map (c.sprite_data (7 * 128))
      else c.backbuffer_store (backbuffer + 0 * 128 + 0) := by
  obtain ⟨-, hcx, hcy, h1, h2, h3, h4⟩ := Console.fields_of_initial c hg
  have hv : pico_private.is_visible c.graphicsState 0 (-4) 8 8 = true := by
    simp only [pico_private.is_visible, h1, h2, h3, h4]
    decide
  have e0 : Int.tmod 0 16 * 8 = 0 := by decide
  have e1 : Int.tdiv 0 16 * 8 = 0 := by decide
  have e3 : (1 : Int) * 8 = 8 := by decide
  simp only [pico_api.spr, pico_private.apply_camera, hcx, hcy, sub_zero, e0, e1, e3]
  have key := pico_private.blitter_store_clipped c c.sprite_data 0 (-4) 0 0 8 8 false true 0 0
    hv hb (by rw [h1]) (by rw [h3]) (by decide)
    { dest_pos := 0, src_pos := 0, len := 8 } { dest_pos := 0, src_pos := 4, len := 4 }
    (by rw [h1, h3]; decide) (by rw [h2, h4]; decide) (7 * 128) (by decide)
  rw [key]
  have hin : ((0 : Int) ≤ 0 ∧ (0 : Int) < 0 + 8 ∧ (0 : Int) ≤ 0 ∧ (0 : Int) < 0 + 4) := by decide
  by_cases ht : c.graphicsState.transparent (c.sprite_data (7 * 128)) = false
  · simp only [ht, and_true, hin, if_true]
  · have ht2 : c.graphicsState.transparent (c.sprite_data (7 * 128)) = true := by simpa using ht
    simp only [ht2, Bool.true_eq_false, and_false, if_false]

/-- C19 at the failing input `spr(0, 0, -4, 1, 1, false, true)` (an 8 by 8 blit flipped
vertically, its top four rows cut off by the clip rectangle): destination `(0, 0)` is row
`j = 4` of the request, so a flipped blit puts source `(0, 8 - 1 - 4) = (0, 3)` there, which
holds the opaque colour `1`; the code stores colour `2`, read from source `(0, 7)`. -/
theorem C19_flip_y_clipped_top :
    Console.striped.sprite_data ((0 + (8 - 1 - 4)) * 128 + 0) = 1 ∧
    Console.striped.graphicsState.transparent 1 = false ∧
    Console.striped.graphicsState.palette_map 1 = 1 ∧
    (pico_api.spr Console.striped 0 0 (-4) 1 1 false true).backbuffer_store
      (backbuffer + 0 * 128 + 0) = 2 := by
  have hs7 : Console.striped.sprite_data (7 * 128) = 2 := by
    simp only [Console.striped]
    decide
  refine ⟨?_, ?_, ?_, ?_⟩
  · simp only [Console.striped]
    decide
  · rw [Console.striped_graphicsState]
    exact Console.initial_transparent 1 (by decide)
  · rw [Console.striped_graphicsState]
    exact Console.initial_palette_map 1 (by decide)
  · rw [spr_flip_y_top_clipped Console.striped Console.striped_graphicsState
      Console.striped_buffer_size_x, hs7, Console.striped_graphicsState,
      Console.initial_transparent 2 (by decide), Console.initial_palette_map 2 (by decide)]
    decide

/-! ## The scaled blitter: flip flags and empty destinations -/

namespace pico_private

/-- The scaled blitter does not read its flip flags. -/
theorem stretch_blitter_ignores_flip (c : Console) (sprites : Mem)
    (sx sy sw sh x y w h : Int) (fx fy : Bool) :
    stretch_blitter c sprites sx sy sw sh x y w h fx fy
      = stretch_blitter c sprites sx sy sw sh x y w h false false := rfl

/-- A destination of width or height `0` that `is_visible` accepts makes the scaled blitter
divide by zero. -/
theorem stretch_blitter_zero_extent (c : Console) (sprites : Mem)
    (sx sy sw sh x y w h : Int) (fx fy : Bool)
    (hv : is_visible c.graphicsState x y w h = true) (h0 : w = 0 ∨ h = 0) :
    stretch_blitter c sprites sx sy sw sh x y w h fx fy = none := by
  unfold stretch_blitter
  simp only [hv, Bool.not_true, Bool.false_eq_true, if_false]
  rcases h0 with h0 | h0
  · rw [if_pos h0]
  · by_cases hw : w = 0
    · rw [if_pos hw]
    · rw [if_neg hw, if_pos h0]

end pico_private

/-- C12 at the failing inputs `sspr(0, 0, 8, 8, 10, 10, 0, 8)` and
`sspr(0, 0, 8, 8, 10, 10, 8, 0)` in the initial state: the destination `(10, 10)` lies
strictly inside the clip rectangle, `is_visible` accepts the empty rectangle, and the call
reaches the division by the zero extent. -/
theorem C12_zero_extent_divides :
    pico_private.is_visible Console.initial.graphicsState 10 10 0 8 = true ∧
    pico_api.sspr_scaled Console.initial 0 0 8 8 10 10 0 8 = none ∧
    pico_private.is_visible Console.initial.graphicsState 10 10 8 0 = true ∧
    pico_api.sspr_scaled Console.initial 0 0 8 8 10 10 8 0 = none := by
  obtain ⟨-, hcx, hcy, h1, h2, h3, h4⟩ := Console.initial_fields
  have v1 : pico_private.is_visible Console.initial.graphicsState 10 10 0 8 = true := by
    simp only [pico_private.is_visible, h1, h2, h3, h4]
    decide
  have v2 : pico_private.is_visible Console.initial.graphicsState 10 10 8 0 = true := by
    simp only [pico_private.is_visible, h1, h2, h3, h4]
    decide
  refine ⟨v1, ?_, v2, ?_⟩
  · simp only [pico_api.sspr_scaled, pico_private.apply_camera, hcx, hcy, sub_zero]
    exact pico_private.stretch_blitter_zero_extent _ _ _ _ _ _ _ _ _ _ _ _ v1 (Or.inl rfl)
  · simp only [pico_api.sspr_scaled, pico_private.apply_camera, hcx, hcy, sub_zero]
    exact pico_private.stretch_blitter_zero_extent _ _ _ _ _ _ _ _ _ _ _ _ v2 (Or.inr rfl)

/-- With the initial graphics state, the flipped 9 by 1 scaled blit of sheet cells
`(7, 0) … (15, 0)` to the origin is the fixed blit without flip. -/
theorem sspr_flip_row (c : Console) (fx fy : Bool) :
    pico_api.sspr_scaled_flip c 7 0 9 1 0 0 9 1 fx fy
      = some (pico_api.sspr c 7 0 9 1 0 0) := by
  unfold pico_api.sspr_scaled_flip pico_api.sspr
  exact pico_private.stretch_blitter_same_size c c.sprite_data 7 0 9 1 _ _ fx fy (by decide)
    (by decide)

/-- C11 at the failing input `sspr(7, 0, 9, 1, 0, 0, 9, 1, true, false)`: the sheet holds
colour `2` at `(7, 0)` and colour `1` at `(15, 0)`.  Without flip, column `8 = dw - 1 - 0`
of the destination receives colour `1`; with `flip_x = true` column `0` receives colour `2`,
the same as without flip, instead of the colour `1` a mirrored row would put there. -/
theorem C11_scaled_flip_ignored :
    (pico_api.sspr_scaled_flip Console.marked 7 0 9 1 0 0 9 1 false false).map
      (fun c => c.backbuffer_store (backbuffer + 0 * 128 + 8)) = some 1 ∧
    (pico_api.sspr_scaled_flip Console.marked 7 0 9 1 0 0 9 1 true false).map
      (fun c => c.backbuffer_store (backbuffer + 0 * 128 + 0)) = some 2 ∧
    pico_api.sspr_scaled_flip Console.marked 7 0 9 1 0 0 9 1 true false
      = pico_api.sspr_scaled_flip Console.marked 7 0 9 1 0 0 9 1 false false := by
  obtain ⟨-, hcx, hcy, h1, h2, h3, h4⟩ :=
    Console.fields_of_initial Console.marked Console.marked_graphicsState
  have hpal := Console.initial_palette_map
  have htr := Console.initial_transparent
  have cell : ∀ px : Int, 0 ≤ px ∧ px < 9 →
      (pico_api.sspr Console.marked 7 0 9 1 0 0).backbuffer_store (backbuffer + 0 * 128 + px)
        = if Console.marked.graphicsState.transparent (Console.marked.sprite_data (7 + px))
              = false
          then Console.marked.graphicsState.palette_map (Console.marked.sprite_data (7 + px))
          else Console.marked.backbuffer_store (backbuffer + 0 * 128 + px) := by
    intro px hpx
    simp only [pico_api.sspr, pico_private.apply_camera, hcx, hcy, sub_zero]
    rw [blitter_no_flip_store Console.marked _ 0 0 7 0 9 1 px 0
      Console.marked_buffer_size_x (by rw [h1]) (by rw [h3]) (by omega)]
    simp only [h1, h2, h3, h4, sub_zero, add_zero, zero_mul, zero_add]
    have p1 : px < 9 := hpx.2
    have p2 : (0 : Int) < 1 := by decide
    have p3 : px < 128 := by omega
    have p4 : (0 : Int) < 128 := by decide
    have p5 : 0 ≤ px := hpx.1
    simp only [p1, p2, p3, p4, p5, le_refl, true_and]
  have s15 : Console.marked.sprite_data (7 + 8) = 1 := by
    simp only [Console.marked]; decide
  have s7 : Console.marked.sprite_data (7 + 0) = 2 := by
    simp only [Console.marked]; decide
  refine ⟨?_, ?_, ?_⟩
  · rw [sspr_flip_row, Option.map_some', cell 8 (by decide), s15, Console.marked_graphicsState,
      htr 1 (by decide), hpal 1 (by decide)]
    decide
  · rw [sspr_flip_row, Option.map_some', cell 0 (by decide), s7, Console.marked_graphicsState,
      htr 2 (by decide), hpal 2 (by decide)]
    decide
  · rw [sspr_flip_row, sspr_flip_row]

/-! ## Vertical lines -/

namespace pico_private

theorem vline_loop_buffer_size_x (pat fg bg : Nat) (x : Int) (n : Nat) :
    ∀ (y pix : Int) (c : Console),
    (vline_loop pat fg bg x n y pix c).buffer_size_x = c.buffer_size_x := by
  induction n with
  | zero => intro y pix c; rfl
  | succ n ih => intro y pix c; rw [vline_loop, ih, Console.poke_buffer_size_x]

/-- The loop of `vline` keeps every cell that is not column `x` of one of its `n` rows. -/
theorem vline_loop_store_miss (pat fg bg : Nat) (x : Int) (n : Nat) :
    ∀ (y pix : Int) (c : Console) (a : Int),
    (∀ k : Nat, k < n → a ≠ pix + k * c.buffer_size_x + x) →
    (vline_loop pat fg bg x n y pix c).backbuffer_store a = c.backbuffer_store a := by
  induction n with
  | zero => intro y pix c a _; rfl
  | succ n ih =>
    intro y pix c a h
    rw [vline_loop, ih, Console.poke_store, Mem.write_other]
    · have := h 0 (by omega)
      simpa using this
    · intro k hk
      rw [Console.poke_buffer_size_x]
      have := h (k + 1) (by omega)
      push_cast at this
      rw [add_mul, one_mul] at this
      intro hc
      apply this
      omega

/-- With a positive row stride, row `k` of the loop of `vline` holds the dithered colour
of line `y + k`. -/
theorem vline_loop_store_hit (pat fg bg : Nat) (x : Int) (n : Nat) :
    ∀ (y pix : Int) (c : Console) (k : Nat), k < n → 0 < c.buffer_size_x →
    (vline_loop pat fg bg x n y pix c).backbuffer_store (pix + k * c.buffer_size_x + x) =
      if dither pat x (y + k) then bg else fg := by
  induction n with
  | zero => intro y pix c k hk; omega
  | succ n ih =>
    intro y pix c k hk hb
    rw [vline_loop]
    cases k with
    | zero =>
      rw [vline_loop_store_miss]
      · simp only [Nat.cast_zero, zero_mul, add_zero, Console.poke_store, Mem.write_same]
      · intro j _
        rw [Console.poke_buffer_size_x]
        have : (0 : Int) ≤ j * c.buffer_size_x := mul_nonneg (Int.ofNat_nonneg j) (by omega)
        simp only [Nat.cast_zero, zero_mul, add_zero]
        omega
    | succ k =>
      have key := ih (y + 1) (pix + c.buffer_size_x)
        (c.poke (pix + x) (if dither pat x y then bg else fg)) k (by omega)
        (by rw [Console.poke_buffer_size_x]; exact hb)
      rw [Console.poke_buffer_size_x] at key
      have e1 : pix + ((k + 1 : Nat) : Int) * c.buffer_size_x + x
          = pix + c.buffer_size_x + (k : Int) * c.buffer_size_x + x := by
        push_cast; ring
      have e2 : y + ((k + 1 : Nat) : Int) = y + 1 + (k : Int) := by
        push_cast; ring
      rw [e1, e2, key]

/-- With the initial graphics state and a 128-wide buffer: `vline(10, 5, 3)` changes nothing,
while `vline(5, 10, 3)` stores the foreground colour at `(3, 5)` and leaves `(3, 10)`
alone. -/
theorem vline_order (c : Console) (hg : c.graphicsState = Console.initial.graphicsState)
    (hb : c.buffer_size_x = 128) :
    vline c 10 5 3 = c ∧
    (vline c 5 10 3).backbuffer_store (backbuffer + 5 * 128 + 3)
      = c.graphicsState.palette_map c.graphicsState.fg ∧
    (vline c 5 10 3).backbuffer_store (backbuffer + 10 * 128 + 3)
      = c.backbuffer_store (backbuffer + 10 * 128 + 3) := by
  obtain ⟨hpat, -, -, h1, h2, h3, h4⟩ := Console.fields_of_initial c hg
  have l5 : limit 5 0 128 = 5 := by decide
  have l10 : limit 10 0 128 = 10 := by decide
  have n0 : ((5 : Int) - 10).toNat = 0 := by decide
  have n5 : ((10 : Int) - 5).toNat = 5 := by decide
  have hc : ¬ ((3 : Int) < 0 ∨ (3 : Int) ≥ 128) := by decide
  refine ⟨?_, ?_, ?_⟩
  · simp only [vline, h1, h2, h3, h4, hc, if_false, l5, l10, n0, vline_loop]
  · simp only [vline, h1, h2, h3, h4, hc, if_false, l5, l10, n5, hpat]
    have key := vline_loop_store_hit 0 (c.graphicsState.palette_map c.graphicsState.fg)
      (c.graphicsState.palette_map c.graphicsState.bg) 3 5 5 (backbuffer + 5 * c.buffer_size_x)
      c 0 (by decide) (by rw [hb]; decide)
    simp only [Nat.cast_zero, zero_mul, add_zero, dither_zero, Bool.false_eq_true, if_false,
      hb] at key
    rw [hb]
    exact key
  · simp only [vline, h1, h2, h3, h4, hc, if_false, l5, l10, n5, hpat]
    apply vline_loop_store_miss
    intro k hk
    rw [hb]
    omega

end pico_private

/-- C13 (as stated) fails in the initial state (foreground colour `7`, framebuffer all
`0`): `vline(5, 10, 3)`, the call `rect` makes for a left edge from row `5` to row `10`,
stores `7` at `(3, 5)` and leaves the end point `(3, 10)` at `0`; and `vline(10, 5, 3)`
leaves `(3, 5)` at `0`, so the two orders differ. -/
theorem C13_vline_order_matters :
    (pico_private.vline Console.initial 5 10 3).backbuffer_store (backbuffer + 5 * 128 + 3) = 7 ∧
    (pico_private.vline Console.initial 10 5 3).backbuffer_store (backbuffer + 5 * 128 + 3) = 0 ∧
    (pico_private.vline Console.initial 5 10 3).backbuffer_store (backbuffer + 10 * 128 + 3) = 0 := by
  obtain ⟨h1, h2, h3⟩ := pico_private.vline_order Console.initial rfl Console.initial_buffer_size_x
  have hfg : Console.initial.graphicsState.fg = 7 := by
    rw [Console.initial_graphicsState]; rfl
  refine ⟨?_, ?_, ?_⟩
  · rw [h2, hfg, Console.initial_palette_map 7 (by decide)]
  · rw [h1]
    exact Console.initial_store_framebuffer _ (by decide) (by decide)
  · rw [h3]
    exact Console.initial_store_framebuffer _ (by decide) (by decide)

/-! ## Vertical lines: the rows written -/

namespace pico_private

/-- Clamping both ends of `[lo, hi)` to a well-formed `[a, b]`: the clamped span holds the
rows of `[lo, hi)` that lie in `[a, b)`. -/
theorem limit_rows (lo hi a b d : Int) (hab : a ≤ b) :
    (limit lo a b ≤ d ∧ d < limit hi a b) ↔ (lo ≤ d ∧ d < hi ∧ a ≤ d ∧ d < b) := by
  unfold limit
  split_ifs <;> omega

/-- What `vline` leaves in framebuffer cell `(px, py)`, for a 128-wide buffer, clip
columns inside it and clip rows that are not inverted: the dither colour when `px = x` lies
in the clip columns and `py` is a row of `[y0, y1)` inside the clip rows, the old value
otherwise. -/
theorem vline_store_at (c : Console) (y0 y1 x px py : Int)
    (hb : c.buffer_size_x = 128)
    (hx1 : 0 ≤ c.graphicsState.clip_x1) (hx2 : c.graphicsState.clip_x2 ≤ 128)
    (hy : c.graphicsState.clip_y1 ≤ c.graphicsState.clip_y2)
    (hpx : 0 ≤ px ∧ px < 128) :
    (vline c y0 y1 x).backbuffer_store (backbuffer + py * 128 + px) =
      if px = x ∧ y0 ≤ py ∧ py < y1 ∧
          c.graphicsState.clip_x1 ≤ px ∧ px < c.graphicsState.clip_x2 ∧
          c.graphicsState.clip_y1 ≤ py ∧ py < c.graphicsState.clip_y2 then
        (if dither c.graphicsState.pattern px py
          then c.graphicsState.palette_map c.graphicsState.bg
          else c.graphicsState.palette_map c.graphicsState.fg)
      else c.backbuffer_store (backbuffer + py * 128 + px) := by
  have hrows := limit_rows y0 y1 c.graphicsState.clip_y1 c.graphicsState.clip_y2 py hy
  unfold vline
  simp only []
  by_cases hx : x < c.graphicsState.clip_x1 ∨ x ≥ c.graphicsState.clip_x2
  · have hc : ¬ (px = x ∧ y0 ≤ py ∧ py < y1 ∧
        c.graphicsState.clip_x1 ≤ px ∧ px < c.graphicsState.clip_x2 ∧
        c.graphicsState.clip_y1 ≤ py ∧ py < c.graphicsState.clip_y2) := by
      intro hh; omega
    rw [if_pos hx, if_neg hc]
  · rw [if_neg hx]
    generalize hY0 : limit y0 c.graphicsState.clip_y1 c.graphicsState.clip_y2 = Y0 at hrows
    generalize hY1 : limit y1 c.graphicsState.clip_y1 c.graphicsState.clip_y2 = Y1 at hrows
    by_cases hin : px = x ∧ Y0 ≤ py ∧ py < Y1
    · obtain ⟨rfl, h1, h2⟩ := hin
      have hr := hrows.1 ⟨h1, h2⟩
      have hc : px = px ∧ y0 ≤ py ∧ py < y1 ∧
          c.graphicsState.clip_x1 ≤ px ∧ px < c.graphicsState.clip_x2 ∧
          c.graphicsState.clip_y1 ≤ py ∧ py < c.graphicsState.clip_y2 :=
        ⟨rfl, hr.1, hr.2.1, by omega, by omega, hr.2.2.1, hr.2.2.2⟩
      rw [if_pos hc]
      have hk : ((py - Y0).toNat : Int) = py - Y0 := by omega
      have key := vline_loop_store_hit c.graphicsState.pattern
        (c.graphicsState.palette_map c.graphicsState.fg)
        (c.graphicsState.palette_map c.graphicsState.bg) px (Y1 - Y0).toNat Y0
        (backbuffer + Y0 * c.buffer_size_x) c (py - Y0).toNat (by omega) (by rw [hb]; decide)
      rw [hk, hb] at key
      have e1 : backbuffer + Y0 * 128 + (py - Y0) * 128 + px = backbuffer + py * 128 + px := by
        ring
      have e2 : Y0 + (py - Y0) = py := by ring
      rw [e1, e2] at key
      rw [hb]
      exact key
    · have hc : ¬ (px = x ∧ y0 ≤ py ∧ py < y1 ∧
          c.graphicsState.clip_x1 ≤ px ∧ px < c.graphicsState.clip_x2 ∧
          c.graphicsState.clip_y1 ≤ py ∧ py < c.graphicsState.clip_y2) := by
        intro hh
        exact hin ⟨hh.1, hrows.2 ⟨hh.2.1, hh.2.2.1, hh.2.2.2.2.2.1, hh.2.2.2.2.2.2⟩⟩
      rw [if_neg hc]
      apply vline_loop_store_miss
      intro k hk
      rw [hb]
      intro heq
      apply hin
      have hk2 : (k : Int) < Y1 - Y0 := by omega
      omega

end pico_private

/-- C13 (amended): `vline` takes its end points in the order given and stops before `y1`.
For a 128-wide buffer, clip columns inside it and clip rows that are not inverted, and for
every `y0`, `y1`, `x`, pattern, colours and palette map: `vline(y0, y1, x)` stores the dither
colour in exactly the framebuffer cells `(x, y)` with `y0 ≤ y < y1` that lie inside the clip
rectangle (none when `y0 ≥ y1`) and leaves every other cell of the buffer as it was. -/
theorem C13_vline_rows (c : Console) (y0 y1 x px py : Int)
    (hb : c.buffer_size_x = 128)
    (hx1 : 0 ≤ c.graphicsState.clip_x1) (hx2 : c.graphicsState.clip_x2 ≤ 128)
    (hy : c.graphicsState.clip_y1 ≤ c.graphicsState.clip_y2)
    (hpx : 0 ≤ px ∧ px < 128) :
    (pico_private.vline c y0 y1 x).backbuffer_store (backbuffer + py * 128 + px) =
      if px = x ∧ y0 ≤ py ∧ py < y1 ∧
          c.graphicsState.clip_x1 ≤ px ∧ px < c.graphicsState.clip_x2 ∧
          c.graphicsState.clip_y1 ≤ py ∧ py < c.graphicsState.clip_y2 then
        (if pico_private.dither c.graphicsState.pattern px py
          then c.graphicsState.palette_map c.graphicsState.bg
          else c.graphicsState.palette_map c.graphicsState.fg)
      else c.backbuffer_store (backbuffer + py * 128 + px) :=
  pico_private.vline_store_at c y0 y1 x px py hb hx1 hx2 hy hpx

/-- C13 (amended) after `clip(2, 4, 10, 5)` and `fillp(0xa5a5)` in the initial state, for
`vline(2, 12, 3)`: the clip rows are `4 … 8`, so `(3, 8)` takes the foreground colour `7`
and `(3, 9)`, still short of `y1 = 12`, stays `0`. -/
theorem C13_vline_rows_witness :
    ((pico_api.fillp (pico_api.clip Console.initial 2 4 10 5) 0xa5a5).buffer_size_x = 128 ∧
      0 ≤ (pico_api.fillp (pico_api.clip Console.initial 2 4 10 5) 0xa5a5).graphicsState.clip_x1 ∧
      (pico_api.fillp (pico_api.clip Console.initial 2 4 10 5) 0xa5a5).graphicsState.clip_x2
        ≤ 128 ∧
      (pico_api.fillp (pico_api.clip Console.initial 2 4 10 5) 0xa5a5).graphicsState.clip_y1
        ≤ (pico_api.fillp (pico_api.clip Console.initial 2 4 10 5) 0xa5a5).graphicsState.clip_y2) ∧
    (pico_private.vline (pico_api.fillp (pico_api.clip Console.initial 2 4 10 5) 0xa5a5)
        2 12 3).backbuffer_store (backbuffer + 8 * 128 + 3) = 7 ∧
    (pico_private.vline (pico_api.fillp (pico_api.clip Console.initial 2 4 10 5) 0xa5a5)
        2 12 3).backbuffer_store (backbuffer + 9 * 128 + 3) = 0 := by
  have hd : pico_private.dither
      (pico_api.fillp (pico_api.clip Console.initial 2 4 10 5) 0xa5a5).graphicsState.pattern
      3 8 = false := by decide
  have hfg : (pico_api.fillp (pico_api.clip Console.initial 2 4 10 5)
        0xa5a5).graphicsState.palette_map
      (pico_api.fillp (pico_api.clip Console.initial 2 4 10 5) 0xa5a5).graphicsState.fg = 7 :=
    Console.initial_palette_map 7 (by decide)
  have hs : (pico_api.fillp (pico_api.clip Console.initial 2 4 10 5) 0xa5a5).backbuffer_store
      (backbuffer + 9 * 128 + 3) = 0 := by
    have e : (pico_api.fillp (pico_api.clip Console.initial 2 4 10 5) 0xa5a5).backbuffer_store
        = Console.initial.backbuffer_store := by
      simp only [pico_api.fillp, pico_api.clip]
    rw [e]
    exact Console.initial_store_framebuffer (backbuffer + 9 * 128 + 3) (by decide) (by decide)
  refine ⟨⟨rfl, by decide, by decide, by decide⟩, ?_, ?_⟩
  · rw [C13_vline_rows _ 2 12 3 3 8 rfl (by decide) (by decide) (by decide) (by decide),
      if_pos (by decide), hd, hfg]
    rfl
  · rw [C13_vline_rows _ 2 12 3 3 9 rfl (by decide) (by decide) (by decide) (by decide),
      if_neg (by decide), hs]

/-! ## Horizontal spans under an inverted clip rectangle -/

namespace pico_private

/-- A point outside the clip rectangle: `pset` changes nothing. -/
theorem pset_outside (c : Console) (x y : Int)
    (h : x < c.graphicsState.clip_x1 ∨ x ≥ c.graphicsState.clip_x2 ∨
      y < c.graphicsState.clip_y1 ∨ y ≥ c.graphicsState.clip_y2) : pset c x y = c := by
  unfold pset
  simp only []
  rw [if_pos h]

/-- The fast path of `hline` for the pattern `0`: one `memset` from the clamped start over
the difference of the clamped ends, whatever its sign. -/
theorem hline_store_fast (c : Console) (x0 x1 y : Int) (hpat : c.graphicsState.pattern = 0)
    (hx : x0 ≤ x1)
    (hy : c.graphicsState.clip_y1 ≤ y ∧ y < c.graphicsState.clip_y2) :
    (hline c x0 x1 y).backbuffer_store =
      memset c.backbuffer_store
        (backbuffer + y * c.buffer_size_x
          + limit x0 c.graphicsState.clip_x1 c.graphicsState.clip_x2)
        (c.graphicsState.palette_map c.graphicsState.fg)
        (limit (x1 + 1) c.graphicsState.clip_x1 c.graphicsState.clip_x2
          - limit x0 c.graphicsState.clip_x1 c.graphicsState.clip_x2) := by
  have n1 : normalise_coords x0 x1 = (x0, x1) := by
    unfold normalise_coords
    rw [if_neg (by omega)]
  simp only [hline, n1, hpat, if_true]
  rw [if_neg (by omega)]

end pico_private

/-- With no camera offset, the pattern `0` and a 128-wide buffer, after
`clip(10, 0, -5, 128)` the call `circfill(10, 5, 1, col)` is one `memset` of length
`5 - 10` (as a `size_t`) starting at the cell of `(10, 5)`. -/
theorem circfill_inverted_clip (c : Console) (col : Nat)
    (hg : c.graphicsState = Console.initial.graphicsState) (hb : c.buffer_size_x = 128) :
    (pico_api.circfill 0 (pico_api.clip c 10 0 (-5) 128) 10 5 1 col).map
        Console.backbuffer_store =
      some (memset c.backbuffer_store (backbuffer + 5 * 128 + 10)
        (c.graphicsState.palette_map (col % 256 &&& 0xf)) (5 - 10)) := by
  obtain ⟨hpat, hcx, hcy, -, -, -, -⟩ := Console.fields_of_initial c hg
  have r1 : (1 : Int) ≠ 0 := by decide
  have kcx : (pico_api.clip c 10 0 (-5) 128).graphicsState.camera_x = 0 := hcx
  have kcy : (pico_api.clip c 10 0 (-5) 128).graphicsState.camera_y = 0 := hcy
  simp only [pico_api.circfill, pico_private.apply_camera, kcx, kcy, sub_zero, r1, if_false,
    if_true, Option.map_some']
  -- the state `color` leaves
  have k1 : (pico_api.color (pico_api.clip c 10 0 (-5) 128) col).graphicsState.clip_x1 = 10 := rfl
  have k2 : (pico_api.color (pico_api.clip c 10 0 (-5) 128) col).graphicsState.clip_y1 = 0 := rfl
  have k3 : (pico_api.color (pico_api.clip c 10 0 (-5) 128) col).graphicsState.clip_x2 = 5 := by
    show (10 : Int) + -5 = 5
    decide
  have k4 : (pico_api.color (pico_api.clip c 10 0 (-5) 128) col).graphicsState.clip_y2 = 128 := by
    show (0 : Int) + 128 = 128
    decide
  have kpat : (pico_api.color (pico_api.clip c 10 0 (-5) 128) col).graphicsState.pattern = 0 :=
    hpat
  have kb : (pico_api.color (pico_api.clip c 10 0 (-5) 128) col).buffer_size_x = 128 := hb
  have kfg : (pico_api.color (pico_api.clip c 10 0 (-5) 128) col).graphicsState.palette_map
      (pico_api.color (pico_api.clip c 10 0 (-5) 128) col).graphicsState.fg
      = c.graphicsState.palette_map (col % 256 &&& 0xf) := rfl
  have ks : (pico_api.color (pico_api.clip c 10 0 (-5) 128) col).backbuffer_store
      = c.backbuffer_store := rfl
  have pA : pico_private.pset (pico_api.color (pico_api.clip c 10 0 (-5) 128) col) 10 (5 - 1)
      = pico_api.color (pico_api.clip c 10 0 (-5) 128) col :=
    pico_private.pset_outside _ _ _ (Or.inr (Or.inl (by rw [k3]; decide)))
  rw [pA]
  have pC : pico_private.pset
      (pico_private.hline (pico_api.color (pico_api.clip c 10 0 (-5) 128) col)
        (10 - 1) (10 + 1) 5) 10 (5 + 1)
      = pico_private.hline (pico_api.color (pico_api.clip c 10 0 (-5) 128) col)
        (10 - 1) (10 + 1) 5 :=
    pico_private.pset_outside _ _ _
      (Or.inr (Or.inl (by rw [pico_private.hline_graphicsState, k3]; decide)))
  rw [pC, pico_private.hline_store_fast _ _ _ _ kpat (by decide) (by rw [k2, k4]; decide),
    k1, k3, kb, kfg, ks]
  have l0 : pico_private.limit (10 - 1) 10 5 = 10 := by decide
  have l1 : pico_private.limit (10 + 1 + 1) 10 5 = 5 := by decide
  rw [l0, l1]

/-- C14 at the failing input `clip(10, 0, -5, 128); circfill(10, 5, 1, 7)` in the initial
state: the span `hline(9, 11, 5)` is clamped to start `10` and end `5`, a length of `-5`;
the fast path hands that length to `memset`, so the call is no no-op: pixel `(10, 5)`, which
is outside the (empty) clip rectangle, receives colour `7`, and so does the first cell of
the second guard array, after which the integrity check fails. -/
theorem C14_negative_span_memset :
    pico_private.limit (11 + 1) 10 5 - pico_private.limit 9 10 5 = -5 ∧
    (pico_api.circfill 0 (pico_api.clip Console.initial 10 0 (-5) 128) 10 5 1 7).map
      (fun c => c.backbuffer_store (backbuffer + 5 * 128 + 10)) = some 7 ∧
    (pico_api.circfill 0 (pico_api.clip Console.initial 10 0 (-5) 128) 10 5 1 7).map
      (fun c => c.backbuffer_store (backbuffer_guard2 + (0 : Nat))) = some 7 ∧
    (pico_api.circfill 0 (pico_api.clip Console.initial 10 0 (-5) 128) 10 5 1 7).map
      pico_private.check_guards = some false := by
  have h := circfill_inverted_clip Console.initial 7 rfl Console.initial_buffer_size_x
  have e7 : (7 % 256 &&& 0xf : Nat) = 7 := by decide
  rw [e7, Console.initial_palette_map 7 (by decide)] at h
  cases hres : pico_api.circfill 0 (pico_api.clip Console.initial 10 0 (-5) 128) 10 5 1 7 with
  | none => rw [hres] at h; exact absurd h (by simp)
  | some c1 =>
    rw [hres, Option.map_some', Option.some.injEq] at h
    have g2 : c1.backbuffer_store (backbuffer_guard2 + (0 : Nat)) = 7 := by
      rw [h]
      simp only [memset, SIZE_T, backbuffer, backbuffer_guard2]
      rw [if_pos (by decide)]
    refine ⟨by decide, ?_, ?_, ?_⟩
    · rw [Option.map_some', h]
      simp only [memset, SIZE_T, backbuffer]
      rw [if_pos (by decide)]
    · rw [Option.map_some', g2]
    · rw [Option.map_some']
      congr 1
      exact pico_private.check_guards_detects c1 0 (by decide) (Or.inr (by rw [g2]; decide))

/-! ## The scaled blitter: what it stores -/

namespace pico_private

/-- Adding whole units to a 16.16 fixed-point value adds them to its integer part. -/
theorem fixed_shift_add (a b : Int) : (a * 65536 + b) >>> (16 : Nat) = a + b >>> (16 : Nat) := by
  rw [Int.shiftRight_eq_div_pow, Int.shiftRight_eq_div_pow]
  have e : ((2 ^ 16 : Nat) : Int) = 65536 := by norm_num
  rw [e]
  omega

theorem stretch_row_graphicsState (sprites : Mem) (spr pix sx dx : Int) (n : Nat) :
    ∀ (x : Int) (c : Console),
    (stretch_row sprites spr pix sx dx n x c).graphicsState = c.graphicsState := by
  induction n with
  | zero => intro x c; rfl
  | succ n ih =>
    intro x c
    rw [stretch_row, ih]
    split_ifs <;> rfl

theorem stretch_row_buffer_size_x (sprites : Mem) (spr pix sx dx : Int) (n : Nat) :
    ∀ (x : Int) (c : Console),
    (stretch_row sprites spr pix sx dx n x c).buffer_size_x = c.buffer_size_x := by
  induction n with
  | zero => intro x c; rfl
  | succ n ih =>
    intro x c
    rw [stretch_row, ih]
    split_ifs <;> rfl

/-- One row of the scaled blitter changes no cell outside `pix + [x, x + n)`. -/
theorem stretch_row_store_other (sprites : Mem) (spr pix sx dx : Int) (n : Nat) :
    ∀ (x : Int) (c : Console) (a : Int), (a < pix + x ∨ pix + x + n ≤ a) →
    (stretch_row sprites spr pix sx dx n x c).backbuffer_store a = c.backbuffer_store a := by
  induction n with
  | zero => intro x c a _; rfl
  | succ n ih =>
    intro x c a ha
    rw [stretch_row, ih _ _ _ (by push_cast at ha; omega)]
    split_ifs
    · rfl
    · exact Mem.write_other _ _ _ _ (by push_cast at ha; omega)

/-- Value of a cell of the run after one row of the scaled blitter. -/
theorem stretch_row_store_at (sprites : Mem) (spr pix sx dx : Int) (n : Nat) :
    ∀ (x : Int) (c : Console) (i : Int), x ≤ i → i < x + n →
    (stretch_row sprites spr pix sx dx n x c).backbuffer_store (pix + i) =
      if c.graphicsState.transparent (sprites (spr + (sx + i * dx) >>> (16 : Nat)))
      then c.backbuffer_store (pix + i)
      else c.graphicsState.palette_map (sprites (spr + (sx + i * dx) >>> (16 : Nat))) := by
  induction n with
  | zero => intro x c i h1 h2; simp only [Nat.cast_zero, add_zero] at h2; omega
  | succ n ih =>
    intro x c i h1 h2
    rw [stretch_row]
    by_cases hi : i = x
    · subst hi
      rw [stretch_row_store_other _ _ _ _ _ _ _ _ _ (Or.inl (by omega))]
      split_ifs <;> first | rfl | exact Mem.write_same _ _ _
    · rw [ih _ _ _ (by omega) (by push_cast at h2; omega)]
      have hg : (if c.graphicsState.transparent (sprites (spr + (sx + x * dx) >>> (16 : Nat)))
            = true then c
          else c.poke (pix + x)
            (c.graphicsState.palette_map (sprites (spr + (sx + x * dx) >>> (16 : Nat))))).graphicsState
          = c.graphicsState := by split_ifs <;> rfl
      have hs : (if c.graphicsState.transparent (sprites (spr + (sx + x * dx) >>> (16 : Nat)))
            = true then c
          else c.poke (pix + x)
            (c.graphicsState.palette_map (sprites (spr + (sx + x * dx) >>> (16 : Nat))))).backbuffer_store
            (pix + i) = c.backbuffer_store (pix + i) := by
        split_ifs
        · rfl
        · exact Mem.write_other _ _ _ _ (by omega)
      rw [hg, hs]

theorem stretch_rows_graphicsState (sprites : Mem) (sx sy dx dy w : Int) (n : Nat) :
    ∀ (y pix : Int) (c : Console),
    (stretch_rows sprites sx sy dx dy w n y pix c).graphicsState = c.graphicsState := by
  induction n with
  | zero => intro y pix c; rfl
  | succ n ih => intro y pix c; rw [stretch_rows, ih, stretch_row_graphicsState]

theorem stretch_rows_buffer_size_x (sprites : Mem) (sx sy dx dy w : Int) (n : Nat) :
    ∀ (y pix : Int) (c : Console),
    (stretch_rows sprites sx sy dx dy w n y pix c).buffer_size_x = c.buffer_size_x := by
  induction n with
  | zero => intro y pix c; rfl
  | succ n ih => intro y pix c; rw [stretch_rows, ih, stretch_row_buffer_size_x]

/-- The rows of the scaled blitter change no cell outside their `n` runs. -/
theorem stretch_rows_store_other (sprites : Mem) (sx sy dx dy w : Int) (n : Nat) :
    ∀ (y pix : Int) (c : Console) (a : Int),
    (∀ k : Nat, k < n →
      a < pix + k * c.buffer_size_x ∨ pix + k * c.buffer_size_x + w.toNat ≤ a) →
    (stretch_rows sprites sx sy dx dy w n y pix c).backbuffer_store a = c.backbuffer_store a := by
  induction n with
  | zero => intro y pix c a _; rfl
  | succ n ih =>
    intro y pix c a ha
    rw [stretch_rows, ih]
    · apply stretch_row_store_other
      have := ha 0 (by omega)
      simp only [Nat.cast_zero, zero_mul, add_zero] at this
      omega
    · intro k hk
      rw [stretch_row_buffer_size_x]
      have := ha (k + 1) (by omega)
      push_cast at this
      rw [add_mul, one_mul] at this
      omega

/-- Value of a cell after the rows of the scaled blitter, when the rows do not overlap. -/
theorem stretch_rows_store_at (sprites : Mem) (sx sy dx dy w : Int) (n : Nat) :
    ∀ (y pix : Int) (c : Console) (k : Nat) (i : Int),
    k < n → 0 ≤ i → i < w → w ≤ c.buffer_size_x →
    (stretch_rows sprites sx sy dx dy w n y pix c).backbuffer_store
        (pix + k * c.buffer_size_x + i) =
      if c.graphicsState.transparent
          (sprites ((sy + (y + k) * dy) >>> (16 : Nat) * 128 + (sx + i * dx) >>> (16 : Nat)))
      then c.backbuffer_store (pix + k * c.buffer_size_x + i)
      else c.graphicsState.palette_map
          (sprites ((sy + (y + k) * dy) >>> (16 : Nat) * 128 + (sx + i * dx) >>> (16 : Nat))) := by
  induction n with
  | zero => intro y pix c k i hk; omega
  | succ n ih =>
    intro y pix c k i hk h0 hw hb
    rw [stretch_rows]
    cases k with
    | zero =>
      simp only [Nat.cast_zero, zero_mul, add_zero]
      rw [stretch_rows_store_other, stretch_row_store_at _ _ _ _ _ _ _ _ _ h0 (by omega)]
      intro j _
      rw [stretch_row_buffer_size_x]
      left
      have : (0 : Int) ≤ j * c.buffer_size_x :=
        mul_nonneg (Int.ofNat_nonneg j) (by omega)
      omega
    | succ k =>
      have e1 : pix + ((k + 1 : Nat) : Int) * c.buffer_size_x + i
          = pix + c.buffer_size_x + (k : Int) * c.buffer_size_x + i := by
        push_cast; ring
      have e2 : y + ((k + 1 : Nat) : Int) = y + 1 + (k : Int) := by
        push_cast; ring
      rw [e1, e2]
      have hbs := stretch_row_buffer_size_x sprites
        ((sy + y * dy) >>> (16 : Nat) * 128) pix sx dx w.toNat 0 c
      have key := ih (y + 1) (pix + c.buffer_size_x)
        (stretch_row sprites ((sy + y * dy) >>> (16 : Nat) * 128) pix sx dx w.toNat 0 c) k i
        (by omega) h0 hw (by rw [hbs]; exact hb)
      rw [hbs] at key
      rw [key, stretch_row_graphicsState, stretch_row_store_other]
      right
      have : (0 : Int) ≤ k * c.buffer_size_x :=
        mul_nonneg (Int.ofNat_nonneg k) (by omega)
      omega

end pico_private

namespace pico_private

/-- The two clip steps of `stretch_blitter` on one axis leave the requested run cut to
`[mn, mx)`. -/
theorem stretch_axis_range (d l mn mx p : Int) :
    ((if d < mn then mn else d) ≤ p ∧
      p < (if d < mn then mn else d) +
        (if (if d < mn then mn else d) + (if d < mn then l - (mn - d) else l) > mx then
          (if d < mn then l - (mn - d) else l) -
            (((if d < mn then mn else d) + (if d < mn then l - (mn - d) else l)) - mx)
         else (if d < mn then l - (mn - d) else l))) ↔
    (d ≤ p ∧ p < d + l ∧ mn ≤ p ∧ p < mx) := by
  split_ifs <;> omega

/-- The clipped fixed-point source origin is the requested origin advanced by the clipped
amount times the step. -/
theorem stretch_axis_origin (d s mn step : Int) :
    (if d < mn then s * 65536 + (mn - d) * step else s * 65536)
      = s * 65536 + ((if d < mn then mn else d) - d) * step := by
  split_ifs <;> ring

/-- Value of every framebuffer cell after the scaled blitter with a positive destination
size, for a 128-wide buffer and clip columns inside it. -/
theorem stretch_blitter_store (c : Console) (sprites : Mem)
    (spr_x spr_y spr_w spr_h scr_x scr_y scr_w scr_h : Int) (fx fy : Bool) (px py : Int)
    (hw : 0 < scr_w) (hh : 0 < scr_h) (hb : c.buffer_size_x = 128)
    (hx1 : 0 ≤ c.graphicsState.clip_x1) (hx2 : c.graphicsState.clip_x2 ≤ 128)
    (hpx : 0 ≤ px ∧ px < 128) (src : Int)
    (hsrc : src = (spr_y + ((py - scr_y) * Int.tdiv (spr_h * 65536) scr_h) >>> (16 : Nat)) * 128
      + (spr_x + ((px - scr_x) * Int.tdiv (spr_w * 65536) scr_w) >>> (16 : Nat))) :
    (stretch_blitter c sprites spr_x spr_y spr_w spr_h scr_x scr_y scr_w scr_h fx fy).map
        (fun c1 => c1.backbuffer_store (backbuffer + py * 128 + px)) =
      some (if scr_x ≤ px ∧ px < scr_x + scr_w ∧ scr_y ≤ py ∧ py < scr_y + scr_h ∧
          c.graphicsState.clip_x1 ≤ px ∧ px < c.graphicsState.clip_x2 ∧
          c.graphicsState.clip_y1 ≤ py ∧ py < c.graphicsState.clip_y2 ∧
          c.graphicsState.transparent (sprites src) = false
        then c.graphicsState.palette_map (sprites src)
        else c.backbuffer_store (backbuffer + py * 128 + px)) := by
  have hw0 : scr_w ≠ 0 := by omega
  have hh0 : scr_h ≠ 0 := by omega
  by_cases hv : is_visible c.graphicsState scr_x scr_y scr_w scr_h = true
  swap
  · have hv2 : is_visible c.graphicsState scr_x scr_y scr_w scr_h = false := by simpa using hv
    have hd := not_visible_disjoint c.graphicsState scr_x scr_y scr_w scr_h px py hv2
    have hcond : ¬ (scr_x ≤ px ∧ px < scr_x + scr_w ∧ scr_y ≤ py ∧ py < scr_y + scr_h ∧
        c.graphicsState.clip_x1 ≤ px ∧ px < c.graphicsState.clip_x2 ∧
        c.graphicsState.clip_y1 ≤ py ∧ py < c.graphicsState.clip_y2 ∧
        c.graphicsState.transparent (sprites src) = false) :=
      fun hh => hd ⟨hh.1, hh.2.1, hh.2.2.1, hh.2.2.2.1, hh.2.2.2.2.1, hh.2.2.2.2.2.1,
        hh.2.2.2.2.2.2.1, hh.2.2.2.2.2.2.2.1⟩
    rw [if_neg hcond]
    simp only [stretch_blitter, hv2, Bool.not_false, if_true, Option.map_some']
  · simp only [stretch_blitter, hv, Bool.not_true, Bool.false_eq_true, if_false, hw0, hh0,
      Option.map_some', hb]
    congr 1
    have rx := stretch_axis_range scr_x scr_w c.graphicsState.clip_x1 c.graphicsState.clip_x2 px
    have ry := stretch_axis_range scr_y scr_h c.graphicsState.clip_y1 c.graphicsState.clip_y2 py
    have ox := stretch_axis_origin scr_x spr_x c.graphicsState.clip_x1
      (Int.tdiv (spr_w * 65536) scr_w)
    have oy := stretch_axis_origin scr_y spr_y c.graphicsState.clip_y1
      (Int.tdiv (spr_h * 65536) scr_h)
    rw [ox, oy]
    generalize Int.tdiv (spr_w * 65536) scr_w = dx at *
    generalize Int.tdiv (spr_h * 65536) scr_h = dy at *
    have bX : c.graphicsState.clip_x1 ≤ (if scr_x < c.graphicsState.clip_x1
        then c.graphicsState.clip_x1 else scr_x) := by split_ifs <;> omega
    generalize (if scr_x < c.graphicsState.clip_x1 then c.graphicsState.clip_x1 else scr_x)
      = X1 at *
    generalize (if scr_x < c.graphicsState.clip_x1
      then scr_w - (c.graphicsState.clip_x1 - scr_x) else scr_w) = W1 at *
    have bW : 0 < (if X1 + W1 > c.graphicsState.clip_x2
        then W1 - (X1 + W1 - c.graphicsState.clip_x2) else W1) →
        X1 + (if X1 + W1 > c.graphicsState.clip_x2
          then W1 - (X1 + W1 - c.graphicsState.clip_x2) else W1) ≤ c.graphicsState.clip_x2 := by
      split_ifs <;> omega
    generalize (if X1 + W1 > c.graphicsState.clip_x2
      then W1 - (X1 + W1 - c.graphicsState.clip_x2) else W1) = W2 at *
    generalize (if scr_y < c.graphicsState.clip_y1 then c.graphicsState.clip_y1 else scr_y)
      = Y1 at *
    generalize (if scr_y < c.graphicsState.clip_y1
      then scr_h - (c.graphicsState.clip_y1 - scr_y) else scr_h) = H1 at *
    generalize (if Y1 + H1 > c.graphicsState.clip_y2
      then H1 - (Y1 + H1 - c.graphicsState.clip_y2) else H1) = H2 at *
    by_cases hin : X1 ≤ px ∧ px < X1 + W2 ∧ Y1 ≤ py ∧ py < Y1 + H2
    · obtain ⟨h1, h2, h3, h4⟩ := hin
      have hk : ((py - Y1).toNat : Int) = py - Y1 := by omega
      have ea : backbuffer + py * 128 + px
          = backbuffer + Y1 * 128 + X1 + ((py - Y1).toNat : Int) * c.buffer_size_x + (px - X1) := by
        rw [hk, hb]; ring
      have key := stretch_rows_store_at sprites (spr_x * 65536 + (X1 - scr_x) * dx)
        (spr_y * 65536 + (Y1 - scr_y) * dy) dx dy W2 H2.toNat 0 (backbuffer + Y1 * 128 + X1) c
        (py - Y1).toNat (px - X1) (by omega) (by omega) (by omega) (by rw [hb]; omega)
      rw [← ea, hk] at key
      rw [key]
      have e1 : spr_y * 65536 + (Y1 - scr_y) * dy + (0 + (py - Y1)) * dy
          = spr_y * 65536 + (py - scr_y) * dy := by ring
      have e2 : spr_x * 65536 + (X1 - scr_x) * dx + (px - X1) * dx
          = spr_x * 65536 + (px - scr_x) * dx := by ring
      rw [e1, e2, fixed_shift_add, fixed_shift_add, ← hsrc]
      have cx := rx.1 ⟨h1, h2⟩
      have cy := ry.1 ⟨h3, h4⟩
      by_cases ht : c.graphicsState.transparent (sprites src) = true
      · have hcond : ¬ (scr_x ≤ px ∧ px < scr_x + scr_w ∧ scr_y ≤ py ∧ py < scr_y + scr_h ∧
            c.graphicsState.clip_x1 ≤ px ∧ px < c.graphicsState.clip_x2 ∧
            c.graphicsState.clip_y1 ≤ py ∧ py < c.graphicsState.clip_y2 ∧
            c.graphicsState.transparent (sprites src) = false) := by
          intro hh
          rw [ht] at hh
          exact absurd hh.2.2.2.2.2.2.2.2 (by decide)
        rw [if_pos ht, if_neg hcond]
      · have hcond : scr_x ≤ px ∧ px < scr_x + scr_w ∧ scr_y ≤ py ∧ py < scr_y + scr_h ∧
            c.graphicsState.clip_x1 ≤ px ∧ px < c.graphicsState.clip_x2 ∧
            c.graphicsState.clip_y1 ≤ py ∧ py < c.graphicsState.clip_y2 ∧
            c.graphicsState.transparent (sprites src) = false :=
          ⟨cx.1, cx.2.1, cy.1, cy.2.1, cx.2.2.1, cx.2.2.2, cy.2.2.1, cy.2.2.2,
            by simpa using ht⟩
        rw [if_neg ht, if_pos hcond]
    · have hcond : ¬ (scr_x ≤ px ∧ px < scr_x + scr_w ∧ scr_y ≤ py ∧ py < scr_y + scr_h ∧
          c.graphicsState.clip_x1 ≤ px ∧ px < c.graphicsState.clip_x2 ∧
          c.graphicsState.clip_y1 ≤ py ∧ py < c.graphicsState.clip_y2 ∧
          c.graphicsState.transparent (sprites src) = false) := by
        intro hh
        apply hin
        have a1 := rx.2 ⟨hh.1, hh.2.1, hh.2.2.2.2.1, hh.2.2.2.2.2.1⟩
        have a2 := ry.2 ⟨hh.2.2.1, hh.2.2.2.1, hh.2.2.2.2.2.2.1, hh.2.2.2.2.2.2.2.1⟩
        exact ⟨a1.1, a1.2, a2.1, a2.2⟩
      rw [if_neg hcond]
      apply stretch_rows_store_other
      intro k hk
      rw [hb]
      by_contra hcon
      apply hin
      have hk2 : (k : Int) < H2 := by omega
      omega

end pico_private

/-- Sampling of the scaled blitter with `dst_w > 0`, `dst_h > 0`, steps
`dx = (src_w << 16) / dst_w` and `dy = (src_h << 16) / dst_h`, a 128-wide buffer and clip
columns inside it.  No division by zero occurs, and framebuffer pixel `(px, py)` becomes
`palette_map[col]`, where `col` is the sheet pixel
`(spr_x + ((i * dx) >> 16), spr_y + ((j * dy) >> 16))` for `i = px - scr_x`,
`j = py - scr_y` measured from the unclipped origin, exactly when `(px, py)` lies in the
requested destination and in the clip rectangle and `transparent[col]` is false; every
other pixel, in particular every pixel outside the clip rectangle, keeps its value. -/
theorem stretch_blitter_sampling (c : Console) (sprites : Mem)
    (spr_x spr_y spr_w spr_h scr_x scr_y scr_w scr_h : Int) (fx fy : Bool) (px py : Int)
    (hw : 0 < scr_w) (hh : 0 < scr_h) (hb : c.buffer_size_x = 128)
    (hx1 : 0 ≤ c.graphicsState.clip_x1) (hx2 : c.graphicsState.clip_x2 ≤ 128)
    (hpx : 0 ≤ px ∧ px < 128) :
    (pico_private.stretch_blitter c sprites spr_x spr_y spr_w spr_h scr_x scr_y scr_w scr_h
        fx fy).map (fun c1 => c1.backbuffer_store (backbuffer + py * 128 + px)) =
      some (if scr_x ≤ px ∧ px < scr_x + scr_w ∧ scr_y ≤ py ∧ py < scr_y + scr_h ∧
          c.graphicsState.clip_x1 ≤ px ∧ px < c.graphicsState.clip_x2 ∧
          c.graphicsState.clip_y1 ≤ py ∧ py < c.graphicsState.clip_y2 ∧
          c.graphicsState.transparent (sprites
            ((spr_y + ((py - scr_y) * Int.tdiv (spr_h * 65536) scr_h) >>> (16 : Nat)) * 128
              + (spr_x + ((px - scr_x) * Int.tdiv (spr_w * 65536) scr_w) >>> (16 : Nat))))
            = false
        then c.graphicsState.palette_map (sprites
            ((spr_y + ((py - scr_y) * Int.tdiv (spr_h * 65536) scr_h) >>> (16 : Nat)) * 128
              + (spr_x + ((px - scr_x) * Int.tdiv (spr_w * 65536) scr_w) >>> (16 : Nat))))
        else c.backbuffer_store (backbuffer + py * 128 + px)) :=
  pico_private.stretch_blitter_store c sprites spr_x spr_y spr_w spr_h scr_x scr_y scr_w scr_h
    fx fy px py hw hh hb hx1 hx2 hpx _ rfl

/-- The sampling formula at an 8 by 8 source stretched to 16 by 16 at `(3, 4)` under the
full-screen clip, read back at `(5, 6)`. -/
theorem stretch_blitter_sampling_at_double :
    (pico_private.stretch_blitter Console.painted Console.painted.sprite_data 0 0 8 8 3 4 16 16
        false false).map (fun c1 => c1.backbuffer_store (backbuffer + 6 * 128 + 5)) =
      some (if (3 : Int) ≤ 5 ∧ (5 : Int) < 3 + 16 ∧ (4 : Int) ≤ 6 ∧ (6 : Int) < 4 + 16 ∧
          Console.painted.graphicsState.clip_x1 ≤ 5 ∧ 5 < Console.painted.graphicsState.clip_x2 ∧
          Console.painted.graphicsState.clip_y1 ≤ 6 ∧ 6 < Console.painted.graphicsState.clip_y2 ∧
          Console.painted.graphicsState.transparent (Console.painted.sprite_data
            ((0 + ((6 - 4) * Int.tdiv (8 * 65536) 16) >>> (16 : Nat)) * 128
              + (0 + ((5 - 3) * Int.tdiv (8 * 65536) 16) >>> (16 : Nat))))
            = false
        then Console.painted.graphicsState.palette_map (Console.painted.sprite_data
            ((0 + ((6 - 4) * Int.tdiv (8 * 65536) 16) >>> (16 : Nat)) * 128
              + (0 + ((5 - 3) * Int.tdiv (8 * 65536) 16) >>> (16 : Nat))))
        else Console.painted.backbuffer_store (backbuffer + 6 * 128 + 5)) := by
  obtain ⟨-, -, -, h1, -, h3, -⟩ := Console.initial_fields
  exact stretch_blitter_sampling Console.painted Console.painted.sprite_data 0 0 8 8 3 4 16 16
    false false 5 6 (by decide) (by decide) Console.painted_buffer_size_x
    (by rw [Console.painted_graphicsState, h1]) (by rw [Console.painted_graphicsState, h3])
    (by decide)

/-! ## Blits under a clip rectangle that leaves the buffer -/

namespace pico_private

/-- The integrity check reads nothing but `backbuffer_store`. -/
theorem check_guards_congr (c d : Console) (h : c.backbuffer_store = d.backbuffer_store) :
    check_guards c = check_guards d := by
  unfold check_guards
  rw [h]

end pico_private

/-- On the painted console after `clip(a, b, w, h)`, a one-cell fixed blit to a point
`(x, y)` of the clip rectangle stores colour `1` at `backbuffer + y * 128 + x`, wherever
that index falls in `backbuffer_store`. -/
theorem painted_blit_store (a b w h x y : Int) (hx : a ≤ x ∧ x < a + w)
    (hy : b ≤ y ∧ y < b + h) :
    (pico_private.blitter (pico_api.clip Console.painted a b w h)
        Console.painted.sprite_data x y 0 0 1 1 false false).backbuffer_store
      = Console.initial.backbuffer_store.write (backbuffer + y * 128 + x) 1 := by
  obtain ⟨k1, k2, k3, k4, k5, k6, k7, k8⟩ := pico_api.clip_fields Console.painted a b w h
  have ht : (pico_api.clip Console.painted a b w h).graphicsState.transparent
      (Console.painted.sprite_data (0 * 128 + 0)) = false := by
    rw [k6, Console.painted_graphicsState, Console.painted_sprite_data]
    exact Console.initial_transparent 1 (by decide)
  have hp : (pico_api.clip Console.painted a b w h).graphicsState.palette_map
      (Console.painted.sprite_data (0 * 128 + 0)) = 1 := by
    rw [k5, Console.painted_graphicsState, Console.painted_sprite_data]
    exact Console.initial_palette_map 1 (by decide)
  rw [pico_private.blitter_one_cell _ _ x y 0 0 (by rw [k1]; exact hx.1) (by rw [k3]; exact hx.2)
    (by rw [k2]; exact hy.1) (by rw [k4]; exact hy.2) ht, k8, Console.painted_buffer_size_x, hp,
    k7, Console.painted_store]

/-- On the painted console after `clip(a, b, w, h)` the camera is at the origin, so
`sspr(0, 0, 1, 1, x, y)` is the one-cell fixed blit to `(x, y)`, and so is the scaled
`sspr(0, 0, 1, 1, x, y, 1, 1)`. -/
theorem painted_sspr_eq (a b w h x y : Int) :
    pico_api.sspr (pico_api.clip Console.painted a b w h) 0 0 1 1 x y
      = pico_private.blitter (pico_api.clip Console.painted a b w h)
          Console.painted.sprite_data x y 0 0 1 1 false false ∧
    pico_api.sspr_scaled (pico_api.clip Console.painted a b w h) 0 0 1 1 x y 1 1
      = some (pico_private.blitter (pico_api.clip Console.painted a b w h)
          Console.painted.sprite_data x y 0 0 1 1 false false) := by
  obtain ⟨-, hcx, hcy, -⟩ := Console.initial_fields
  have h1 : (pico_api.clip Console.painted a b w h).graphicsState.camera_x = 0 := by
    simp only [pico_api.clip, Console.painted]
    exact hcx
  have h2 : (pico_api.clip Console.painted a b w h).graphicsState.camera_y = 0 := by
    simp only [pico_api.clip, Console.painted]
    exact hcy
  have h3 : (pico_api.clip Console.painted a b w h).sprite_data = Console.painted.sprite_data :=
    rfl
  constructor
  · unfold pico_api.sspr pico_private.apply_camera
    simp only [h1, h2, h3, sub_zero]
  · unfold pico_api.sspr_scaled pico_private.apply_camera
    simp only [h1, h2, h3, sub_zero]
    exact pico_private.stretch_blitter_same_size _ _ 0 0 1 1 x y false false (by decide)
      (by decide)

/-- The painted console after a `clip` call still passes the integrity check. -/
theorem painted_clip_check_guards (a b w h : Int) :
    pico_private.check_guards (pico_api.clip Console.painted a b w h) = true := by
  have e : (pico_api.clip Console.painted a b w h).backbuffer_store
      = Console.initial.backbuffer_store := by
    rw [(pico_api.clip_fields Console.painted a b w h).2.2.2.2.2.2.1, Console.painted_store]
  rw [pico_private.check_guards_congr _ _ e]
  exact pico_private.check_guards_init_guards _

/-- The two failing one-cell blits on the painted console.  After `clip(-1, 1, 129, 1)` the
blit to `(-1, 1)` stores `1` in framebuffer cell `(127, 0)`, which held `0`.  After
`clip(-1, 0, 129, 1)` the blit to `(-1, 0)` stores `1` in cell `8191` of the first guard
array, which held `255`, and the integrity check fails on the result. -/
theorem painted_blit_wraps :
    (pico_private.blitter (pico_api.clip Console.painted (-1) 1 129 1)
        Console.painted.sprite_data (-1) 1 0 0 1 1 false false).backbuffer_store
        (backbuffer + 0 * 128 + 127) = 1 ∧
    (pico_api.clip Console.painted (-1) 1 129 1).backbuffer_store (backbuffer + 0 * 128 + 127)
      = 0 ∧
    (pico_api.clip Console.painted (-1) 0 129 1).backbuffer_store
      (backbuffer_guard1 + (8191 : Nat)) = 255 ∧
    (pico_private.blitter (pico_api.clip Console.painted (-1) 0 129 1)
        Console.painted.sprite_data (-1) 0 0 0 1 1 false false).backbuffer_store
        (backbuffer_guard1 + (8191 : Nat)) = 1 ∧
    pico_private.check_guards (pico_private.blitter (pico_api.clip Console.painted (-1) 0 129 1)
        Console.painted.sprite_data (-1) 0 0 0 1 1 false false) = false := by
  have e1 : backbuffer + 1 * 128 + -1 = backbuffer + 0 * 128 + 127 := by decide
  have e2 : backbuffer + 0 * 128 + -1 = backbuffer_guard1 + ((8191 : Nat) : Int) := by decide
  have g : (pico_private.blitter (pico_api.clip Console.painted (-1) 0 129 1)
        Console.painted.sprite_data (-1) 0 0 0 1 1 false false).backbuffer_store
        (backbuffer_guard1 + (8191 : Nat)) = 1 := by
    rw [painted_blit_store (-1) 0 129 1 (-1) 0 (by decide) (by decide), e2, Mem.write_same]
  refine ⟨?_, ?_, ?_, g, ?_⟩
  · rw [painted_blit_store (-1) 1 129 1 (-1) 1 (by decide) (by decide), e1, Mem.write_same]
  · rw [(pico_api.clip_fields Console.painted (-1) 1 129 1).2.2.2.2.2.2.1, Console.painted_store]
    exact Console.initial_store_framebuffer (backbuffer + 0 * 128 + 127) (by decide) (by decide)
  · rw [(pico_api.clip_fields Console.painted (-1) 0 129 1).2.2.2.2.2.2.1, Console.painted_store]
    exact (Console.initial_store_guard 8191 (by decide)).1
  · refine pico_private.check_guards_detects _ 8191 (by decide) (Or.inl ?_)
    rw [g]
    decide

/-- C2 at the failing inputs, on a console in the initial state whose sprite sheet holds
colour `1`.  `clip(-1, 1, 129, 1); sspr(0, 0, 1, 1, -1, 1)`: the blit passes the clipping and
is stored at `backbuffer + 1 * 128 - 1`, framebuffer cell `(127, 0)`, which changes from `0`
to `1` although row `0` is above `clip_y1 = 1`.  `clip(-1, 0, 129, 1);
sspr(0, 0, 1, 1, -1, 0)`: the blit is stored at `backbuffer - 1`, cell `8191` of the first
guard array, which changes from `255` to `1`, and the integrity check, which passed before
the blit, fails. -/
theorem C2_blit_outside_clip :
    (pico_api.sspr (pico_api.clip Console.painted (-1) 1 129 1) 0 0 1 1 (-1) 1).backbuffer_store
        (backbuffer + 0 * 128 + 127) = 1 ∧
    (pico_api.clip Console.painted (-1) 1 129 1).backbuffer_store (backbuffer + 0 * 128 + 127)
      = 0 ∧
    ¬ ((pico_api.clip Console.painted (-1) 1 129 1).graphicsState.clip_y1 ≤ 0) ∧
    (pico_api.clip Console.painted (-1) 0 129 1).backbuffer_store
      (backbuffer_guard1 + (8191 : Nat)) = 255 ∧
    (pico_api.sspr (pico_api.clip Console.painted (-1) 0 129 1) 0 0 1 1 (-1) 0).backbuffer_store
        (backbuffer_guard1 + (8191 : Nat)) = 1 ∧
    pico_private.check_guards (pico_api.clip Console.painted (-1) 0 129 1) = true ∧
    pico_private.check_guards
      (pico_api.sspr (pico_api.clip Console.painted (-1) 0 129 1) 0 0 1 1 (-1) 0) = false := by
  obtain ⟨b1, b2, b3, b4, b5⟩ := painted_blit_wraps
  rw [(painted_sspr_eq (-1) 1 129 1 (-1) 1).1, (painted_sspr_eq (-1) 0 129 1 (-1) 0).1]
  refine ⟨b1, b2, ?_, b3, b4, painted_clip_check_guards _ _ _ _, b5⟩
  rw [(pico_api.clip_fields Console.painted (-1) 1 129 1).2.1]
  decide

/-- C20 at the failing inputs, on a console in the initial state whose sprite sheet holds
colour `1`.  `clip(-1, 1, 129, 1); sspr(0, 0, 1, 1, -1, 1, 1, 1)`: the scaled blit returns
and has changed framebuffer cell `(127, 0)` from `0` to `1`, a pixel above the clip rectangle
(`clip_y1 = 1`).  `clip(-1, 0, 129, 1); sspr(0, 0, 1, 1, -1, 0, 1, 1)`: the scaled blit has
changed cell `8191` of the first guard array from `255` to `1`, and the integrity check,
which passed before the blit, fails. -/
theorem C20_scaled_blit_outside_clip :
    (pico_api.sspr_scaled (pico_api.clip Console.painted (-1) 1 129 1) 0 0 1 1 (-1) 1 1 1).map
        (fun c1 => c1.backbuffer_store (backbuffer + 0 * 128 + 127)) = some 1 ∧
    (pico_api.clip Console.painted (-1) 1 129 1).backbuffer_store (backbuffer + 0 * 128 + 127)
      = 0 ∧
    ¬ ((pico_api.clip Console.painted (-1) 1 129 1).graphicsState.clip_y1 ≤ 0) ∧
    (pico_api.clip Console.painted (-1) 0 129 1).backbuffer_store
      (backbuffer_guard1 + (8191 : Nat)) = 255 ∧
    (pico_api.sspr_scaled (pico_api.clip Console.painted (-1) 0 129 1) 0 0 1 1 (-1) 0 1 1).map
        (fun c1 => c1.backbuffer_store (backbuffer_guard1 + (8191 : Nat))) = some 1 ∧
    pico_private.check_guards (pico_api.clip Console.painted (-1) 0 129 1) = true ∧
    (pico_api.sspr_scaled (pico_api.clip Console.painted (-1) 0 129 1) 0 0 1 1 (-1) 0 1 1).map
        pico_private.check_guards = some false := by
  obtain ⟨b1, b2, b3, b4, b5⟩ := painted_blit_wraps
  rw [(painted_sspr_eq (-1) 1 129 1 (-1) 1).2, (painted_sspr_eq (-1) 0 129 1 (-1) 0).2]
  simp only [Option.map_some']
  refine ⟨by rw [b1], b2, ?_, b3, by rw [b4], painted_clip_check_guards _ _ _ _, by rw [b5]⟩
  rw [(pico_api.clip_fields Console.painted (-1) 1 129 1).2.1]
  decide

/-! ## Four-byte access to the address space -/

namespace pico_api

/-- The four cells `poke4` writes, and the cells it keeps. -/
theorem poke4_cells (r : RAM) (a v : Nat) :
    poke4 r a v ((a % 65536 + 0) % 65536) = v % 2 ^ 32 % 256 ∧
    poke4 r a v ((a % 65536 + 1) % 65536) = v % 2 ^ 32 / 2 ^ 8 % 256 ∧
    poke4 r a v ((a % 65536 + 2) % 65536) = v % 2 ^ 32 / 2 ^ 16 % 256 ∧
    poke4 r a v ((a % 65536 + 3) % 65536) = v % 2 ^ 32 / 2 ^ 24 % 256 ∧
    ∀ b : Nat, b ≠ (a % 65536 + 0) % 65536 → b ≠ (a % 65536 + 1) % 65536 →
      b ≠ (a % 65536 + 2) % 65536 → b ≠ (a % 65536 + 3) % 65536 → poke4 r a v b = r b := by
  simp only [poke4, RAM.poke, Nat.shiftRight_eq_div_pow]
  refine ⟨?_, ?_, ?_, ?_, ?_⟩
  · split_ifs <;> omega
  · split_ifs <;> omega
  · split_ifs <;> omega
  · split_ifs <;> omega
  · intro b h0 h1 h2 h3
    split_ifs <;> omega

/-- Four bytes, least significant first, combined by `|` and `<<` as in `peek4`. -/
theorem bytes_or (b0 b1 b2 b3 : Nat) (h0 : b0 < 256) (h1 : b1 < 256) (h2 : b2 < 256)
    (h3 : b3 < 256) :
    ((b0 ||| (b1 <<< 8) % 2 ^ 32) ||| (b2 <<< 16) % 2 ^ 32) ||| (b3 <<< 24) % 2 ^ 32
      = b0 + b1 * 2 ^ 8 + b2 * 2 ^ 16 + b3 * 2 ^ 24 := by
  have m1 : (b1 <<< 8) % 2 ^ 32 = b1 <<< 8 := by
    rw [Nat.shiftLeft_eq]; omega
  have m2 : (b2 <<< 16) % 2 ^ 32 = b2 <<< 16 := by
    rw [Nat.shiftLeft_eq]; omega
  have m3 : (b3 <<< 24) % 2 ^ 32 = b3 <<< 24 := by
    rw [Nat.shiftLeft_eq]; omega
  rw [m1, m2, m3, Nat.shiftLeft_eq, Nat.shiftLeft_eq, Nat.shiftLeft_eq,
    Nat.mul_comm b1, Nat.mul_comm b2, Nat.mul_comm b3]
  have s1 : b0 ||| 2 ^ 8 * b1 = 2 ^ 8 * b1 + b0 := by
    rw [Nat.or_comm, ← Nat.mul_add_lt_is_or (by omega)]
  have s2 : (2 ^ 8 * b1 + b0) ||| 2 ^ 16 * b2 = 2 ^ 16 * b2 + (2 ^ 8 * b1 + b0) := by
    rw [Nat.or_comm, ← Nat.mul_add_lt_is_or (by omega)]
  have s3 : (2 ^ 16 * b2 + (2 ^ 8 * b1 + b0)) ||| 2 ^ 24 * b3
      = 2 ^ 24 * b3 + (2 ^ 16 * b2 + (2 ^ 8 * b1 + b0)) := by
    rw [Nat.or_comm, ← Nat.mul_add_lt_is_or (by omega)]
  rw [s1, s2, s3]
  omega

end pico_api

/-- C17: over a byte store in which a read returns the last value written, for a 16-bit
address `a` and a 32-bit value `v`: `poke4(a, v)` stores byte `i` of `v` (least significant
first) at address `(a + i) mod 2^16` for `i = 0..3` and touches no other address;
`peek4(a)` is `peek(a) | peek(a+1) << 8 | peek(a+2) << 16 | peek(a+3) << 24`; and `peek4(a)`
after `poke4(a, v)` is `v`. -/
theorem C17_poke4_peek4 (r : RAM) (a v : Nat) (ha : a < 65536) (hv : v < 2 ^ 32)
    (hr : ∀ b, r b < 256) :
    (pico_api.poke4 r a v ((a + 0) % 65536) = v % 256 ∧
     pico_api.poke4 r a v ((a + 1) % 65536) = v / 2 ^ 8 % 256 ∧
     pico_api.poke4 r a v ((a + 2) % 65536) = v / 2 ^ 16 % 256 ∧
     pico_api.poke4 r a v ((a + 3) % 65536) = v / 2 ^ 24 % 256 ∧
     ∀ b : Nat, b ≠ (a + 0) % 65536 → b ≠ (a + 1) % 65536 → b ≠ (a + 2) % 65536 →
       b ≠ (a + 3) % 65536 → pico_api.poke4 r a v b = r b) ∧
    pico_api.peek4 r a =
      pico_api.peek r a ||| pico_api.peek r (a + 1) <<< 8 ||| pico_api.peek r (a + 2) <<< 16
        ||| pico_api.peek r (a + 3) <<< 24 ∧
    pico_api.peek4 (pico_api.poke4 r a v) a = v := by
  have ea : a % 65536 = a := Nat.mod_eq_of_lt ha
  have ev : v % 2 ^ 32 = v := Nat.mod_eq_of_lt hv
  have hc := pico_api.poke4_cells r a v
  rw [ea, ev] at hc
  have small : ∀ (x k : Nat), x < 256 → k ≤ 24 → (x <<< k) % 2 ^ 32 = x <<< k := by
    intro x k hx hk
    apply Nat.mod_eq_of_lt
    rw [Nat.shiftLeft_eq]
    calc x * 2 ^ k < 256 * 2 ^ k := Nat.mul_lt_mul_of_pos_right hx (Nat.two_pow_pos k)
      _ ≤ 256 * 2 ^ 24 := Nat.mul_le_mul_left _ (Nat.pow_le_pow_right (by decide) hk)
      _ = 2 ^ 32 := by norm_num
  refine ⟨hc, ?_, ?_⟩
  · simp only [pico_api.peek4, pico_api.peek, RAM.peek, ea, Nat.mod_mod]
    rw [small _ 8 (hr _) (by decide), small _ 16 (hr _) (by decide),
      small _ 24 (hr _) (by decide)]
  · obtain ⟨c0, c1, c2, c3, -⟩ := hc
    simp only [pico_api.peek4, pico_api.peek, RAM.peek, ea, Nat.mod_mod]
    rw [Nat.add_zero, ea] at c0
    rw [c0, c1, c2, c3,
      pico_api.bytes_or _ _ _ _ (Nat.mod_lt _ (by decide)) (Nat.mod_lt _ (by decide))
        (Nat.mod_lt _ (by decide)) (Nat.mod_lt _ (by decide))]
    omega

/-- C17 at a concrete input: `poke4(0xfffe, 0x12345678)` on the all-zero store, which wraps
around the end of the address space. -/
theorem C17_poke4_peek4_witness :
    pico_api.peek4 (pico_api.poke4 (fun _ => 0) 0xfffe 0x12345678) 0xfffe = 0x12345678 :=
  (C17_poke4_peek4 (fun _ => 0) 0xfffe 0x12345678 (by decide) (by decide)
    (fun _ => Nat.zero_lt_succ 255)).2.2

/-! ## Loading hexadecimal payloads -/

namespace pico_control

/-- What the code relies on for a hexadecimal digit character. -/
theorem hex_digit_facts (d : Int) (h : (hex_digit d).isSome) :
    d > 32 ∧ (d != 0) = true ∧ d ≠ 45 ∧ d ≠ 43 ∧ isspace d = false ∧
    hex_digit d = some ((hex d : Nat) : Int) ∧ hex d < 16 := by
  unfold hex
  unfold hex_digit at h ⊢
  unfold isspace
  split_ifs at h ⊢ with h1 h2 h3
  · refine ⟨by omega, by simp; omega, by omega, by omega, by simp; omega, ?_, ?_⟩
    · simp only [Option.getD_some]; congr 1; omega
    · simp only [Option.getD_some]; omega
  · refine ⟨by omega, by simp; omega, by omega, by omega, by simp; omega, ?_, ?_⟩
    · simp only [Option.getD_some]; congr 1; omega
    · simp only [Option.getD_some]; omega
  · refine ⟨by omega, by simp; omega, by omega, by omega, by simp; omega, ?_, ?_⟩
    · simp only [Option.getD_some]; congr 1; omega
    · simp only [Option.getD_some]; omega
  · exact absurd h (by simp)

/-- On two hexadecimal digits `strtol` in base 16 returns `16 * hex d1 + hex d2`. -/
theorem strtol16_pair (d1 d2 : Int) (h1 : (hex_digit d1).isSome) (h2 : (hex_digit d2).isSome) :
    ((strtol16 [d1, d2]) % 256).toNat = 16 * hex d1 + hex d2 := by
  obtain ⟨-, a2, a3, a4, a5, a6, a7⟩ := hex_digit_facts d1 h1
  obtain ⟨-, b2, -, -, -, b6, b7⟩ := hex_digit_facts d2 h2
  simp only [strtol16, List.takeWhile, a2, b2, List.dropWhile, a5, if_neg a3, if_neg a4,
    strtol_digits, a6, b6]
  omega

end pico_control

theorem getD_append_at (pre : List Int) (x : Int) (rest : List Int) :
    (pre ++ x :: rest).getD pre.length 0 = x := by
  induction pre with
  | nil => rfl
  | cons p pre ih => simpa using ih

theorem getD_append_next (pre : List Int) (x y : Int) (rest : List Int) :
    (pre ++ x :: y :: rest).getD (pre.length + 1) 0 = y := by
  induction pre with
  | nil => rfl
  | cons p pre ih => simpa using ih

/-- The loop of `copy_data_to_ram` over a well-formed payload, started after any prefix:
it records the expected pokes. -/
theorem copy_loop_payload (gfx : Bool) (items : List PayloadItem) :
    ∀ (pre : List Int) (fuel addr : Nat) (acc : List (Nat × Nat)),
    (∀ it ∈ items, it.wf) → (payload items).length ≤ fuel →
    pico_control.copy_data_to_ram_loop (fun (l : List (Nat × Nat)) a v => l ++ [(a, v)])
        (pre ++ payload items) gfx fuel pre.length addr acc
      = acc ++ expected_pokes gfx items addr := by
  induction items with
  | nil =>
    intro pre fuel addr acc _ _
    cases fuel with
    | zero => simp [pico_control.copy_data_to_ram_loop, expected_pokes]
    | succ f => simp [pico_control.copy_data_to_ram_loop, expected_pokes, payload]
  | cons it rest ih =>
    intro pre fuel addr acc hwf hfuel
    have hrest : ∀ it ∈ rest, it.wf := fun x hx => hwf x (List.mem_cons_of_mem _ hx)
    have hit : it.wf := hwf it (List.mem_cons_self _ _)
    cases it with
    | skip ch =>
      have hch : ch ≤ 32 := hit
      simp only [payload, PayloadItem.chars, List.length_append, List.length_cons,
        List.length_nil] at hfuel
      cases fuel with
      | zero => omega
      | succ f =>
        have hlen : pre.length < (pre ++ payload (PayloadItem.skip ch :: rest)).length := by
          simp [payload, PayloadItem.chars]
        rw [pico_control.copy_data_to_ram_loop, if_pos hlen]
        have hg : (pre ++ payload (PayloadItem.skip ch :: rest)).getD pre.length 0 = ch := by
          simp only [payload, PayloadItem.chars, List.singleton_append]
          exact getD_append_at pre ch _
        rw [hg, if_neg (by omega)]
        have hd : pre ++ payload (PayloadItem.skip ch :: rest) = (pre ++ [ch]) ++ payload rest := by
          simp [payload, PayloadItem.chars]
        have hl : pre.length + 1 = (pre ++ [ch]).length := by simp
        rw [hd, hl, ih (pre ++ [ch]) f addr acc hrest (by omega)]
        rfl
    | pair d1 d2 =>
      have hd1 : (pico_control.hex_digit d1).isSome := hit.1
      have hd2 : (pico_control.hex_digit d2).isSome := hit.2
      simp only [payload, PayloadItem.chars, List.length_append, List.length_cons,
        List.length_nil] at hfuel
      cases fuel with
      | zero => omega
      | succ f =>
        have hlen : pre.length < (pre ++ payload (PayloadItem.pair d1 d2 :: rest)).length := by
          simp [payload, PayloadItem.chars]
        rw [pico_control.copy_data_to_ram_loop, if_pos hlen]
        have hg1 : (pre ++ payload (PayloadItem.pair d1 d2 :: rest)).getD pre.length 0 = d1 := by
          simp only [payload, PayloadItem.chars, List.cons_append, List.nil_append]
          exact getD_append_at pre d1 _
        have hg2 : (pre ++ payload (PayloadItem.pair d1 d2 :: rest)).getD (pre.length + 1) 0
            = d2 := by
          simp only [payload, PayloadItem.chars, List.cons_append, List.nil_append]
          exact getD_append_next pre d1 d2 _
        rw [hg1, hg2, if_pos (pico_control.hex_digit_facts d1 hd1).1]
        have hd : pre ++ payload (PayloadItem.pair d1 d2 :: rest)
            = (pre ++ [d1, d2]) ++ payload rest := by
          simp [payload, PayloadItem.chars]
        have hl : pre.length + 1 + 1 = (pre ++ [d1, d2]).length := by simp
        rw [hd, hl, ih (pre ++ [d1, d2]) f ((addr + 1) % 65536) _ hrest (by omega)]
        cases gfx with
        | false =>
          simp only [Bool.false_eq_true, if_false, pico_control.strtol16_pair d1 d2 hd1 hd2,
            expected_pokes, List.append_assoc, List.singleton_append]
        | true =>
          simp only [if_true, pico_control.strtol16_pair d2 d1 hd2 hd1,
            expected_pokes, List.append_assoc, List.singleton_append]

/-- The recorded pokes, replayed with any poke action, give what the loop does with that
action. -/
theorem copy_loop_replay {σ : Type} (poke : σ → Nat → Nat → σ) (data : List Int) (gfx : Bool)
    (fuel : Nat) : ∀ (n addr : Nat) (acc : List (Nat × Nat)) (s : σ),
    (pico_control.copy_data_to_ram_loop (fun (l : List (Nat × Nat)) a v => l ++ [(a, v)])
        data gfx fuel n addr acc).foldl (fun s p => poke s p.1 p.2) s
      = pico_control.copy_data_to_ram_loop poke data gfx fuel n addr
          (acc.foldl (fun s p => poke s p.1 p.2) s) := by
  induction fuel with
  | zero => intro n addr acc s; rfl
  | succ f ih =>
    intro n addr acc s
    rw [pico_control.copy_data_to_ram_loop, pico_control.copy_data_to_ram_loop]
    by_cases h1 : n < data.length
    · rw [if_pos h1, if_pos h1]
      by_cases h2 : data.getD n 0 > 32
      · rw [if_pos h2, if_pos h2]
        simp only []
        rw [ih, List.foldl_append]
        rfl
      · rw [if_neg h2, if_neg h2, ih]
    · rw [if_neg h1, if_neg h1]

/-- C16 (amended): for a payload made of pairs of adjacent hexadecimal digits, with any
characters of code at most `' '` between the pairs, `copy_data_to_ram(addr, data, gfx)`
skips those characters and issues exactly one poke per pair, at the consecutive 16-bit
addresses `addr, addr + 1, …`; the byte is `16 * hex d1 + hex d2` for a plain target and
`16 * hex d2 + hex d1` for a nibble-packed one.  The address space ends up as after those
pokes. -/
theorem C16_copy_data_pairs (r : RAM) (addr : Nat) (items : List PayloadItem) (gfx : Bool)
    (hwf : ∀ it ∈ items, it.wf) :
    pico_control.copy_data_pokes addr (payload items) gfx
      = expected_pokes gfx items (addr % 65536) ∧
    pico_control.copy_data_to_ram r addr (payload items) gfx
      = (expected_pokes gfx items (addr % 65536)).foldl (fun s p => pico_api.poke s p.1 p.2) r := by
  have h1 : pico_control.copy_data_pokes addr (payload items) gfx
      = expected_pokes gfx items (addr % 65536) := by
    have := copy_loop_payload gfx items [] (payload items).length (addr % 65536) [] hwf
      (le_refl _)
    simpa [pico_control.copy_data_pokes, pico_control.copy_data_to_ram_with] using this
  refine ⟨h1, ?_⟩
  rw [← h1]
  unfold pico_control.copy_data_to_ram pico_control.copy_data_pokes
    pico_control.copy_data_to_ram_with
  rw [copy_loop_replay]
  rfl

/-- C16 at a concrete input: the nibble-packed payload `"12\nAf"`. -/
theorem C16_copy_data_pairs_witness :
    pico_control.copy_data_pokes 0x6000
        (payload [PayloadItem.pair 49 50, PayloadItem.skip 10, PayloadItem.pair 65 102]) true
      = expected_pokes true
          [PayloadItem.pair 49 50, PayloadItem.skip 10, PayloadItem.pair 65 102]
          (0x6000 % 65536) :=
  (C16_copy_data_pairs (fun _ => 0) 0x6000
    [PayloadItem.pair 49 50, PayloadItem.skip 10, PayloadItem.pair 65 102] true
    (by
      intro it hit
      simp only [List.mem_cons, List.mem_singleton, List.not_mem_nil, or_false] at hit
      rcases hit with h | h | h
      · subst h; exact ⟨by decide, by decide⟩
      · subst h; show (10 : Int) ≤ 32; decide
      · subst h; exact ⟨by decide, by decide⟩)).1

/-- C16 (as stated) fails when a skipped character stands between the two characters of a
pair: for the plain payload `"1 2"` the code pairs `'1'` with the space and `'2'` with the
string terminator and issues two pokes, `1` and `2`, where skipping the space first would
give the single poke `0x12` that the payload `"12"` gives. -/
theorem C16_space_inside_pair :
    pico_control.copy_data_pokes 0 [49, 32, 50] false = [(0, 1), (1, 2)] ∧
    pico_control.copy_data_pokes 0 [49, 50] false = [(0, 0x12)] := by
  decide

/-! ## Lines -/

namespace pico_api

/-- At the end point the loop plots it and returns. -/
theorem line_loop_done (x1 y1 dx dy sx sy err : Int) (acc : List (Int × Int)) (fuel : Nat) :
    line_loop (fun (l : List (Int × Int)) x y => l ++ [(x, y)]) x1 y1 dx dy sx sy (fuel + 1)
      x1 y1 err acc = some (acc ++ [(x1, y1)]) := by
  rw [line_loop]
  simp only [and_self, if_true]

/-- The loop of `line` on a line whose major axis is `x`: from a state with `m` steps left
in `x` it plots `m + 1` points, each one step from the previous, ending in `(x1, y1)`.
`b` is the number of steps left in `y` and `D` the running error `m * Y - b * X`. -/
theorem line_loop_xmajor (x1 y1 X Y sx sy : Int) (hsx : sx = 1 ∨ sx = -1)
    (hsy : sy = 1 ∨ sy = -1) (hXY : Y ≤ X) (hX : 0 < X) (hY : 0 ≤ Y) :
    ∀ (m : Nat) (b D cx cy : Int) (acc : List (Int × Int)) (fuel : Nat),
    cx = x1 - sx * m → cy = y1 - sy * b → D = m * Y - b * X → -X ≤ 2 * D → 2 * D ≤ X →
    m + 1 ≤ fuel →
    ∃ pts : List (Int × Int),
      line_loop (fun (l : List (Int × Int)) x y => l ++ [(x, y)]) x1 y1 X (-Y) sx sy fuel
        cx cy (D + X - Y) acc = some (acc ++ pts) ∧
      pts.length = m + 1 ∧ pts.head? = some (cx, cy) ∧ pts.getLast? = some (x1, y1) ∧
      List.Chain' unit_step pts := by
  intro m
  induction m with
  | zero =>
    intro b D cx cy acc fuel hcx hcy hD h1 h2 hf
    have hb : b = 0 := by
      simp only [Nat.cast_zero, zero_mul, zero_sub] at hD
      by_contra hne
      rcases lt_or_gt_of_ne hne with hlt | hgt
      · have : b * X ≤ -X := by nlinarith
        omega
      · have : X ≤ b * X := by nlinarith
        omega
    have ex : cx = x1 := by rw [hcx]; simp
    have ey : cy = y1 := by rw [hcy, hb]; simp
    obtain ⟨f, rfl⟩ : ∃ f, fuel = f + 1 := ⟨fuel - 1, by omega⟩
    refine ⟨[(x1, y1)], ?_, rfl, ?_, rfl, List.chain'_singleton _⟩
    · rw [ex, ey]; exact line_loop_done _ _ _ _ _ _ _ _ _
    · rw [ex, ey]; rfl
  | succ m ih =>
    intro b D cx cy acc fuel hcx hcy hD h1 h2 hf
    obtain ⟨f, rfl⟩ : ∃ f, fuel = f + 1 := ⟨fuel - 1, by omega⟩
    have hne : ¬ (cx = x1 ∧ cy = y1) := by
      intro hh
      rw [hcx] at hh
      push_cast at hh
      rcases hsx with rfl | rfl <;> omega
    rw [line_loop]
    simp only [hne, if_false]
    have c1 : 2 * (D + X - Y) ≥ -Y := by omega
    rw [if_pos c1, if_pos c1]
    have hcx2 : cx + sx = x1 - sx * m := by
      rw [hcx]; push_cast; ring
    by_cases c2 : 2 * (D + X - Y) ≤ X
    · rw [if_pos c2, if_pos c2]
      have hD2 : D - Y + X = m * Y - (b - 1) * X := by
        rw [hD]; push_cast; ring
      obtain ⟨pts, e, hl, hh, hlast, hch⟩ := ih (b - 1) (D - Y + X) (cx + sx) (cy + sy)
        (acc ++ [(cx, cy)]) f hcx2 (by rw [hcy]; ring) hD2 (by omega) (by omega) (by omega)
      have ee : D + X - Y + -Y + X = D - Y + X + X - Y := by ring
      refine ⟨(cx, cy) :: pts, ?_, ?_, rfl, ?_, ?_⟩
      · rw [ee, e]; simp
      · simp [hl]
      · rw [List.getLast?_cons, hlast]; rfl
      · rw [List.chain'_cons']
        refine ⟨?_, hch⟩
        intro q hq
        rw [hh] at hq
        simp only [Option.mem_def, Option.some.injEq] at hq
        subst hq
        unfold unit_step int_abs
        simp only []
        rcases hsx with rfl | rfl <;> rcases hsy with rfl | rfl <;>
          constructor <;> split_ifs <;> omega
    · rw [if_neg c2, if_neg c2]
      have hD2 : D - Y = m * Y - b * X := by
        rw [hD]; push_cast; ring
      obtain ⟨pts, e, hl, hh, hlast, hch⟩ := ih b (D - Y) (cx + sx) cy
        (acc ++ [(cx, cy)]) f hcx2 hcy hD2 (by omega) (by omega) (by omega)
      have ee : D + X - Y + -Y = D - Y + X - Y := by ring
      refine ⟨(cx, cy) :: pts, ?_, ?_, rfl, ?_, ?_⟩
      · rw [ee, e]; simp
      · simp [hl]
      · rw [List.getLast?_cons, hlast]; rfl
      · rw [List.chain'_cons']
        refine ⟨?_, hch⟩
        intro q hq
        rw [hh] at hq
        simp only [Option.mem_def, Option.some.injEq] at hq
        subst hq
        unfold unit_step int_abs
        simp only []
        rcases hsx with rfl | rfl <;> constructor <;> split_ifs <;> omega

end pico_api

namespace pico_api

/-- The loop of `line` on a line whose major axis is `y`: from a state with `m` steps left
in `y` it plots `m + 1` points, each one step from the previous, ending in `(x1, y1)`.
`a` is the number of steps left in `x` and `D` the running error `a * Y - m * X`. -/
theorem line_loop_ymajor (x1 y1 X Y sx sy : Int) (hsx : sx = 1 ∨ sx = -1)
    (hsy : sy = 1 ∨ sy = -1) (hXY : X ≤ Y) (hX : 0 ≤ X) (hY : 0 < Y) :
    ∀ (m : Nat) (a D cx cy : Int) (acc : List (Int × Int)) (fuel : Nat),
    cx = x1 - sx * a → cy = y1 - sy * m → D = a * Y - m * X → -Y ≤ 2 * D → 2 * D ≤ Y →
    m + 1 ≤ fuel →
    ∃ pts : List (Int × Int),
      line_loop (fun (l : List (Int × Int)) x y => l ++ [(x, y)]) x1 y1 X (-Y) sx sy fuel
        cx cy (D + X - Y) acc = some (acc ++ pts) ∧
      pts.length = m + 1 ∧ pts.head? = some (cx, cy) ∧ pts.getLast? = some (x1, y1) ∧
      List.Chain' unit_step pts := by
  intro m
  induction m with
  | zero =>
    intro a D cx cy acc fuel hcx hcy hD h1 h2 hf
    have ha : a = 0 := by
      simp only [Nat.cast_zero, zero_mul, sub_zero] at hD
      by_contra hne
      rcases lt_or_gt_of_ne hne with hlt | hgt
      · have : a * Y ≤ -Y := by nlinarith
        omega
      · have : Y ≤ a * Y := by nlinarith
        omega
    have ex : cx = x1 := by rw [hcx, ha]; simp
    have ey : cy = y1 := by rw [hcy]; simp
    obtain ⟨f, rfl⟩ : ∃ f, fuel = f + 1 := ⟨fuel - 1, by omega⟩
    refine ⟨[(x1, y1)], ?_, rfl, ?_, rfl, List.chain'_singleton _⟩
    · rw [ex, ey]; exact line_loop_done _ _ _ _ _ _ _ _ _
    · rw [ex, ey]; rfl
  | succ m ih =>
    intro a D cx cy acc fuel hcx hcy hD h1 h2 hf
    obtain ⟨f, rfl⟩ : ∃ f, fuel = f + 1 := ⟨fuel - 1, by omega⟩
    have hne : ¬ (cx = x1 ∧ cy = y1) := by
      intro hh
      rw [hcy] at hh
      push_cast at hh
      rcases hsy with rfl | rfl <;> omega
    rw [line_loop]
    simp only [hne, if_false]
    have c2 : 2 * (D + X - Y) ≤ X := by omega
    have hcy2 : cy + sy = y1 - sy * m := by
      rw [hcy]; push_cast; ring
    by_cases c1 : 2 * (D + X - Y) ≥ -Y
    · rw [if_pos c1, if_pos c1, if_pos c2, if_pos c2]
      have hD2 : D - Y + X = (a - 1) * Y - m * X := by
        rw [hD]; push_cast; ring
      obtain ⟨pts, e, hl, hh, hlast, hch⟩ := ih (a - 1) (D - Y + X) (cx + sx) (cy + sy)
        (acc ++ [(cx, cy)]) f (by rw [hcx]; ring) hcy2 hD2 (by omega) (by omega) (by omega)
      have ee : D + X - Y + -Y + X = D - Y + X + X - Y := by ring
      refine ⟨(cx, cy) :: pts, ?_, ?_, rfl, ?_, ?_⟩
      · rw [ee, e]; simp
      · simp [hl]
      · rw [List.getLast?_cons, hlast]; rfl
      · rw [List.chain'_cons']
        refine ⟨?_, hch⟩
        intro q hq
        rw [hh] at hq
        simp only [Option.mem_def, Option.some.injEq] at hq
        subst hq
        unfold unit_step int_abs
        simp only []
        rcases hsx with rfl | rfl <;> rcases hsy with rfl | rfl <;>
          constructor <;> split_ifs <;> omega
    · rw [if_neg c1, if_neg c1, if_pos c2, if_pos c2]
      have hD2 : D + X = a * Y - m * X := by
        rw [hD]; push_cast; ring
      obtain ⟨pts, e, hl, hh, hlast, hch⟩ := ih a (D + X) cx (cy + sy)
        (acc ++ [(cx, cy)]) f hcx hcy2 hD2 (by omega) (by omega) (by omega)
      have ee : D + X - Y + X = D + X + X - Y := by ring
      refine ⟨(cx, cy) :: pts, ?_, ?_, rfl, ?_, ?_⟩
      · rw [ee, e]; simp
      · simp [hl]
      · rw [List.getLast?_cons, hlast]; rfl
      · rw [List.chain'_cons']
        refine ⟨?_, hch⟩
        intro q hq
        rw [hh] at hq
        simp only [Option.mem_def, Option.some.injEq] at hq
        subst hq
        unfold unit_step int_abs
        simp only []
        rcases hsy with rfl | rfl <;> constructor <;> split_ifs <;> omega

/-- The recorded points, replayed with any plot action, give what the loop does with that
action. -/
theorem line_loop_replay {σ : Type} (plot : σ → Int → Int → σ) (x1 y1 dx dy sx sy : Int)
    (fuel : Nat) : ∀ (x0 y0 err : Int) (acc : List (Int × Int)) (s : σ),
    (line_loop (fun (l : List (Int × Int)) x y => l ++ [(x, y)]) x1 y1 dx dy sx sy fuel
        x0 y0 err acc).map (fun pts => pts.foldl (fun s p => plot s p.1 p.2) s)
      = line_loop plot x1 y1 dx dy sx sy fuel x0 y0 err
          (acc.foldl (fun s p => plot s p.1 p.2) s) := by
  induction fuel with
  | zero => intro x0 y0 err acc s; rfl
  | succ f ih =>
    intro x0 y0 err acc s
    rw [line_loop, line_loop]
    by_cases h : x0 = x1 ∧ y0 = y1
    · simp only [h, and_self, if_true, Option.map_some', List.foldl_append, List.foldl_cons,
        List.foldl_nil]
    · simp only [h, if_false]
      rw [ih, List.foldl_append]
      rfl

end pico_api

namespace pico_api

/-- Once the loop of `line` has returned, more fuel changes nothing. -/
theorem line_loop_mono {σ : Type} (plot : σ → Int → Int → σ) (x1 y1 dx dy sx sy : Int)
    (k : Nat) (fuel : Nat) : ∀ (x0 y0 err : Int) (s r : σ),
    line_loop plot x1 y1 dx dy sx sy fuel x0 y0 err s = some r →
    line_loop plot x1 y1 dx dy sx sy (fuel + k) x0 y0 err s = some r := by
  induction fuel with
  | zero => intro x0 y0 err s r h; exact absurd h (by simp [line_loop])
  | succ f ih =>
    intro x0 y0 err s r h
    have e : f + 1 + k = (f + k) + 1 := by omega
    rw [e, line_loop]
    rw [line_loop] at h
    by_cases hd : x0 = x1 ∧ y0 = y1
    · simp only [hd, and_self, if_true] at h ⊢
      exact h
    · simp only [hd, if_false] at h ⊢
      exact ih _ _ _ _ _ h

/-- The points `line` plots: `max(|x1 - x0|, |y1 - y0|) + 1` of them, from `(x0, y0)` to
`(x1, y1)`, each one step from the previous; any fuel of at least that many passes returns
them. -/
theorem line_points_spec (x0 y0 x1 y1 : Int) :
    ∃ pts : List (Int × Int),
      pts.length = (max (int_abs (x1 - x0)) (int_abs (y1 - y0))).toNat + 1 ∧
      pts.head? = some (x0, y0) ∧ pts.getLast? = some (x1, y1) ∧
      List.Chain' unit_step pts ∧
      ∀ fuel : Nat, pts.length ≤ fuel → line_points fuel x0 y0 x1 y1 = some pts := by
  unfold line_points line_from
  dsimp only
  have hsx : (if x0 < x1 then (1 : Int) else -1) = 1 ∨ (if x0 < x1 then (1 : Int) else -1) = -1 := by
    split_ifs
    · exact Or.inl rfl
    · exact Or.inr rfl
  have hsy : (if y0 < y1 then (1 : Int) else -1) = 1 ∨ (if y0 < y1 then (1 : Int) else -1) = -1 := by
    split_ifs
    · exact Or.inl rfl
    · exact Or.inr rfl
  have hX0 : 0 ≤ int_abs (x1 - x0) := by unfold int_abs; split_ifs <;> omega
  have hY0 : 0 ≤ int_abs (y1 - y0) := by unfold int_abs; split_ifs <;> omega
  have hx : x0 = x1 - (if x0 < x1 then (1 : Int) else -1) * int_abs (x1 - x0) := by
    unfold int_abs; split_ifs <;> omega
  have hy : y0 = y1 - (if y0 < y1 then (1 : Int) else -1) * int_abs (y1 - y0) := by
    unfold int_abs; split_ifs <;> omega
  generalize int_abs (x1 - x0) = X at *
  generalize int_abs (y1 - y0) = Y at *
  -- the loop at the exact fuel
  have core : ∃ pts : List (Int × Int),
      line_loop (fun (l : List (Int × Int)) x y => l ++ [(x, y)]) x1 y1 X (-Y)
        (if x0 < x1 then 1 else -1) (if y0 < y1 then 1 else -1) ((max X Y).toNat + 1)
        x0 y0 (X + -Y) [] = some pts ∧
      pts.length = (max X Y).toNat + 1 ∧ pts.head? = some (x0, y0) ∧
      pts.getLast? = some (x1, y1) ∧ List.Chain' unit_step pts := by
    by_cases hxy : Y ≤ X
    · have hm : max X Y = X := max_eq_left hxy
      rw [hm]
      by_cases hX : 0 < X
      · have hXn : ((X.toNat : Nat) : Int) = X := by omega
        obtain ⟨pts, e, hl, hh, hlast, hch⟩ := line_loop_xmajor x1 y1 X Y _ _ hsx hsy hxy hX hY0
          X.toNat Y 0 x0 y0 [] (X.toNat + 1) (by rw [hXn]; exact hx) hy
          (by rw [hXn]; ring) (by omega) (by omega) (le_refl _)
        have ee : (0 : Int) + X - Y = X + -Y := by ring
        rw [ee] at e
        exact ⟨pts, by simpa using e, hl, hh, hlast, hch⟩
      · have hX' : X = 0 := by omega
        have hY' : Y = 0 := by omega
        subst hX' hY'
        have ex : x0 = x1 := by simpa using hx
        have ey : y0 = y1 := by simpa using hy
        subst ex ey
        refine ⟨[(x0, y0)], ?_, rfl, rfl, rfl, List.chain'_singleton _⟩
        exact line_loop_done _ _ _ _ _ _ _ _ _
    · have hxy2 : X ≤ Y := by omega
      have hm : max X Y = Y := max_eq_right hxy2
      rw [hm]
      have hYn : ((Y.toNat : Nat) : Int) = Y := by omega
      obtain ⟨pts, e, hl, hh, hlast, hch⟩ := line_loop_ymajor x1 y1 X Y _ _ hsx hsy hxy2 hX0
        (by omega) Y.toNat X 0 x0 y0 [] (Y.toNat + 1) hx (by rw [hYn]; exact hy)
        (by rw [hYn]; ring) (by omega) (by omega) (le_refl _)
      have ee : (0 : Int) + X - Y = X + -Y := by ring
      rw [ee] at e
      exact ⟨pts, by simpa using e, hl, hh, hlast, hch⟩
  obtain ⟨pts, e, hl, hh, hlast, hch⟩ := core
  refine ⟨pts, hl, hh, hlast, hch, ?_⟩
  intro fuel hf
  obtain ⟨k, rfl⟩ : ∃ k, fuel = (max X Y).toNat + 1 + k := ⟨fuel - ((max X Y).toNat + 1), by omega⟩
  exact line_loop_mono _ _ _ _ _ _ _ k _ _ _ _ _ _ e

end pico_api

/-- C15: for all end points, `line` terminates: there is one list of points, of length
`max(|x1 - x0|, |y1 - y0|) + 1`, starting with `(x0, y0)` and ending with `(x1, y1)`, each
point at most one step from the previous in each coordinate, such that with any fuel of at
least that many passes `pico_api.line` returns after `color` and after calling
`pico_private::pset` on exactly those points in order, `(x0, y0)` and `(x1, y1)` being the
end points after the camera translation; coincident end points give the single point. -/
theorem C15_line_points (x0 y0 x1 y1 : Int) :
    ∃ pts : List (Int × Int),
      pts.length = (max (pico_api.int_abs (x1 - x0)) (pico_api.int_abs (y1 - y0))).toNat + 1 ∧
      pts.head? = some (x0, y0) ∧ pts.getLast? = some (x1, y1) ∧
      List.Chain' pico_api.unit_step pts ∧
      (x0 = x1 ∧ y0 = y1 → pts = [(x0, y0)]) ∧
      ∀ fuel : Nat, pts.length ≤ fuel →
        pico_api.line_points fuel x0 y0 x1 y1 = some pts ∧
        (∀ s : Console, pico_api.line_from pico_private.pset fuel x0 y0 x1 y1 s
          = some (pts.foldl (fun s p => pico_private.pset s p.1 p.2) s)) ∧
        ∀ (c : Console) (col : Nat),
          pico_api.line fuel c (x0 + c.graphicsState.camera_x) (y0 + c.graphicsState.camera_y)
              (x1 + c.graphicsState.camera_x) (y1 + c.graphicsState.camera_y) col
            = some (pts.foldl (fun s p => pico_private.pset s p.1 p.2) (pico_api.color c col)) := by
  obtain ⟨pts, hl, hh, hlast, hch, hrun⟩ := pico_api.line_points_spec x0 y0 x1 y1
  refine ⟨pts, hl, hh, hlast, hch, ?_, ?_⟩
  · rintro ⟨rfl, rfl⟩
    have h0 : pico_api.int_abs (x0 - x0) = 0 := by unfold pico_api.int_abs; split_ifs <;> omega
    have h1 : pico_api.int_abs (y0 - y0) = 0 := by unfold pico_api.int_abs; split_ifs <;> omega
    rw [h0, h1] at hl
    have hl1 : pts.length = 1 := by simpa using hl
    match pts, hl1, hh with
    | [p], _, hh =>
      simp only [List.head?_cons, Option.some.injEq] at hh
      rw [hh]
  · intro fuel hf
    have hp := hrun fuel hf
    have hfrom : ∀ s : Console, pico_api.line_from pico_private.pset fuel x0 y0 x1 y1 s
        = some (pts.foldl (fun s p => pico_private.pset s p.1 p.2) s) := by
      intro s
      have hr := pico_api.line_loop_replay pico_private.pset x1 y1
        (pico_api.int_abs (x1 - x0)) (-pico_api.int_abs (y1 - y0))
        (if x0 < x1 then 1 else -1) (if y0 < y1 then 1 else -1) fuel x0 y0
        (pico_api.int_abs (x1 - x0) + -pico_api.int_abs (y1 - y0)) [] s
      have hp2 := hp
      unfold pico_api.line_points pico_api.line_from at hp2
      dsimp only at hp2
      rw [hp2] at hr
      unfold pico_api.line_from
      dsimp only
      exact hr.symm
    refine ⟨hp, hfrom, ?_⟩
    intro c col
    unfold pico_api.line pico_private.apply_camera
    simp only [add_sub_cancel_right]
    exact hfrom _

/-! ## The repeat counter -/

/-- After `set`, the repeat counter is not `0`, whatever the state before. -/
theorem InputState.set_repcnt_ne_zero (s : InputState) (state : Int) :
    (s.set state).repcnt ≠ 0 := by
  unfold InputState.set
  simp only []
  split_ifs <;> omega

/-- After a `set` that sees a newly pressed button, the repeat counter is `15`. -/
theorem InputState.set_repcnt_pressed (s : InputState) (state : Int)
    (h : (s.set state).justPressed_mask ≠ 0) : (s.set state).repcnt = 15 := by
  unfold InputState.set InputState.justPressed_mask at h
  simp only [] at h
  unfold InputState.set InputState.justPressed_mask
  simp only []
  rw [if_pos h]
  decide

/-- The range `1 … 15` of the repeat counter is kept by `set`. -/
theorem InputState.set_repcnt_range (s : InputState) (state : Int)
    (h : 1 ≤ s.repcnt ∧ s.repcnt ≤ 15) :
    1 ≤ (s.set state).repcnt ∧ (s.set state).repcnt ≤ 15 := by
  unfold InputState.set
  simp only []
  split_ifs <;> omega

/-- The range `1 … 15` of the repeat counter is kept by any sequence of samples. -/
theorem InputState.feed_repcnt_range (samples : List Int) :
    ∀ s : InputState, 1 ≤ s.repcnt ∧ s.repcnt ≤ 15 →
      1 ≤ (s.feed samples).repcnt ∧ (s.feed samples).repcnt ≤ 15 := by
  induction samples with
  | nil => intro s h; exact h
  | cons x rest ih =>
    intro s h
    exact ih (s.set x) (InputState.set_repcnt_range s x h)

/-- C23: after every call of `InputState::set`, from any state and for any sample, `repcnt`
is not `0`; and once a sample has shown a newly pressed button (`~old & current != 0` in
that call of `set`), `1 ≤ repcnt ≤ 15` holds after that call and after every later call,
whatever samples follow. -/
theorem C23_repcnt_invariant :
    (∀ (s : InputState) (state : Int), (s.set state).repcnt ≠ 0) ∧
    (∀ (s : InputState) (pre : List Int) (x : Int) (post : List Int),
      ((s.feed pre).set x).justPressed_mask ≠ 0 →
      1 ≤ (s.feed (pre ++ x :: post)).repcnt ∧ (s.feed (pre ++ x :: post)).repcnt ≤ 15) := by
  refine ⟨InputState.set_repcnt_ne_zero, ?_⟩
  intro s pre x post h
  have e : s.feed (pre ++ x :: post) = ((s.feed pre).set x).feed post := by
    simp only [InputState.feed, List.foldl_append, List.foldl_cons]
  rw [e]
  apply InputState.feed_repcnt_range
  rw [InputState.set_repcnt_pressed _ _ h]
  decide

/-- C23 at a fresh slot fed `0, 5, 0, 5, 5`: the second sample newly presses two buttons. -/
theorem C23_repcnt_invariant_witness :
    ((InputState.feed {} [0]).set 5).justPressed_mask ≠ 0 ∧
    1 ≤ (InputState.feed {} ([0] ++ 5 :: [0, 5, 5])).repcnt ∧
    (InputState.feed {} ([0] ++ 5 :: [0, 5, 5])).repcnt ≤ 15 :=
  ⟨by decide, C23_repcnt_invariant.2 {} [0] 5 [0, 5, 5] (by decide)⟩

/-! ## Circle outlines -/

namespace pico_api

/-- Once the loop of `circ` has returned, more fuel changes nothing. -/
theorem circ_loop_mono {σ : Type} (plot : σ → Int → Int → σ) (xm ym : Int)
    (k : Nat) (fuel : Nat) : ∀ (x y err : Int) (s r : σ),
    circ_loop plot xm ym fuel x y err s = some r →
    circ_loop plot xm ym (fuel + k) x y err s = some r := by
  induction fuel with
  | zero => intro x y err s r h; exact absurd h (by simp [circ_loop])
  | succ f ih =>
    intro x y err s r h
    have e : f + 1 + k = (f + k) + 1 := by omega
    rw [e, circ_loop]
    rw [circ_loop] at h
    by_cases hd : (if err > x then x + 1 else x) < 0
    · rw [if_pos hd] at h ⊢
      exact ih _ _ _ _ _ h
    · rw [if_neg hd] at h ⊢
      exact h

/-- The recorded points, replayed with any plot action, give what the loop of `circ` does
with that action. -/
theorem circ_loop_replay {σ : Type} (plot : σ → Int → Int → σ) (xm ym : Int)
    (fuel : Nat) : ∀ (x y err : Int) (acc : List (Int × Int)) (s : σ),
    (circ_loop (fun (l : List (Int × Int)) x y => l ++ [(x, y)]) xm ym fuel
        x y err acc).map (fun pts => pts.foldl (fun s p => plot s p.1 p.2) s)
      = circ_loop plot xm ym fuel x y err (acc.foldl (fun s p => plot s p.1 p.2) s) := by
  induction fuel with
  | zero => intro x y err acc s; rfl
  | succ f ih =>
    intro x y err acc s
    rw [circ_loop, circ_loop]
    by_cases hd : (if err > x then x + 1 else x) < 0
    · rw [if_pos hd, if_pos hd, ih]
      simp only [List.foldl_append, List.foldl_cons, List.foldl_nil]
    · rw [if_neg hd, if_neg hd]
      simp only [Option.map_some', List.foldl_append, List.foldl_cons, List.foldl_nil]

/-- The loop of `circ` from a state with `-r ≤ x ≤ 0 ≤ y ≤ r` and
`err = (x + 1)² + (y + 1)² - r²`: with `r - y - x + 1` passes of fuel it returns; it plots
the four points of `(x, y)` first, and every later point lies within `r` of the centre in
each coordinate. -/
theorem circ_loop_spec (xm ym r : Int) (fuel : Nat) :
    ∀ (x y err : Int) (acc : List (Int × Int)),
    -r ≤ x → x ≤ 0 → 0 ≤ y → y ≤ r →
    err = (x + 1) * (x + 1) + (y + 1) * (y + 1) - r * r →
    r - y - x + 1 ≤ (fuel : Int) →
    ∃ pts : List (Int × Int),
      circ_loop (fun (l : List (Int × Int)) x y => l ++ [(x, y)]) xm ym fuel x y err acc
        = some (acc ++ [(xm - x, ym + y), (xm - y, ym - x), (xm + x, ym - y), (xm + y, ym + x)]
            ++ pts) ∧
      ∀ p ∈ pts, int_abs (p.1 - xm) ≤ r ∧ int_abs (p.2 - ym) ≤ r := by
  induction fuel with
  | zero =>
    intro x y err acc hx0 hx1 hy0 hy1 herr hfuel
    exfalso
    simp only [Nat.cast_zero] at hfuel
    omega
  | succ f ih =>
    intro x y err acc hx0 hx1 hy0 hy1 herr hfuel
    have hyr : err ≤ y → y + 1 ≤ r := by
      intro h
      by_contra hc
      have h1 : r ≤ y := by omega
      have h2 : 0 ≤ (y - r) * (y + r) := mul_nonneg (by omega) (by omega)
      have h3 : 0 ≤ (x + 1) * (x + 1) := mul_self_nonneg _
      nlinarith
    have key : ∀ (x1 y1 err2 : Int), -r ≤ x1 → x1 ≤ 1 → 0 ≤ y1 → y1 ≤ r →
        err2 = (x1 + 1) * (x1 + 1) + (y1 + 1) * (y1 + 1) - r * r →
        x + y + 1 ≤ x1 + y1 →
        ∃ pts : List (Int × Int),
          (if x1 < 0 then
            circ_loop (fun (l : List (Int × Int)) x y => l ++ [(x, y)]) xm ym f x1 y1 err2
              (acc ++ [(xm - x, ym + y)] ++ [(xm - y, ym - x)] ++ [(xm + x, ym - y)]
                ++ [(xm + y, ym + x)])
          else some (acc ++ [(xm - x, ym + y)] ++ [(xm - y, ym - x)] ++ [(xm + x, ym - y)]
                ++ [(xm + y, ym + x)]))
            = some (acc ++ [(xm - x, ym + y), (xm - y, ym - x), (xm + x, ym - y),
                (xm + y, ym + x)] ++ pts) ∧
          ∀ p ∈ pts, int_abs (p.1 - xm) ≤ r ∧ int_abs (p.2 - ym) ≤ r := by
      intro x1 y1 err2 a1 a2 a3 a4 a5 a6
      by_cases hd : x1 < 0
      · rw [if_pos hd]
        have hf : r - y1 - x1 + 1 ≤ (f : Int) := by push_cast at hfuel; omega
        obtain ⟨pts, e, hp⟩ := ih x1 y1 err2 _ a1 (by omega) a3 a4 a5 hf
        refine ⟨[(xm - x1, ym + y1), (xm - y1, ym - x1), (xm + x1, ym - y1),
          (xm + y1, ym + x1)] ++ pts, ?_, ?_⟩
        · rw [e]
          simp only [List.append_assoc, List.singleton_append, List.cons_append,
            List.nil_append]
        · intro p hp2
          rw [List.mem_append] at hp2
          rcases hp2 with hp2 | hp2
          · simp only [List.mem_cons, List.mem_singleton, List.not_mem_nil, or_false] at hp2
            unfold int_abs
            rcases hp2 with rfl | rfl | rfl | rfl <;> constructor <;> simp only [] <;>
              split_ifs <;> omega
          · exact hp p hp2
      · rw [if_neg hd]
        refine ⟨[], ?_, ?_⟩
        · simp only [List.append_assoc, List.singleton_append, List.cons_append,
            List.nil_append, List.append_nil]
        · intro p hp2
          exact absurd hp2 (List.not_mem_nil p)
    rw [circ_loop]
    by_cases h1 : err > x <;> by_cases h2 : err ≤ y
    · simp only [h1, h2, if_true]
      exact key _ _ _ (by omega) (by omega) (by omega) (by have := hyr h2; omega)
        (by rw [herr]; ring) (by omega)
    · simp only [h1, h2, if_true, if_false]
      exact key _ _ _ (by omega) (by omega) (by omega) (by omega)
        (by rw [herr]; ring) (by omega)
    · simp only [h1, h2, if_true, if_false]
      exact key _ _ _ (by omega) (by omega) (by omega) (by have := hyr h2; omega)
        (by rw [herr]; ring) (by omega)
    · exfalso; omega

/-- The points `circ` plots for a radius `r ≥ 0`: all within `r` of the centre in each
coordinate, the four axis extremes among them; any fuel of at least `2 r + 1` passes
returns them. -/
theorem circ_points_spec (xm ym r : Int) (hr : 0 ≤ r) :
    ∃ pts : List (Int × Int),
      (∀ p ∈ pts, int_abs (p.1 - xm) ≤ r ∧ int_abs (p.2 - ym) ≤ r) ∧
      (xm + r, ym) ∈ pts ∧ (xm - r, ym) ∈ pts ∧ (xm, ym + r) ∈ pts ∧ (xm, ym - r) ∈ pts ∧
      ∀ fuel : Nat, 2 * r + 1 ≤ (fuel : Int) → circ_points fuel xm ym r = some pts := by
  have hfuel : r - 0 - -r + 1 ≤ (((2 * r + 1).toNat : Nat) : Int) := by omega
  obtain ⟨pts, e, hp⟩ := circ_loop_spec xm ym r (2 * r + 1).toNat (-r) 0 (2 - 2 * r) []
    (le_refl _) (by omega) (le_refl _) hr (by ring) hfuel
  have e1 : xm - -r = xm + r := by ring
  have e2 : xm + -r = xm - r := by ring
  have e3 : ym - -r = ym + r := by ring
  have e4 : ym + -r = ym - r := by ring
  simp only [List.nil_append, sub_zero, add_zero, e1, e2, e3, e4] at e
  refine ⟨[(xm + r, ym), (xm, ym + r), (xm - r, ym), (xm, ym - r)] ++ pts, ?_, ?_, ?_, ?_, ?_,
    ?_⟩
  · intro p hp2
    rw [List.mem_append] at hp2
    rcases hp2 with hp2 | hp2
    · simp only [List.mem_cons, List.mem_singleton, List.not_mem_nil, or_false] at hp2
      unfold int_abs
      rcases hp2 with rfl | rfl | rfl | rfl <;> constructor <;> simp only [] <;>
        split_ifs <;> omega
    · exact hp p hp2
  · simp
  · simp
  · simp
  · simp
  · intro fuel hf
    obtain ⟨k, rfl⟩ : ∃ k, fuel = (2 * r + 1).toNat + k :=
      ⟨fuel - (2 * r + 1).toNat, by omega⟩
    unfold circ_points circ_from
    rw [if_pos hr]
    exact circ_loop_mono _ _ _ k _ _ _ _ _ _ e

end pico_api

/-- C22: for every radius `r ≥ 0` the loop of `circ` terminates: there is one list of points,
each within `r` of the centre in both coordinates and with the four axis extremes
`(xm + r, ym)`, `(xm - r, ym)`, `(xm, ym + r)`, `(xm, ym - r)` among them (for `r = 0` every
point is the centre), such that with any fuel of at least `2 r + 1` passes `circ` returns
after calling `pico_private::pset` on exactly those points in order, `(xm, ym)` being the
centre after the camera translation; for `r < 0` nothing is plotted. -/
theorem C22_circ_points (xm ym r : Int) :
    (0 ≤ r → ∃ pts : List (Int × Int),
      (∀ p ∈ pts, pico_api.int_abs (p.1 - xm) ≤ r ∧ pico_api.int_abs (p.2 - ym) ≤ r) ∧
      (xm + r, ym) ∈ pts ∧ (xm - r, ym) ∈ pts ∧ (xm, ym + r) ∈ pts ∧ (xm, ym - r) ∈ pts ∧
      (r = 0 → ∀ p ∈ pts, p = (xm, ym)) ∧
      ∀ fuel : Nat, 2 * r + 1 ≤ (fuel : Int) →
        pico_api.circ_points fuel xm ym r = some pts ∧
        ∀ (c : Console) (col : Nat),
          pico_api.circ fuel c (xm + c.graphicsState.camera_x) (ym + c.graphicsState.camera_y)
              r col
            = some (pts.foldl (fun s p => pico_private.pset s p.1 p.2) (pico_api.color c col))) ∧
    (r < 0 → ∀ fuel : Nat,
      pico_api.circ_points fuel xm ym r = some [] ∧
      ∀ (c : Console) (col : Nat),
        pico_api.circ fuel c xm ym r col = some (pico_api.color c col)) := by
  constructor
  · intro hr
    obtain ⟨pts, hb, m1, m2, m3, m4, hrun⟩ := pico_api.circ_points_spec xm ym r hr
    refine ⟨pts, hb, m1, m2, m3, m4, ?_, ?_⟩
    · intro h0 p hp
      have hbp := hb p hp
      rw [h0] at hbp
      unfold pico_api.int_abs at hbp
      have h1 : p.1 = xm := by
        have := hbp.1
        split_ifs at this <;> omega
      have h2 : p.2 = ym := by
        have := hbp.2
        split_ifs at this <;> omega
      exact Prod.ext h1 h2
    · intro fuel hf
      have hp := hrun fuel hf
      refine ⟨hp, ?_⟩
      intro c col
      have hr2 := pico_api.circ_loop_replay pico_private.pset xm ym fuel (-r) 0 (2 - 2 * r) []
        (pico_api.color c col)
      unfold pico_api.circ_points pico_api.circ_from at hp
      rw [if_pos hr] at hp
      rw [hp] at hr2
      unfold pico_api.circ pico_api.circ_from pico_private.apply_camera
      simp only [add_sub_cancel_right]
      rw [if_pos hr]
      exact hr2.symm
  · intro hr fuel
    have hn : ¬ r ≥ 0 := by omega
    constructor
    · unfold pico_api.circ_points pico_api.circ_from
      rw [if_neg hn]
    · intro c col
      unfold pico_api.circ pico_api.circ_from
      rw [if_neg hn]

/-- C22 at the radius `3` about the origin, and at the radius `-1`. -/
theorem C22_circ_points_witness :
    ((0 : Int) ≤ 3 ∧ ∃ pts : List (Int × Int),
      (∀ p ∈ pts, pico_api.int_abs (p.1 - 0) ≤ 3 ∧ pico_api.int_abs (p.2 - 0) ≤ 3) ∧
      ((0 : Int) + 3, (0 : Int)) ∈ pts ∧ ((0 : Int) - 3, (0 : Int)) ∈ pts ∧
      ((0 : Int), (0 : Int) + 3) ∈ pts ∧ ((0 : Int), (0 : Int) - 3) ∈ pts ∧
      ((3 : Int) = 0 → ∀ p ∈ pts, p = (0, 0)) ∧
      ∀ fuel : Nat, 2 * 3 + 1 ≤ (fuel : Int) →
        pico_api.circ_points fuel 0 0 3 = some pts ∧
        ∀ (c : Console) (col : Nat),
          pico_api.circ fuel c (0 + c.graphicsState.camera_x) (0 + c.graphicsState.camera_y)
              3 col
            = some (pts.foldl (fun s p => pico_private.pset s p.1 p.2) (pico_api.color c col))) ∧
    ((-1 : Int) < 0 ∧ ∀ fuel : Nat,
      pico_api.circ_points fuel 0 0 (-1) = some [] ∧
      ∀ (c : Console) (col : Nat),
        pico_api.circ fuel c 0 0 (-1) col = some (pico_api.color c col)) :=
  ⟨⟨by decide, (C22_circ_points 0 0 3).1 (by decide)⟩,
   ⟨by decide, (C22_circ_points 0 0 (-1)).2 (by decide)⟩⟩

/-! ## Horizontal spans and single pixels -/

namespace pico_private

/-- With the pattern `0xffff` the dither test always selects the second colour. -/
theorem dither_ffff (x y : Int) : dither 0xffff x y = true := by
  have hx : (x % 4).toNat ≤ 3 := by omega
  have hy : (y % 4).toNat ≤ 3 := by omega
  have hk : (3 - (x % 4).toNat) + (3 - (y % 4).toNat) * 4 < 16 := by omega
  rw [dither_eq, show (65535 : Nat) = 2 ^ 16 - 1 by norm_num, Nat.testBit_two_pow_sub_one]
  simp [hk]

/-- The function `normalise_coords` returns the smaller and the larger argument. -/
theorem normalise_coords_eq (a b : Int) : normalise_coords a b = (min a b, max a b) := by
  unfold normalise_coords
  split_ifs with h
  · rw [min_eq_right (by omega), max_eq_left (by omega)]
  · rw [min_eq_left (by omega), max_eq_right (by omega)]

/-- Clamping both ends of `[lo, hi + 1)` to a well-formed `[a, b]`: the clamped span is not
inverted, not longer than `b - a`, and holds the columns of `[lo, hi]` that lie in
`[a, b)`. -/
theorem limit_span (lo hi a b d : Int) (hab : a ≤ b) (h : lo ≤ hi) :
    0 ≤ limit (hi + 1) a b - limit lo a b ∧
    limit (hi + 1) a b - limit lo a b ≤ b - a ∧
    ((limit lo a b ≤ d ∧ d < limit (hi + 1) a b) ↔ (lo ≤ d ∧ d ≤ hi ∧ a ≤ d ∧ d < b)) := by
  unfold limit
  split_ifs <;> omega

/-- The cell `memset` writes: inside the run it holds the value, elsewhere the old one, for
a length that fits a `size_t`. -/
theorem memset_apply (m : Mem) (p : Int) (v : Nat) (n b : Int) (h0 : 0 ≤ n) (h1 : n < SIZE_T) :
    memset m p v n b = if p ≤ b ∧ b < p + n then v else m b := by
  unfold memset
  rw [Int.emod_eq_of_lt h0 h1]

/-- What the per-pixel loop of `hline` leaves in the cell of column `d`. -/
theorem hline_loop_store_at (pix : Int) (pat fg bg : Nat) (y : Int) (n : Nat) :
    ∀ (x : Int) (c : Console) (d : Int),
    (hline_loop pix pat fg bg y n x c).backbuffer_store (pix + d) =
      if x ≤ d ∧ d < x + n then (if dither pat d y then bg else fg)
      else c.backbuffer_store (pix + d) := by
  induction n with
  | zero =>
    intro x c d
    have hc : ¬ (x ≤ d ∧ d < x + ((0 : Nat) : Int)) := by
      simp only [Nat.cast_zero]; omega
    rw [if_neg hc]
    rfl
  | succ n ih =>
    intro x c d
    rw [hline_loop, ih]
    simp only [Console.poke_store]
    by_cases h1 : x + 1 ≤ d ∧ d < x + 1 + (n : Int)
    · have h2 : x ≤ d ∧ d < x + ((n + 1 : Nat) : Int) := by push_cast; omega
      rw [if_pos h1, if_pos h2]
    · rw [if_neg h1]
      by_cases h3 : d = x
      · subst h3
        have h2 : d ≤ d ∧ d < d + ((n + 1 : Nat) : Int) := by push_cast; omega
        rw [if_pos h2, Mem.write_same]
      · have h2 : ¬ (x ≤ d ∧ d < x + ((n + 1 : Nat) : Int)) := by push_cast; omega
        rw [if_neg h2, Mem.write_other _ _ _ _ (by omega)]

/-- The loop of `hline` changes nothing but `backbuffer_store`. -/
theorem hline_loop_shape (pix : Int) (pat fg bg : Nat) (y : Int) (n : Nat) :
    ∀ (x : Int) (c : Console),
    hline_loop pix pat fg bg y n x c =
      { c with backbuffer_store := (hline_loop pix pat fg bg y n x c).backbuffer_store } := by
  induction n with
  | zero => intro x c; rfl
  | succ n ih =>
    intro x c
    rw [hline_loop]
    exact ih _ _

/-- The function `hline` changes nothing but `backbuffer_store`. -/
theorem hline_shape (c : Console) (x0 x1 y : Int) :
    hline c x0 x1 y = { c with backbuffer_store := (hline c x0 x1 y).backbuffer_store } := by
  unfold hline
  simp only []
  split_ifs <;> first | rfl | exact hline_loop_shape _ _ _ _ _ _ _ _

/-- The function `pico_private::pset` changes nothing but `backbuffer_store`. -/
theorem pset_shape (c : Console) (x y : Int) :
    pset c x y = { c with backbuffer_store := (pset c x y).backbuffer_store } := by
  unfold pset
  simp only []
  split_ifs <;> rfl

/-- What `pico_private::pset(x, y)` leaves in the cell of column `d` of row `y`. -/
theorem pset_store_at (c : Console) (x y d : Int) :
    (pset c x y).backbuffer_store (backbuffer + y * c.buffer_size_x + d) =
      if (c.graphicsState.clip_x1 ≤ x ∧ x < c.graphicsState.clip_x2 ∧
          c.graphicsState.clip_y1 ≤ y ∧ y < c.graphicsState.clip_y2) ∧ d = x then
        (if dither c.graphicsState.pattern x y
          then c.graphicsState.palette_map c.graphicsState.bg
          else c.graphicsState.palette_map c.graphicsState.fg)
      else c.backbuffer_store (backbuffer + y * c.buffer_size_x + d) := by
  rw [pset_eq_dither]
  by_cases h : x < c.graphicsState.clip_x1 ∨ x ≥ c.graphicsState.clip_x2 ∨
      y < c.graphicsState.clip_y1 ∨ y ≥ c.graphicsState.clip_y2
  · have hc : ¬ ((c.graphicsState.clip_x1 ≤ x ∧ x < c.graphicsState.clip_x2 ∧
        c.graphicsState.clip_y1 ≤ y ∧ y < c.graphicsState.clip_y2) ∧ d = x) := by omega
    rw [if_pos h, if_neg hc]
  · rw [if_neg h]
    by_cases hd : d = x
    · subst hd
      have hc : (c.graphicsState.clip_x1 ≤ d ∧ d < c.graphicsState.clip_x2 ∧
          c.graphicsState.clip_y1 ≤ y ∧ y < c.graphicsState.clip_y2) ∧ d = d :=
        ⟨by omega, rfl⟩
      rw [if_pos hc, Console.poke_store, Mem.write_same]
    · have hc : ¬ ((c.graphicsState.clip_x1 ≤ x ∧ x < c.graphicsState.clip_x2 ∧
          c.graphicsState.clip_y1 ≤ y ∧ y < c.graphicsState.clip_y2) ∧ d = x) := by omega
      rw [if_neg hc, Console.poke_store, Mem.write_other _ _ _ _ (by omega)]

/-- What `hline` leaves in the cell of column `d` of row `y`, for a clip rectangle whose
columns are not inverted and span less than a `size_t`: the dither colour of `d` when the
row is in the clip rectangle and `d` is a column of the span inside it, the old value
otherwise. -/
theorem hline_store_at (c : Console) (x0 x1 y d : Int)
    (hw : c.graphicsState.clip_x1 ≤ c.graphicsState.clip_x2)
    (hs : c.graphicsState.clip_x2 - c.graphicsState.clip_x1 < SIZE_T) :
    (hline c x0 x1 y).backbuffer_store (backbuffer + y * c.buffer_size_x + d) =
      if (c.graphicsState.clip_y1 ≤ y ∧ y < c.graphicsState.clip_y2) ∧
          min x0 x1 ≤ d ∧ d ≤ max x0 x1 ∧
          c.graphicsState.clip_x1 ≤ d ∧ d < c.graphicsState.clip_x2 then
        (if dither c.graphicsState.pattern d y
          then c.graphicsState.palette_map c.graphicsState.bg
          else c.graphicsState.palette_map c.graphicsState.fg)
      else c.backbuffer_store (backbuffer + y * c.buffer_size_x + d) := by
  have hmm : min x0 x1 ≤ max x0 x1 := by omega
  obtain ⟨l0, l1, l2⟩ := limit_span (min x0 x1) (max x0 x1) c.graphicsState.clip_x1
    c.graphicsState.clip_x2 d hw hmm
  generalize hX0 : limit (min x0 x1) c.graphicsState.clip_x1 c.graphicsState.clip_x2 = X0
    at l0 l1 l2
  generalize hX1 : limit (max x0 x1 + 1) c.graphicsState.clip_x1 c.graphicsState.clip_x2 = X1
    at l0 l1 l2
  unfold hline
  simp only [normalise_coords_eq, hX0, hX1]
  by_cases hy : y < c.graphicsState.clip_y1 ∨ y ≥ c.graphicsState.clip_y2
  · have hc : ¬ ((c.graphicsState.clip_y1 ≤ y ∧ y < c.graphicsState.clip_y2) ∧
        min x0 x1 ≤ d ∧ d ≤ max x0 x1 ∧
        c.graphicsState.clip_x1 ≤ d ∧ d < c.graphicsState.clip_x2) := by
      intro hh; omega
    rw [if_pos hy, if_neg hc]
  · rw [if_neg hy]
    have hy2 : c.graphicsState.clip_y1 ≤ y ∧ y < c.graphicsState.clip_y2 := by omega
    have hiff : ((c.graphicsState.clip_y1 ≤ y ∧ y < c.graphicsState.clip_y2) ∧
        min x0 x1 ≤ d ∧ d ≤ max x0 x1 ∧
        c.graphicsState.clip_x1 ≤ d ∧ d < c.graphicsState.clip_x2) ↔ (X0 ≤ d ∧ d < X1) :=
      ⟨fun hh => l2.2 hh.2, fun hh => ⟨hy2, l2.1 hh⟩⟩
    rw [if_congr hiff rfl rfl]
    have hlen : X1 - X0 < SIZE_T := by omega
    by_cases hp0 : c.graphicsState.pattern = 0
    · rw [if_pos hp0, hp0]
      simp only [dither_zero, Bool.false_eq_true, if_false]
      rw [memset_apply _ _ _ _ _ l0 hlen]
      have hiff2 : (backbuffer + y * c.buffer_size_x + X0 ≤ backbuffer + y * c.buffer_size_x + d ∧
          backbuffer + y * c.buffer_size_x + d < backbuffer + y * c.buffer_size_x + X0 + (X1 - X0))
          ↔ (X0 ≤ d ∧ d < X1) := by
        constructor <;> intro hh <;> constructor <;> linarith [hh.1, hh.2]
      rw [if_congr hiff2 rfl rfl]
    · rw [if_neg hp0]
      by_cases hp1 : c.graphicsState.pattern = 0xffff
      · rw [if_pos hp1, hp1]
        simp only [dither_ffff, if_true]
        rw [memset_apply _ _ _ _ _ l0 hlen]
        have hiff2 : (backbuffer + y * c.buffer_size_x + X0
              ≤ backbuffer + y * c.buffer_size_x + d ∧
            backbuffer + y * c.buffer_size_x + d
              < backbuffer + y * c.buffer_size_x + X0 + (X1 - X0))
            ↔ (X0 ≤ d ∧ d < X1) := by
          constructor <;> intro hh <;> constructor <;> linarith [hh.1, hh.2]
        rw [if_congr hiff2 rfl rfl]
      · rw [if_neg hp1, hline_loop_store_at]
        have hiff2 : (X0 ≤ d ∧ d < X0 + (((X1 - X0).toNat : Nat) : Int)) ↔ (X0 ≤ d ∧ d < X1) := by
          omega
        rw [if_congr hiff2 rfl rfl]

end pico_private

theorem pset_run_graphicsState (y : Int) (n : Nat) : ∀ (x : Int) (c : Console),
    (pset_run y n x c).graphicsState = c.graphicsState := by
  induction n with
  | zero => intro x c; rfl
  | succ n ih => intro x c; rw [pset_run, ih, pico_private.pset_graphicsState]

/-- A run of `pico_private::pset` changes nothing but `backbuffer_store`. -/
theorem pset_run_shape (y : Int) (n : Nat) : ∀ (x : Int) (c : Console),
    pset_run y n x c = { c with backbuffer_store := (pset_run y n x c).backbuffer_store } := by
  induction n with
  | zero => intro x c; rfl
  | succ n ih =>
    intro x c
    rw [pset_run]
    have h1 := ih (x + 1) (pico_private.pset c x y)
    have h2 := pico_private.pset_shape c x y
    rw [h1, h2]

/-- What a run of `pico_private::pset` over the columns `x … x + n - 1` of row `y` leaves in
the cell of column `d` of that row. -/
theorem pset_run_store_at (y : Int) (n : Nat) : ∀ (x : Int) (c : Console) (d : Int),
    (pset_run y n x c).backbuffer_store (backbuffer + y * c.buffer_size_x + d) =
      if (c.graphicsState.clip_y1 ≤ y ∧ y < c.graphicsState.clip_y2) ∧
          x ≤ d ∧ d < x + (n : Int) ∧
          c.graphicsState.clip_x1 ≤ d ∧ d < c.graphicsState.clip_x2 then
        (if pico_private.dither c.graphicsState.pattern d y
          then c.graphicsState.palette_map c.graphicsState.bg
          else c.graphicsState.palette_map c.graphicsState.fg)
      else c.backbuffer_store (backbuffer + y * c.buffer_size_x + d) := by
  induction n with
  | zero =>
    intro x c d
    have hc : ¬ ((c.graphicsState.clip_y1 ≤ y ∧ y < c.graphicsState.clip_y2) ∧
        x ≤ d ∧ d < x + ((0 : Nat) : Int) ∧
        c.graphicsState.clip_x1 ≤ d ∧ d < c.graphicsState.clip_x2) := by
      simp only [Nat.cast_zero]; omega
    rw [if_neg hc]
    rfl
  | succ n ih =>
    intro x c d
    rw [pset_run]
    have h := ih (x + 1) (pico_private.pset c x y) d
    rw [pico_private.pset_graphicsState, pico_private.pset_buffer_size_x] at h
    rw [h, pico_private.pset_store_at]
    by_cases h1 : (c.graphicsState.clip_y1 ≤ y ∧ y < c.graphicsState.clip_y2) ∧
        x + 1 ≤ d ∧ d < x + 1 + (n : Int) ∧
        c.graphicsState.clip_x1 ≤ d ∧ d < c.graphicsState.clip_x2
    · have h2 : (c.graphicsState.clip_y1 ≤ y ∧ y < c.graphicsState.clip_y2) ∧
          x ≤ d ∧ d < x + ((n + 1 : Nat) : Int) ∧
          c.graphicsState.clip_x1 ≤ d ∧ d < c.graphicsState.clip_x2 := by
        push_cast; omega
      rw [if_pos h1, if_pos h2]
    · rw [if_neg h1]
      by_cases h3 : (c.graphicsState.clip_x1 ≤ x ∧ x < c.graphicsState.clip_x2 ∧
          c.graphicsState.clip_y1 ≤ y ∧ y < c.graphicsState.clip_y2) ∧ d = x
      · have h2 : (c.graphicsState.clip_y1 ≤ y ∧ y < c.graphicsState.clip_y2) ∧
            x ≤ d ∧ d < x + ((n + 1 : Nat) : Int) ∧
            c.graphicsState.clip_x1 ≤ d ∧ d < c.graphicsState.clip_x2 := by
          push_cast; omega
        rw [if_pos h3, if_pos h2, h3.2]
      · have h2 : ¬ ((c.graphicsState.clip_y1 ≤ y ∧ y < c.graphicsState.clip_y2) ∧
            x ≤ d ∧ d < x + ((n + 1 : Nat) : Int) ∧
            c.graphicsState.clip_x1 ≤ d ∧ d < c.graphicsState.clip_x2) := by
          push_cast; omega
        rw [if_neg h3, if_neg h2]

/-- For a clip rectangle whose columns are not inverted and span less than a `size_t`,
`hline` and the per-pixel run of `pico_private::pset` give the same console. -/
theorem hline_eq_pset_run (c : Console) (x0 x1 y : Int)
    (hw : c.graphicsState.clip_x1 ≤ c.graphicsState.clip_x2)
    (hs : c.graphicsState.clip_x2 - c.graphicsState.clip_x1 < SIZE_T) :
    pico_private.hline c x0 x1 y = hline_by_pset c x0 x1 y := by
  unfold hline_by_pset
  rw [pico_private.hline_shape, pset_run_shape]
  congr 1
  funext a
  have ea : a = backbuffer + y * c.buffer_size_x + (a - (backbuffer + y * c.buffer_size_x)) := by
    ring
  generalize a - (backbuffer + y * c.buffer_size_x) = d at ea
  subst ea
  rw [pico_private.hline_store_at c x0 x1 y d hw hs, pset_run_store_at]
  have hiff : ((c.graphicsState.clip_y1 ≤ y ∧ y < c.graphicsState.clip_y2) ∧
      min x0 x1 ≤ d ∧ d < min x0 x1 + (((max x0 x1 - min x0 x1 + 1).toNat : Nat) : Int) ∧
      c.graphicsState.clip_x1 ≤ d ∧ d < c.graphicsState.clip_x2) ↔
      ((c.graphicsState.clip_y1 ≤ y ∧ y < c.graphicsState.clip_y2) ∧
      min x0 x1 ≤ d ∧ d ≤ max x0 x1 ∧
      c.graphicsState.clip_x1 ≤ d ∧ d < c.graphicsState.clip_x2) := by
    omega
  rw [if_congr hiff rfl rfl]

/-- C21: for every console whose clip columns are well formed and inside the 128-wide
framebuffer (`0 ≤ clip_x1 ≤ clip_x2 ≤ 128`), every pattern, `fg`, `bg`, palette map, clip
rows and buffer width, and every `x0`, `x1`, `y`: `hline(x0, x1, y)` gives the same state as
`pico_private::pset(x, y)` called for every `x` from `min(x0, x1)` to `max(x0, x1)`
inclusive, on the two `memset` paths and on the per-pixel dither path alike. -/
theorem C21_hline_is_pset_span (c : Console) (x0 x1 y : Int)
    (h0 : 0 ≤ c.graphicsState.clip_x1)
    (hw : c.graphicsState.clip_x1 ≤ c.graphicsState.clip_x2)
    (h1 : c.graphicsState.clip_x2 ≤ 128) :
    pico_private.hline c x0 x1 y = hline_by_pset c x0 x1 y := by
  apply hline_eq_pset_run c x0 x1 y hw
  have e : SIZE_T = 18446744073709551616 := by decide
  rw [e]
  omega

/-- C21 after `clip(10, 0, 20, 128)` and `fillp(0x5a5a)`, for the span from column `40` back
to column `5` of row `7`. -/
theorem C21_hline_is_pset_span_witness :
    (0 ≤ (pico_api.fillp (pico_api.clip Console.initial 10 0 20 128) 0x5a5a).graphicsState.clip_x1
      ∧ (pico_api.fillp (pico_api.clip Console.initial 10 0 20 128) 0x5a5a).graphicsState.clip_x1
        ≤ (pico_api.fillp (pico_api.clip Console.initial 10 0 20 128) 0x5a5a).graphicsState.clip_x2
      ∧ (pico_api.fillp (pico_api.clip Console.initial 10 0 20 128) 0x5a5a).graphicsState.clip_x2
        ≤ 128) ∧
    pico_private.hline (pico_api.fillp (pico_api.clip Console.initial 10 0 20 128) 0x5a5a) 40 5 7
      = hline_by_pset (pico_api.fillp (pico_api.clip Console.initial 10 0 20 128) 0x5a5a) 40 5 7 :=
  ⟨⟨by decide, by decide, by decide⟩,
   C21_hline_is_pset_span _ 40 5 7 (by decide) (by decide) (by decide)⟩

end Tac08
